import Mathlib

/-!
Teminder: the interactive task-session controller.

A shallow embedding of `Task.hpp`, `DatabaseManager.cpp`, `RedisManager.cpp`,
`ConfigManager.cpp` and `TaskListView.cpp`, and the properties proved about it.

Conventions of the embedding:

* a `std::string` is the list of its `char`s (`Str`), one `Char` for each
  byte; a string literal that is not ASCII is given by its bytes (`bytes`);
* C++ `int`, `time_t` and `int64_t` values are `Int` (no arithmetic in the
  controller comes near the machine bounds); where a text is converted the
  bounds are explicit: `%d` of `sscanf` stores the 32 low bits of the `long`
  that `strtol` returns (`scan_int`), and `std::stoi` throws outside `int`;
* a text column of the store is read back as a C string, up to its first NUL
  byte (`getText`);
* every member function becomes a function from the old state to the new state;
* library calls whose result the program cannot determine (`mktime`, `localtime`,
  the clock, the AI service) are fields of `Env`;
* a statement of the store that throws leaves the store as it was; whether the
  next statement throws is read from `World.db_outcomes`; the same for the
  replies of the cache server and `World.redis_outcomes`;
* an exception that nothing catches before `main` (`std::stoi` and
  `json::dump` can throw one) ends the handler at the statement that throws;
  the state is the one reached there, with `World.exited` set.
-/

namespace Teminder

/-- A `std::string`, as the list of its `char`s. -/
abbrev Str := List Char

/-! ## Task.hpp -/

/-- The `Task` record of `Task.hpp`. -/
structure Task where
  id : Int
  description : Str
  is_completed : Bool
  priority : Int
  created_at : Int
  due_date : Option Int
  links : List Str
  tags : List Int
  parent_id : Option Int
  progress : Int
  status : Int
deriving DecidableEq, Repr

/-- The default constructor `Task()`; `now` is the value of `time(nullptr)`. -/
def Task.default (now : Int) : Task :=
  { id := 0, description := [], is_completed := false, priority := 0,
    created_at := now, due_date := none, links := [], tags := [],
    parent_id := none, progress := 0, status := 0 }

/-- The member `Task::is_overdue`; `now` is the value of `time(nullptr)`. -/
def Task.is_overdue (t : Task) (now : Int) : Bool :=
  if t.due_date.isNone || t.is_completed then false
  else decide (t.due_date.getD 0 < now)

/-- The member `Task::is_subtask`. -/
def Task.is_subtask (t : Task) : Bool := t.parent_id.isSome

/-- The `struct tm` fields the program reads or writes. -/
structure Tm where
  tm_year : Int
  tm_mon : Int
  tm_mday : Int
  tm_hour : Int
  tm_min : Int
  tm_sec : Int
deriving DecidableEq, Repr

/-! ## `sscanf` with `%d`, literal characters and white space -/

/-- The C `isspace` in the C locale. -/
def isspace (c : Char) : Bool :=
  c == ' ' || c == '\t' || c == '\n' || c == '\x0b' || c == '\x0c' || c == '\r'

/-- The C `isdigit`. -/
def isdigit (c : Char) : Bool := '0' ≤ c && c ≤ '9'

/-- Skip leading white space. -/
def skip_ws : Str → Str
  | [] => []
  | c :: cs => if isspace c then skip_ws cs else c :: cs

/-- Consume the longest run of decimal digits, accumulating its value. -/
def scan_digits : Nat → Str → Nat × Str
  | acc, [] => (acc, [])
  | acc, c :: cs =>
    if isdigit c then scan_digits (10 * acc + (c.toNat - '0'.toNat)) cs
    else (acc, c :: cs)

/-- The digits of an unsigned number: at least one digit is required. -/
def scan_unsigned : Str → Option (Nat × Str)
  | [] => none
  | c :: cs => if isdigit c then some (scan_digits 0 (c :: cs)) else none

/-- The leading decimal integer of a text, as `strtol` reads it: skip white
space, an optional sign, then one or more digits; the value is the exact one.
`none` when no digit is there. -/
def scan_decimal (s : Str) : Option (Int × Str) :=
  match skip_ws s with
  | '-' :: cs => (scan_unsigned cs).map (fun r => (-(r.1 : Int), r.2))
  | '+' :: cs => (scan_unsigned cs).map (fun r => ((r.1 : Int), r.2))
  | cs => (scan_unsigned cs).map (fun r => ((r.1 : Int), r.2))

/-- The `long` (64 bits) that `strtol` returns for a text of the exact value
`v`: `LONG_MAX` or `LONG_MIN` when `v` is out of range. -/
def strtol_value (v : Int) : Int :=
  if v > 9223372036854775807 then 9223372036854775807
  else if v < -9223372036854775808 then -9223372036854775808
  else v

/-- The cast of a `long` to `int` (32 bits, two's complement): the value
modulo 2^32 in the range of `int`. -/
def to_int (v : Int) : Int := (v + 2147483648) % 4294967296 - 2147483648

/-- The conversion `%d` of `sscanf` into an `int` target, as glibc makes it:
the digits are converted with `strtol` and the result is stored through a cast
to `int`, so a field above `INT_MAX` is stored as another number. `none` is a
matching (or input) failure. -/
def scan_int (s : Str) : Option (Int × Str) :=
  (scan_decimal s).map (fun r => (to_int (strtol_value r.1), r.2))

/-- The directives of the format strings the program uses. -/
inductive Directive where
  | int
  | lit (c : Char)
  | ws
deriving DecidableEq, Repr

/-- The conversions `sscanf` makes, in order, before the first failure. The
return value of `sscanf` is the length of this list (an input failure before the
first conversion returns `EOF`, which the callers' test `>= 3` treats as it does 0). -/
def sscanf : List Directive → Str → List Int
  | [], _ => []
  | Directive.int :: fmt, s =>
    match scan_int s with
    | some (v, rest) => v :: sscanf fmt rest
    | none => []
  | Directive.lit c :: fmt, s =>
    match s with
    | d :: rest => if d = c then sscanf fmt rest else []
    | [] => []
  | Directive.ws :: fmt, s => sscanf fmt (skip_ws s)

/-- The format "%d-%d-%d". -/
def fmt_date : List Directive :=
  [Directive.int, Directive.lit '-', Directive.int, Directive.lit '-', Directive.int]

/-- The format "%d-%d-%d %d:%d". -/
def fmt_date_hm : List Directive :=
  fmt_date ++ [Directive.ws, Directive.int, Directive.lit ':', Directive.int]

/-- The format "%d-%d-%d %d:%d:%d". -/
def fmt_date_hms : List Directive :=
  fmt_date_hm ++ [Directive.lit ':', Directive.int]

/-- The six `int` targets of the due-date `sscanf` calls: `tm.tm_year`,
`tm.tm_mon`, `tm.tm_mday`, `hour`, `minute`, `second`. -/
structure ScanVars where
  year : Int
  mon : Int
  mday : Int
  hour : Int
  minute : Int
  second : Int
deriving DecidableEq, Repr

/-- Store the converted values into their targets; a target without a conversion
keeps its value. -/
def ScanVars.assign (v : ScanVars) (vals : List Int) : ScanVars :=
  { year := vals.getD 0 v.year, mon := vals.getD 1 v.mon, mday := vals.getD 2 v.mday,
    hour := vals.getD 3 v.hour, minute := vals.getD 4 v.minute,
    second := vals.getD 5 v.second }

/-- The due-date cascade of `save_task` and `save_subtask` (the two copies are
the same text): the `struct tm` handed to `mktime`, or `none` for the branch
"Invalid date format". -/
def parse_due_date (buf : Str) : Option Tm :=
  let v0 : ScanVars := ⟨0, 0, 0, 0, 0, 0⟩
  let r1 := sscanf fmt_date_hms buf
  let v1 := v0.assign r1
  if 3 ≤ r1.length then
    some { tm_year := v1.year - 1900, tm_mon := v1.mon - 1, tm_mday := v1.mday,
           tm_hour := v1.hour, tm_min := v1.minute, tm_sec := v1.second }
  else
    let r2 := sscanf fmt_date_hm buf
    let v2 := v1.assign r2
    if 3 ≤ r2.length then
      some { tm_year := v2.year - 1900, tm_mon := v2.mon - 1, tm_mday := v2.mday,
             tm_hour := v2.hour, tm_min := v2.minute, tm_sec := 0 }
    else
      let r3 := sscanf fmt_date buf
      let v3 := v2.assign r3
      if 3 ≤ r3.length then
        some { tm_year := v3.year - 1900, tm_mon := v3.mon - 1, tm_mday := v3.mday,
               tm_hour := 0, tm_min := 0, tm_sec := 0 }
      else none

/-! ## Decimal fields and the shapes of a due date -/

/-- The value of a decimal digit character. -/
def digit_value (c : Char) : Nat := c.toNat - '0'.toNat

/-- The number a run of decimal digits denotes (most significant digit first). -/
def dec_value (ds : Str) : Nat := Nat.ofDigits 10 (ds.reverse.map digit_value)

/-- A non-empty run of decimal digits. -/
def is_number (ds : Str) : Prop := ds ≠ [] ∧ ∀ c ∈ ds, isdigit c = true

/-- A non-empty run of decimal digits whose value an `int` holds: at most
`INT_MAX` = 2147483647. -/
def is_int_number (ds : Str) : Prop := is_number ds ∧ dec_value ds ≤ 2147483647

/-- The text does not begin with a decimal digit. -/
def no_digit_head (s : Str) : Prop := ∀ c ∈ s.head?, isdigit c = false

/-- The number of `%d` directives of a format. -/
def conversions : List Directive → Nat
  | [] => 0
  | Directive.int :: fmt => conversions fmt + 1
  | _ :: fmt => conversions fmt

/-- Split a text at every occurrence of a character. -/
def split_on (c : Char) : Str → List Str
  | [] => [[]]
  | x :: xs =>
    if x = c then [] :: split_on c xs
    else
      match split_on c xs with
      | first :: more => (x :: first) :: more
      | [] => [[x]]

/-- A non-empty run of decimal digits, as a test. -/
def is_number_text (s : Str) : Bool := !s.isEmpty && s.all isdigit

/-- The three shapes the specification names for a due date: `Y-M-D`,
`Y-M-D h:m` and `Y-M-D h:m:s`, every field a non-empty run of decimal digits
and nothing else in the text. -/
def date_shape (b : Str) : Bool :=
  let is_date (t : Str) : Bool :=
    match split_on '-' t with
    | [y, m, d] => is_number_text y && is_number_text m && is_number_text d
    | _ => false
  let is_time (t : Str) : Bool :=
    match split_on ':' t with
    | [h, m] => is_number_text h && is_number_text m
    | [h, m, sec] => is_number_text h && is_number_text m && is_number_text sec
    | _ => false
  match split_on ' ' b with
  | [date] => is_date date
  | [date, time] => is_date date && is_time time
  | _ => false

/-! ## DatabaseManager.cpp -/

/-- A row of the table `tasks`. -/
structure Row where
  id : Int
  description : Str
  is_completed : Bool
  priority : Int
  created_at : Int
  due_date : Option Int
  parent_id : Option Int
  progress : Int
  status : Int
deriving DecidableEq, Repr

/-- A row of the table `task_links`. -/
structure LinkRow where
  task_id : Int
  link : Str
deriving DecidableEq, Repr

/-- The SQLite database behind `DatabaseManager`: both tables in rowid order and
the AUTOINCREMENT high-water mark of `tasks`. The program never enables
`PRAGMA foreign_keys`, so the `ON DELETE CASCADE` clauses are inert. -/
structure DatabaseManager where
  tasks : List Row
  task_links : List LinkRow
  seq : Int
deriving DecidableEq, Repr

/-- The text a `std::string` takes from `Column::getText()`: the column is
handed over as a C string, which ends before the first NUL byte of the stored
text (the writers bind the text with its size, so the table holds all of it). -/
def getText (s : Str) : Str := s.takeWhile (fun c => c ≠ Char.ofNat 0)

/-- The member `DatabaseManager::get_task_links`:
`SELECT link FROM task_links WHERE task_id = ?`, each link read with `getText`. -/
def DatabaseManager.get_task_links (db : DatabaseManager) (task_id : Int) : List Str :=
  (db.task_links.filter (fun l => l.task_id = task_id)).map (fun l => getText l.link)

/-- The loop body shared by the SELECT readers: a default `Task` whose columns
are filled from the row (the description with `getText`) and whose links are
loaded with `get_task_links`; `tags` stays empty. -/
def DatabaseManager.load_task (db : DatabaseManager) (r : Row) : Task :=
  { id := r.id, description := getText r.description, is_completed := r.is_completed,
    priority := r.priority, created_at := r.created_at, due_date := r.due_date,
    links := db.get_task_links r.id, tags := [], parent_id := r.parent_id,
    progress := r.progress, status := r.status }

/-- SQLite's ascending order on an INTEGER column: NULL sorts before every value. -/
def due_date_asc : Option Int → Option Int → Bool
  | none, _ => true
  | some _, none => false
  | some a, some b => decide (a ≤ b)

/-- The clause `ORDER BY priority DESC, due_date ASC`: `a` may precede `b`. -/
def order_by (a b : Row) : Prop :=
  b.priority < a.priority ∨ (a.priority = b.priority ∧ due_date_asc a.due_date b.due_date = true)

instance : DecidableRel order_by := fun a b => by
  unfold order_by; exact inferInstance

/-- The member `DatabaseManager::get_all_tasks`: the rows (all, or those with
`is_completed = 0`), sorted by the ORDER BY clause, each loaded into a `Task`.
SQL leaves the order of rows with equal keys open; SQLite answers this query by
scanning `idx_tasks_priority` backwards, so rows with equal keys come with the
larger rowid first: the sort, which keeps rows with equal keys in the order
they arrive in, is given the rows in descending rowid order. No property below
states the order of rows with equal keys. -/
def DatabaseManager.get_all_tasks (db : DatabaseManager) (include_completed : Bool) :
    List Task :=
  let rows := if include_completed then db.tasks
              else db.tasks.filter (fun r => r.is_completed = false)
  (rows.reverse.insertionSort order_by).map db.load_task

/-- The clause `ORDER BY priority DESC` of `get_subtasks`. -/
def order_by_priority (a b : Row) : Prop := b.priority ≤ a.priority

instance : DecidableRel order_by_priority := fun a b => by
  unfold order_by_priority; exact inferInstance

/-- The member `DatabaseManager::get_subtasks`; SQLite finds the rows through
`idx_tasks_parent_id`, so rows of equal priority come in rowid order. -/
def DatabaseManager.get_subtasks (db : DatabaseManager) (parent_id : Int) : List Task :=
  ((db.tasks.filter (fun r => r.parent_id = some parent_id)).insertionSort
    order_by_priority).map db.load_task

/-- The member `DatabaseManager::get_task_by_id`. -/
def DatabaseManager.get_task_by_id (db : DatabaseManager) (task_id : Int) : Option Task :=
  (db.tasks.find? (fun r => r.id = task_id)).map db.load_task

/-- The member `DatabaseManager::add_task_link`; `ok = false` when the INSERT
throws. Returns the store and the `bool` result. -/
def DatabaseManager.add_task_link (db : DatabaseManager) (ok : Bool) (task_id : Int)
    (link : Str) : DatabaseManager × Bool :=
  if ok then ({ db with task_links := db.task_links ++ [⟨task_id, link⟩] }, true)
  else (db, false)

/-- The rowid an AUTOINCREMENT insert assigns: one more than the largest rowid
ever used. -/
def DatabaseManager.next_id (db : DatabaseManager) : Int :=
  (db.tasks.foldl (fun m r => max m r.id) (max db.seq 0)) + 1

/-- The member `DatabaseManager::add_task`; `ok = false` when the INSERT throws,
`link_oks` are the outcomes of the `add_task_link` calls of its loop (a missing
entry is a success). Returns the store and the `int` result. -/
def DatabaseManager.add_task (db : DatabaseManager) (ok : Bool) (link_oks : List Bool)
    (task : Task) : DatabaseManager × Int :=
  if ok then
    let task_id := db.next_id
    let row : Row :=
      { id := task_id, description := task.description, is_completed := task.is_completed,
        priority := task.priority, created_at := task.created_at, due_date := task.due_date,
        parent_id := task.parent_id, progress := task.progress, status := task.status }
    let db1 : DatabaseManager := { db with tasks := db.tasks ++ [row], seq := task_id }
    let db2 := (task.links.zip (List.range task.links.length)).foldl
      (fun d p => (d.add_task_link (link_oks.getD p.2 true) task_id p.1).1) db1
    (db2, task_id)
  else (db, -1)

/-- The member `DatabaseManager::update_task`: every column but `created_at` of
the rows with the task's id; `true` also when no row has that id. -/
def DatabaseManager.update_task (db : DatabaseManager) (ok : Bool) (task : Task) :
    DatabaseManager × Bool :=
  if ok then
    ({ db with tasks := db.tasks.map (fun r =>
        if r.id = task.id then
          { r with description := task.description, is_completed := task.is_completed,
                   priority := task.priority, due_date := task.due_date,
                   parent_id := task.parent_id, progress := task.progress,
                   status := task.status }
        else r) }, true)
  else (db, false)

/-- The member `DatabaseManager::delete_task`. -/
def DatabaseManager.delete_task (db : DatabaseManager) (ok : Bool) (task_id : Int) :
    DatabaseManager × Bool :=
  if ok then ({ db with tasks := db.tasks.filter (fun r => r.id ≠ task_id) }, true)
  else (db, false)

/-! ## RedisManager.cpp -/

/-- A JSON value of nlohmann::json: `num` is an integer number, `real` a number
written with a fraction or an exponent (the rational its `double` is). -/
inductive JsonValue where
  | null
  | bool (b : Bool)
  | num (n : Int)
  | real (q : ℚ)
  | str (s : Str)
  | arr (xs : List JsonValue)
  | obj (kvs : List (Str × JsonValue))

/-- The first byte of a UTF-8 sequence, as the decoder of nlohmann's `dump`
reads it: how many bytes must follow, and the range of the next one; `none` for
a byte that starts no sequence. -/
def utf8_lead (b : Nat) : Option (Nat × Nat × Nat) :=
  if b < 0x80 then some (0, 0x80, 0xBF)
  else if 0xC2 ≤ b ∧ b ≤ 0xDF then some (1, 0x80, 0xBF)
  else if b = 0xE0 then some (2, 0xA0, 0xBF)
  else if b = 0xED then some (2, 0x80, 0x9F)
  else if 0xE1 ≤ b ∧ b ≤ 0xEF then some (2, 0x80, 0xBF)
  else if b = 0xF0 then some (3, 0x90, 0xBF)
  else if b = 0xF4 then some (3, 0x80, 0x8F)
  else if 0xF1 ≤ b ∧ b ≤ 0xF3 then some (3, 0x80, 0xBF)
  else none

/-- One step of the decoder on the next byte; `none` is its rejecting state,
`some (0, _, _)` its accepting state. -/
def utf8_next (st : Option (Nat × Nat × Nat)) (c : Char) : Option (Nat × Nat × Nat) :=
  match st with
  | none => none
  | some (0, _, _) => utf8_lead c.toNat
  | some (n + 1, lo, hi) =>
    if lo ≤ c.toNat ∧ c.toNat ≤ hi then some (n, 0x80, 0xBF) else none

/-- The text is valid UTF-8: the decoder never rejects and ends in its accepting
state. `dump` throws `type_error` 316 on a string that is not. -/
def utf8_valid (s : Str) : Bool :=
  match s.foldl utf8_next (some (0, 0x80, 0xBF)) with
  | some (0, _, _) => true
  | _ => false

/-- The strings of the object `serialize_task` builds are valid UTF-8, so that
`dump` returns. -/
def dump_ok (task : Task) : Bool :=
  utf8_valid task.description && task.links.all utf8_valid

/-- The object `RedisManager::serialize_task` builds before it calls `dump`
(`progress` and `status` are not among its keys). -/
def task_json (task : Task) : JsonValue :=
  JsonValue.obj
    [ ("id".toList, JsonValue.num task.id),
      ("description".toList, JsonValue.str task.description),
      ("is_completed".toList, JsonValue.bool task.is_completed),
      ("priority".toList, JsonValue.num task.priority),
      ("created_at".toList, JsonValue.num task.created_at),
      ("due_date".toList,
        match task.due_date with
        | some d => JsonValue.num d
        | none => JsonValue.null),
      ("parent_id".toList,
        match task.parent_id with
        | some q => JsonValue.num q
        | none => JsonValue.null),
      ("links".toList, JsonValue.arr (task.links.map JsonValue.str)),
      ("tags".toList, JsonValue.arr (task.tags.map JsonValue.num)) ]

/-- The member `RedisManager::serialize_task`, up to the text of `dump`: the
object it builds; `none` when `dump` throws. -/
def serialize_task (task : Task) : Option JsonValue :=
  if dump_ok task then some (task_json task) else none

/-- The state of a `RedisManager` and of the server it talks to: the flag
`connected` and the values stored under the keys `task:<id>`, indexed by id
(expiry of a key is not modelled). The commands take the outcome `ok` of their
`redisCommand`: `true` when the server executes the command and sends the reply
of the expected type; `false` when it sends an error reply (the command is not
executed, later commands are answered as before), or when no reply arrives
(hiredis then fails every later command on the context: the outcomes that
follow are `false` too). -/
structure RedisManager where
  connected : Bool
  entries : List (Int × JsonValue)
  cache_hits : Int := 0
  cache_misses : Int := 0

/-- The member `RedisManager::cache_task`; `ok = false` when the server's reply
is not the status `OK` (an error reply) or is missing, and the key is then left
as it was; `none` when `serialize_task` throws (the function does not catch
it). -/
def RedisManager.cache_task (r : RedisManager) (ok : Bool) (task : Task) :
    Option (RedisManager × Bool) :=
  if !r.connected then some (r, false)
  else
    match serialize_task task with
    | none => none
    | some value =>
      if ok then
        some ({ r with entries :=
          (task.id, value) :: r.entries.filter (fun e => e.1 ≠ task.id) }, true)
      else some (r, false)

/-- The member `RedisManager::invalidate_task`; `ok = false` when the server's
reply to `DEL` is not an integer reply (an error reply) or is missing: the
function returns `false` and the key is left as it was. -/
def RedisManager.invalidate_task (r : RedisManager) (ok : Bool) (task_id : Int) :
    RedisManager × Bool :=
  if !r.connected then (r, false)
  else if ok then ({ r with entries := r.entries.filter (fun e => e.1 ≠ task_id) }, true)
  else (r, false)

/-- The access `j[key]` of nlohmann::json on a non-const value: the member of
an object, `null` for a missing member or a `null` value; `none` when it throws
(the value is of another type). -/
def JsonValue.member (j : JsonValue) (key : Str) : Option JsonValue :=
  match j with
  | JsonValue.obj kvs =>
    match kvs.find? (fun kv => kv.1 = key) with
    | some kv => some kv.2
    | none => some JsonValue.null
  | JsonValue.null => some JsonValue.null
  | _ => none

/-- The conversions `get<int>()` and `get<long long>()`: an integer number, a
number with a fraction cut to its integer part (`static_cast`), or a boolean
as 0 or 1; `none` when it throws. -/
def JsonValue.get_int : JsonValue → Option Int
  | JsonValue.num n => some n
  | JsonValue.real q => some (q.num.tdiv q.den)
  | JsonValue.bool b => some (if b then 1 else 0)
  | _ => none

/-- The conversion `get<bool>()`. -/
def JsonValue.get_bool : JsonValue → Option Bool
  | JsonValue.bool b => some b
  | _ => none

/-- The conversion `get<string>()`. -/
def JsonValue.get_string : JsonValue → Option Str
  | JsonValue.str s => some s
  | _ => none

/-- The elements of a list of conversions, when none of them throws. -/
def collect {α : Type} : List (Option α) → Option (List α)
  | [] => some []
  | none :: _ => none
  | some x :: rest => (collect rest).map (fun xs => x :: xs)

/-- The conversion `get<vector<string>>()`. -/
def JsonValue.get_strings : JsonValue → Option (List Str)
  | JsonValue.arr xs => collect (xs.map JsonValue.get_string)
  | _ => none

/-- The conversion `get<vector<int>>()`. -/
def JsonValue.get_ints : JsonValue → Option (List Int)
  | JsonValue.arr xs => collect (xs.map JsonValue.get_int)
  | _ => none

/-- The test `is_null()`. -/
def JsonValue.is_null : JsonValue → Bool
  | JsonValue.null => true
  | _ => false

/-- The read `j[key].get<int>()` (and `get<long long>()`). -/
def JsonValue.int_at (j : JsonValue) (key : Str) : Option Int :=
  (j.member key).bind JsonValue.get_int

/-- The read `j[key].get<string>()`. -/
def JsonValue.string_at (j : JsonValue) (key : Str) : Option Str :=
  (j.member key).bind JsonValue.get_string

/-- The read `j[key].get<bool>()`. -/
def JsonValue.bool_at (j : JsonValue) (key : Str) : Option Bool :=
  (j.member key).bind JsonValue.get_bool

/-- The read `if (!j[key].is_null()) ... = j[key].get<...>()` of an optional
member: `some none` when the member is `null` and the field keeps `nullopt`. -/
def JsonValue.opt_int_at (j : JsonValue) (key : Str) : Option (Option Int) :=
  (j.member key).bind (fun v => if v.is_null then some none else v.get_int.map some)

/-- The read `j[key].get<vector<string>>()`. -/
def JsonValue.strings_at (j : JsonValue) (key : Str) : Option (List Str) :=
  (j.member key).bind JsonValue.get_strings

/-- The read `j[key].get<vector<int>>()`. -/
def JsonValue.ints_at (j : JsonValue) (key : Str) : Option (List Int) :=
  (j.member key).bind JsonValue.get_ints

/-- The member `RedisManager::deserialize_task`, on the value `json::parse`
returns for the text: a default `Task` whose members are filled from the keys
the function reads; `none` when a conversion throws. The value of
`time(nullptr)` the default constructor stores in `created_at` is overwritten,
`progress` and `status` keep the constructor's 0. -/
def deserialize_task (j : JsonValue) : Option Task := do
  let id ← j.int_at "id".toList
  let description ← j.string_at "description".toList
  let is_completed ← j.bool_at "is_completed".toList
  let priority ← j.int_at "priority".toList
  let created_at ← j.int_at "created_at".toList
  let due_date ← j.opt_int_at "due_date".toList
  let parent_id ← j.opt_int_at "parent_id".toList
  let links ← j.strings_at "links".toList
  let tags ← j.ints_at "tags".toList
  some
    { id := id, description := description, is_completed := is_completed,
      priority := priority, created_at := created_at, due_date := due_date,
      links := links, tags := tags, parent_id := parent_id, progress := 0, status := 0 }

/-- The member `RedisManager::get_cached_task`; `ok = false` when the server's
reply to `GET` is an error reply or is missing. A key that is not stored is
answered with a nil reply. -/
def RedisManager.get_cached_task (r : RedisManager) (ok : Bool) (task_id : Int) :
    RedisManager × Option Task :=
  if !r.connected then ({ r with cache_misses := r.cache_misses + 1 }, none)
  else if !ok then ({ r with cache_misses := r.cache_misses + 1 }, none)
  else
    match r.entries.find? (fun e => e.1 = task_id) with
    | some e => ({ r with cache_hits := r.cache_hits + 1 }, deserialize_task e.2)
    | none => ({ r with cache_misses := r.cache_misses + 1 }, none)

/-! ## TaskListView.cpp: the state -/

/-- The values `current_view` takes. -/
inductive View where
  | list
  | add
  | edit
  | add_subtask
  | delete_confirm
  | help
  | ai_suggestions
  | settings
deriving DecidableEq, Repr

/-- An ftxui event, as far as the handler of `run` tells events apart:
`character s` is an event with `is_character()`, whose text is `s`. -/
inductive Event where
  | escape
  | enter
  | tab
  | backspace
  | arrow_up
  | arrow_down
  | character (s : Str)
  | other
deriving DecidableEq, Repr

/-- A call the controller makes on the store, the cache or the AI service. -/
inductive Call where
  | get_all_tasks (include_completed : Bool)
  | add_task (task : Task)
  | update_task (task : Task)
  | delete_task (task_id : Int)
  | add_task_link (task_id : Int) (link : Str)
  | is_connected
  | cache_task (task : Task)
  | invalidate_task (task_id : Int)
  | ai_is_available
  | get_task_suggestions (task : Task)
  | get_schedule_summary (tasks : List Task)
  | get_subtasks (task_id : Int)
deriving DecidableEq, Repr

/-- What the handler of one event reads from outside the program. -/
structure Env where
  now : Int
  mktime : Tm → Int
  localtime : Int → Tm
  ai_enabled : Bool
  task_suggestions : Task → Str
  schedule_summary : List Task → Str

/-- The collaborators of the controller: the store, the cache pointer
(`none` is `nullptr`), the outcomes of the coming store statements and cache
commands (`true`: it executes; an empty list: all execute; for a cache command
`false` is an error reply or a missing reply, see `RedisManager`), the calls
made so far, the number of `PostEvent` calls and whether the loop was left
(asked to exit, or left by an exception that nothing catches before `main`). -/
structure World where
  db : DatabaseManager
  redis : Option RedisManager
  db_outcomes : List Bool
  redis_outcomes : List Bool
  calls : List Call
  posted : Nat
  exited : Bool

/-- The members of `TaskListView` (the screen apart). -/
structure TaskListView where
  w : World
  tasks : List Task
  selected_index : Int
  show_completed : Bool
  status_message : Str
  current_view : View
  show_progress : Bool
  progress_value : Int
  progress_message : Str
  input_description : Str
  input_priority : Int
  input_due_date : Str
  input_link : Str
  input_progress : Int
  current_input_field : Int

/-- Record a call. -/
def World.log (w : World) (c : Call) : World := { w with calls := w.calls ++ [c] }

/-- The call `screen.PostEvent(Event::Custom)`. -/
def World.post_event (w : World) : World := { w with posted := w.posted + 1 }

/-- The outcome of the next store statement. -/
def World.db_ok (w : World) : Bool := w.db_outcomes.headD true

/-- The outcome of the next cache command. -/
def World.redis_ok (w : World) : Bool := w.redis_outcomes.headD true

/-- The call `db.get_all_tasks(b)`, its SELECT executing (the outcomes of
`db_outcomes` are those of the writing statements; a SELECT that throws is
caught in the function, which then returns the rows read so far). -/
def World.get_all_tasks (w : World) (b : Bool) : World × List Task :=
  (w.log (Call.get_all_tasks b), w.db.get_all_tasks b)

/-- The call `db.update_task(task)`. -/
def World.update_task (w : World) (task : Task) : World × Bool :=
  let r := w.db.update_task w.db_ok task
  ({ w.log (Call.update_task task) with db := r.1, db_outcomes := w.db_outcomes.tail }, r.2)

/-- The call `db.add_task(task)`; its first outcome is that of the INSERT, the
next ones those of the `add_task_link` calls of its loop. -/
def World.add_task (w : World) (task : Task) : World × Int :=
  let r := w.db.add_task w.db_ok w.db_outcomes.tail task
  ({ w.log (Call.add_task task) with
      db := r.1,
      db_outcomes := if w.db_ok then w.db_outcomes.tail.drop task.links.length
                     else w.db_outcomes.tail }, r.2)

/-- The call `db.delete_task(id)`. -/
def World.delete_task (w : World) (task_id : Int) : World × Bool :=
  let r := w.db.delete_task w.db_ok task_id
  ({ w.log (Call.delete_task task_id) with db := r.1, db_outcomes := w.db_outcomes.tail }, r.2)

/-- The call `db.add_task_link(id, link)`. -/
def World.add_task_link (w : World) (task_id : Int) (link : Str) : World × Bool :=
  let r := w.db.add_task_link w.db_ok task_id link
  ({ w.log (Call.add_task_link task_id link) with
      db := r.1, db_outcomes := w.db_outcomes.tail }, r.2)

/-- Whether the statement
`if (redis && redis->is_connected()) redis->cache_task(task);` throws. -/
def World.cache_throws (w : World) (task : Task) : Bool :=
  match w.redis with
  | none => false
  | some r => r.connected && (r.cache_task w.redis_ok task).isNone

/-- The statement `if (redis && redis->is_connected()) redis->cache_task(task);`.
When `cache_task` throws, nothing between the handler and `main` catches the
exception: the call is on record and the loop is left. -/
def World.cache_if_connected (w : World) (task : Task) : World :=
  match w.redis with
  | none => w
  | some r =>
    let w1 := w.log Call.is_connected
    if r.connected then
      match r.cache_task w.redis_ok task with
      | some res =>
        { w1.log (Call.cache_task task) with
            redis := some res.1, redis_outcomes := w.redis_outcomes.tail }
      | none => { w1.log (Call.cache_task task) with exited := true }
    else w1

/-- The statement `if (redis && redis->is_connected()) redis->invalidate_task(id);`. -/
def World.invalidate_if_connected (w : World) (task_id : Int) : World :=
  match w.redis with
  | none => w
  | some r =>
    let w1 := w.log Call.is_connected
    if r.connected then
      { w1.log (Call.invalidate_task task_id) with
          redis := some (r.invalidate_task w.redis_ok task_id).1,
          redis_outcomes := w.redis_outcomes.tail }
    else w1

/-! ## TaskListView.cpp: the member functions -/

/-- The function `std::to_string(int)`. -/
def to_string (n : Int) : Str := (toString n).toList

/-- The conversion `%02d` of `strftime` for a field in its normal range. -/
def pad2 (n : Int) : Str :=
  if 0 ≤ n ∧ n < 10 then '0' :: to_string n else to_string n

/-- The member `Task::get_due_date_string`:
`strftime("%Y-%m-%d %H:%M", localtime(due_date))`. -/
def Task.get_due_date_string (env : Env) (t : Task) : Str :=
  match t.due_date with
  | none => "No due date".toList
  | some d =>
    let tm := env.localtime d
    to_string (tm.tm_year + 1900) ++ "-".toList ++ pad2 (tm.tm_mon + 1) ++ "-".toList ++
      pad2 tm.tm_mday ++ " ".toList ++ pad2 tm.tm_hour ++ ":".toList ++ pad2 tm.tm_min

/-- The function `std::stoi`: the leading integer of the text; `none` when it
throws (no digits, or a value outside `int`). -/
def stoi (s : Str) : Option Int :=
  match scan_decimal s with
  | some (v, _) => if -2147483648 ≤ v ∧ v ≤ 2147483647 then some v else none
  | none => none

/-- The member `TaskListView::refresh_tasks`. -/
def refresh_tasks (s : TaskListView) : TaskListView :=
  let r := s.w.get_all_tasks s.show_completed
  let n : Int := r.2.length
  { s with
    w := r.1
    tasks := r.2
    selected_index :=
      if s.selected_index ≥ n then (if n > 0 then n - 1 else 0) else s.selected_index }

/-- The constructor of `TaskListView`. -/
def TaskListView.init (w : World) : TaskListView :=
  refresh_tasks
    { w := w, tasks := [], selected_index := 0, show_completed := true,
      status_message := "Welcome to Teminder!".toList, current_view := View.list,
      show_progress := false, progress_value := 0, progress_message := [],
      input_description := [], input_priority := 1, input_due_date := [],
      input_link := [], input_progress := 0, current_input_field := 0 }

/-- The guard `tasks.empty() || selected_index >= static_cast<int>(tasks.size())`. -/
def no_selection (s : TaskListView) : Bool :=
  s.tasks.isEmpty || decide (s.selected_index ≥ (s.tasks.length : Int))

/-- The element `tasks[selected_index]`, read after the guard `no_selection`
(a negative index, which the program never produces, is read as 0). -/
def selected_task (s : TaskListView) : Task :=
  s.tasks.getD s.selected_index.toNat (Task.default 0)

/-- The member `TaskListView::add_task_dialog`. -/
def add_task_dialog (s : TaskListView) : TaskListView :=
  { s with
    input_description := [], input_priority := 1, input_due_date := [], input_link := [],
    input_progress := 0, current_input_field := 0, current_view := View.add,
    status_message :=
      "Enter task details (Tab to switch fields, ESC to cancel, Enter to save)".toList }

/-- The member `TaskListView::toggle_task_completion`. -/
def toggle_task_completion (s : TaskListView) : TaskListView :=
  if no_selection s then { s with status_message := "No task selected.".toList }
  else
    let t0 := selected_task s
    let task : Task := { t0 with is_completed := !t0.is_completed }
    let s1 := { s with tasks := s.tasks.set s.selected_index.toNat task }
    let r := s1.w.update_task task
    if r.2 then
      let s2 := { s1 with
        w := r.1.cache_if_connected task
        status_message :=
          if task.is_completed then "Task marked as completed!".toList
          else "Task marked as pending!".toList }
      if r.1.cache_throws task then s2
      else
        let s3 := refresh_tasks s2
        { s3 with w := s3.w.post_event }
    else { s1 with w := r.1, status_message := "Failed to update task.".toList }

/-- The member `TaskListView::delete_task_dialog`. -/
def delete_task_dialog (s : TaskListView) : TaskListView :=
  if no_selection s then { s with status_message := "No task selected.".toList }
  else
    { s with
      current_view := View.delete_confirm
      status_message :=
        "Delete task: ".toList ++ [Char.ofNat 34] ++ (selected_task s).description ++
          [Char.ofNat 34] ++ "? (y/N)".toList }

/-- The member `TaskListView::confirm_delete`. -/
def confirm_delete (s : TaskListView) : TaskListView :=
  if no_selection s then
    { s with current_view := View.list, status_message := "No task selected.".toList }
  else
    let task := selected_task s
    let s1 := { s with
      show_progress := true, progress_value := 0,
      progress_message := "Deleting task...".toList, w := s.w.post_event }
    let r := s1.w.delete_task task.id
    let s2 :=
      if r.2 then
        let w1 := (r.1.post_event.invalidate_if_connected task.id).post_event
        let s3 := refresh_tasks { s1 with
          w := w1, progress_value := 100,
          status_message := "Task deleted successfully!".toList }
        { s3 with w := s3.w.post_event }
      else { s1 with w := r.1, status_message := "Failed to delete task.".toList }
    { s2 with show_progress := false, current_view := View.list, w := s2.w.post_event }

/-- The tail of `save_task` and `save_subtask` after the store call: `task`
already carries the id the store returned. When `cache_task` throws, the
function is left at that statement. -/
def finish_save (s : TaskListView) (task : Task) (result : Int) (ok_msg fail_msg : Str) :
    TaskListView :=
  let s1 := { s with progress_value := 70, w := s.w.post_event }
  let w1 := if s1.input_link.isEmpty then s1.w
            else (s1.w.add_task_link task.id s1.input_link).1
  if result > 0 ∧ w1.cache_throws task = true then
    { s1 with w := w1.cache_if_connected task }
  else
    let s2 :=
      if result > 0 then
        let w2 := (w1.cache_if_connected task).post_event
        let s3 := refresh_tasks
          { s1 with w := w2, progress_value := 100, status_message := ok_msg }
        { s3 with w := s3.w.post_event }
      else { s1 with status_message := fail_msg }
    { s2 with show_progress := false, current_view := View.list, w := s2.w.post_event }

/-- The member `TaskListView::save_task`. -/
def save_task (env : Env) (is_edit : Bool) (s : TaskListView) : TaskListView :=
  if s.input_description.isEmpty then
    { s with status_message := "Task description cannot be empty!".toList }
  else
    let s1 := { s with
      show_progress := true, progress_value := 0,
      progress_message := if is_edit then "Updating task...".toList
                          else "Creating task...".toList,
      w := s.w.post_event }
    let t0 : Task :=
      if is_edit && decide (s.selected_index < (s.tasks.length : Int)) then selected_task s
      else { Task.default env.now with created_at := env.now, is_completed := false }
    let t1 : Task := { t0 with
      description := s.input_description, priority := s.input_priority,
      progress := s.input_progress }
    let due : Option (Option Int) :=
      if s.input_due_date.isEmpty then some none
      else (parse_due_date s.input_due_date).map (fun tm => some (env.mktime tm))
    match due with
    | none =>
      { s1 with
        status_message := "Invalid date format! Use: YYYY-MM-DD or YYYY-MM-DD HH:MM".toList,
        show_progress := false }
    | some d =>
      let task : Task := { t1 with due_date := d }
      let s2 := { s1 with progress_value := 30, w := s1.w.post_event }
      if is_edit then
        let r := s2.w.update_task task
        finish_save { s2 with w := r.1 } task (if r.2 then task.id else -1)
          "Task updated successfully!".toList "Failed to update task.".toList
      else
        let r := s2.w.add_task task
        finish_save { s2 with w := r.1 } { task with id := r.2 } r.2
          "Task added successfully!".toList "Failed to add task.".toList

/-- The member `TaskListView::save_subtask`. -/
def save_subtask (env : Env) (s : TaskListView) : TaskListView :=
  if s.input_description.isEmpty then
    { s with status_message := "Subtask description cannot be empty!".toList }
  else if no_selection s then
    { s with status_message := "No parent task selected.".toList }
  else
    let s1 := { s with
      show_progress := true, progress_value := 0,
      progress_message := "Creating subtask...".toList, w := s.w.post_event }
    let t1 : Task := { Task.default env.now with
      created_at := env.now, is_completed := false,
      description := s.input_description, priority := s.input_priority,
      progress := s.input_progress, parent_id := some (selected_task s).id }
    let due : Option (Option Int) :=
      if s.input_due_date.isEmpty then some none
      else (parse_due_date s.input_due_date).map (fun tm => some (env.mktime tm))
    match due with
    | none =>
      { s1 with
        status_message := "Invalid date format! Use: YYYY-MM-DD or YYYY-MM-DD HH:MM".toList,
        show_progress := false }
    | some d =>
      let subtask : Task := { t1 with due_date := d }
      let s2 := { s1 with progress_value := 30, w := s1.w.post_event }
      let r := s2.w.add_task subtask
      finish_save { s2 with w := r.1 } { subtask with id := r.2 } r.2
        "Subtask added successfully!".toList "Failed to add subtask.".toList

/-- The member `TaskListView::show_ai_suggestions`. -/
def show_ai_suggestions (env : Env) (s : TaskListView) : TaskListView :=
  if no_selection s then { s with status_message := "No task selected.".toList }
  else
    let w1 := s.w.log Call.ai_is_available
    if !env.ai_enabled then
      { s with
        w := w1
        status_message := "AI features are not available. Check your configuration.".toList }
    else
      let task := selected_task s
      { s with
        w := (w1.post_event).log (Call.get_task_suggestions task)
        current_view := View.ai_suggestions
        status_message :=
          "AI Suggestions for: ".toList ++ task.description ++ "\n\n".toList ++
            env.task_suggestions task }

/-- The member `TaskListView::show_schedule_summary`. -/
def show_schedule_summary (env : Env) (s : TaskListView) : TaskListView :=
  let w1 := s.w.log Call.ai_is_available
  if !env.ai_enabled then
    { s with
      w := w1
      status_message := "AI features are not available. Check your configuration.".toList }
  else
    { s with
      w := (w1.post_event).log (Call.get_schedule_summary s.tasks)
      current_view := View.ai_suggestions
      status_message := "Schedule Summary:\n\n".toList ++ env.schedule_summary s.tasks }

/-- The member `TaskListView::show_help`. -/
def show_help (s : TaskListView) : TaskListView := { s with current_view := View.help }

/-- The member `TaskListView::edit_task_dialog`. -/
def edit_task_dialog (env : Env) (s : TaskListView) : TaskListView :=
  if no_selection s then { s with status_message := "No task selected.".toList }
  else
    let task := selected_task s
    { s with
      input_description := task.description
      input_priority := task.priority
      input_due_date := if task.due_date.isSome then task.get_due_date_string env else []
      input_link := task.links.headD []
      input_progress := task.progress
      current_input_field := 0
      current_view := View.edit
      status_message := "Edit task (Tab to switch fields, ESC to cancel, Enter to save)".toList }

/-- The member `TaskListView::add_subtask_dialog`. -/
def add_subtask_dialog (s : TaskListView) : TaskListView :=
  if no_selection s then { s with status_message := "No task selected.".toList }
  else
    let parent := selected_task s
    { s with
      input_description := []
      input_priority := parent.priority
      input_due_date := []
      input_link := []
      input_progress := 0
      current_input_field := 0
      current_view := View.add_subtask
      status_message :=
        "Adding subtask to: ".toList ++ [Char.ofNat 34] ++ parent.description ++
          [Char.ofNat 34] ++ " (ESC to cancel, Enter to save)".toList }

/-- The member `TaskListView::show_settings`. -/
def show_settings (s : TaskListView) : TaskListView :=
  { s with
    current_view := View.settings
    status_message := "Settings: [c] Toggle show completed | [ESC] Close".toList }

/-- The member `TaskListView::sync_to_sheets`. -/
def sync_to_sheets (s : TaskListView) : TaskListView :=
  { s with
    status_message :=
      "Google Sheets sync requires spreadsheet_id in config. Feature coming soon!".toList }

/-- Append the text `c` to the buffer of the active field 0, 1 or 2 (the three
`+=` branches of the dialog handler). -/
def append_active (s : TaskListView) (c : Str) : TaskListView :=
  if s.current_input_field = 0 then { s with input_description := s.input_description ++ c }
  else if s.current_input_field = 1 then { s with input_due_date := s.input_due_date ++ c }
  else if s.current_input_field = 2 then { s with input_link := s.input_link ++ c }
  else s

/-- The dialog branch of the handler (`current_view` is "add", "edit" or
"add_subtask"). -/
def on_dialog_event (env : Env) (ev : Event) (s : TaskListView) : TaskListView :=
  let is_edit := decide (s.current_view = View.edit)
  let is_subtask := decide (s.current_view = View.add_subtask)
  match ev with
  | Event.escape =>
    { s with
      current_view := View.list
      status_message :=
        if is_edit then "Edit cancelled.".toList
        else if is_subtask then "Subtask cancelled.".toList
        else "Add cancelled.".toList }
  | Event.enter => if is_subtask then save_subtask env s else save_task env is_edit s
  | Event.tab => { s with current_input_field := (s.current_input_field + 1).tmod 4 }
  | Event.backspace =>
    if s.current_input_field = 0 ∧ ¬ s.input_description.isEmpty then
      { s with input_description := s.input_description.dropLast }
    else if s.current_input_field = 1 ∧ ¬ s.input_due_date.isEmpty then
      { s with input_due_date := s.input_due_date.dropLast }
    else if s.current_input_field = 2 ∧ ¬ s.input_link.isEmpty then
      { s with input_link := s.input_link.dropLast }
    else s
  | Event.character c =>
    if c = ['+'] then
      if s.current_input_field = 0 ∧ s.input_priority < 2 then
        { s with input_priority := s.input_priority + 1 }
      else if s.current_input_field = 3 ∧ s.input_progress < 100 then
        { s with input_progress :=
            if s.input_progress + 5 > 100 then 100 else s.input_progress + 5 }
      else append_active s ['+']
    else if c = ['-'] then
      if s.current_input_field = 0 ∧ s.input_priority > 0 then
        { s with input_priority := s.input_priority - 1 }
      else if s.current_input_field = 3 ∧ s.input_progress > 0 then
        { s with input_progress :=
            if s.input_progress - 5 < 0 then 0 else s.input_progress - 5 }
      else append_active s ['-']
    else if s.current_input_field = 3 then
      match c with
      | d :: _ =>
        if '0' ≤ d ∧ d ≤ '9' then
          match stoi (to_string s.input_progress ++ c) with
          | some val => if val ≤ 100 then { s with input_progress := val } else s
          | none => { s with w := { s.w with exited := true } }
        else s
      | [] => s
    else append_active s c
  | _ => s

/-- The handler installed by `TaskListView::run`: the state after the event and
the handler's `bool` result. -/
def on_event (env : Env) (ev : Event) (s : TaskListView) : TaskListView × Bool :=
  match s.current_view with
  | View.delete_confirm =>
    if ev = Event.character ['y'] ∨ ev = Event.character ['Y'] then (confirm_delete s, true)
    else ({ s with current_view := View.list, status_message := "Delete cancelled.".toList }, true)
  | View.add => (on_dialog_event env ev s, true)
  | View.edit => (on_dialog_event env ev s, true)
  | View.add_subtask => (on_dialog_event env ev s, true)
  | View.settings =>
    if ev = Event.escape then
      ({ s with current_view := View.list, status_message := "Settings closed.".toList }, true)
    else if ev = Event.character ['c'] then
      let s1 := refresh_tasks { s with show_completed := !s.show_completed }
      ({ s1 with
          status_message := if s1.show_completed then "Now showing all tasks".toList
                            else "Now showing active tasks only".toList
          w := s1.w.post_event }, true)
    else (s, true)
  | View.help => ({ s with current_view := View.list }, true)
  | View.ai_suggestions => ({ s with current_view := View.list }, true)
  | View.list =>
    match ev with
    | Event.escape => ({ s with w := { s.w with exited := true } }, true)
    | Event.arrow_up =>
      (if s.selected_index > 0 then { s with selected_index := s.selected_index - 1 } else s,
        true)
    | Event.arrow_down =>
      (if s.selected_index < (s.tasks.length : Int) - 1 then
          { s with selected_index := s.selected_index + 1 }
        else s, true)
    | Event.character c =>
      if c = ['q'] then ({ s with w := { s.w with exited := true } }, true)
      else if c = ['a'] then (add_task_dialog s, true)
      else if c = ['e'] then (edit_task_dialog env s, true)
      else if c = ['d'] then (delete_task_dialog s, true)
      else if c = ['t'] then (add_subtask_dialog s, true)
      else if c = [' '] then (toggle_task_completion s, true)
      else if c = ['s'] then (show_ai_suggestions env s, true)
      else if c = ['S'] then (show_schedule_summary env s, true)
      else if c = ['g'] then (show_settings s, true)
      else if c = ['G'] then (sync_to_sheets s, true)
      else if c = ['c'] then
        let s1 := refresh_tasks { s with show_completed := !s.show_completed }
        ({ s1 with
            status_message := if s1.show_completed then "Showing all tasks".toList
                              else "Showing active tasks only".toList }, true)
      else if c = ['h'] then (show_help s, true)
      else (s, false)
    | _ => (s, false)

/-- The state after a sequence of events, each with its own environment. -/
def run_events : List (Env × Event) → TaskListView → TaskListView
  | [], s => s
  | (env, ev) :: rest, s => run_events rest (on_event env ev s).1

/-! ## TaskListView.cpp: the line of a task -/

/-- A text given by the values of its bytes. -/
def bytes (bs : List Nat) : Str := bs.map Char.ofNat

/-- The call `db.get_subtasks(id)`. -/
def World.get_subtasks (w : World) (task_id : Int) : World × List Task :=
  (w.log (Call.get_subtasks task_id), w.db.get_subtasks task_id)

/-- The member `TaskListView::format_task`, a `const` member: it returns the
text, and of the state only the record of calls changes. The literals with
U+2713, U+1F534, U+1F7E1, U+1F7E2 and U+1F517 are given by their bytes in the
source file. -/
def format_task (env : Env) (s : TaskListView) (task : Task) (_is_selected : Bool) :
    TaskListView × Str :=
  let ss : Str :=
    if task.is_completed then "[".toList ++ bytes [0xE2, 0x9C, 0x93] ++ "] ".toList
    else "[ ] ".toList
  let ss : Str :=
    if task.priority = 2 then ss ++ bytes [0xF0, 0x9F, 0x94, 0xB4] ++ " ".toList
    else if task.priority = 1 then ss ++ bytes [0xF0, 0x9F, 0x9F, 0xA1] ++ " ".toList
    else ss ++ bytes [0xF0, 0x9F, 0x9F, 0xA2] ++ " ".toList
  let ss : Str := ss ++ task.description
  let ss : Str :=
    if task.due_date.isSome then
      let ss1 : Str := ss ++ " (Due: ".toList ++ task.get_due_date_string env
      let ss2 : Str := if task.is_overdue env.now then ss1 ++ " - OVERDUE!".toList else ss1
      ss2 ++ ")".toList
    else ss
  let ss : Str :=
    if !task.links.isEmpty then
      ss ++ " ".toList ++ bytes [0xF0, 0x9F, 0x94, 0x97] ++ to_string task.links.length
    else ss
  let ss : Str := if task.is_subtask then ss ++ " [subtask]".toList else ss
  let r := s.w.get_subtasks task.id
  let subtasks := r.2
  let ss : Str :=
    if !subtasks.isEmpty then
      let completed_subtasks : Int :=
        subtasks.foldl (fun n st => if st.is_completed then n + 1 else n) 0
      ss ++ " [".toList ++ to_string completed_subtasks ++ "/".toList ++
        to_string subtasks.length ++ " subtasks]".toList
    else ss
  let ss : Str :=
    if task.progress > 0 then ss ++ " [".toList ++ to_string task.progress ++ "%]".toList
    else ss
  ({ s with w := r.1 }, ss)

/-! ## ConfigManager.cpp -/

/-- The members of `ConfigManager`, with their initial values; the `float`
member `temperature` is kept as the number it is converted from. -/
structure ConfigManager where
  ollama_endpoint : Str := "http://localhost:11434".toList
  model_name : Str := "phi4:latest".toList
  ai_enabled : Bool := true
  max_tokens : Int := 1000
  temperature : ℚ := 7 / 10
  task_suggestion_prompt : Str :=
    ("You are a helpful task management assistant. " ++
      "Analyze the following task and suggest the next actionable steps to complete it. " ++
      "Be concise and practical.").toList
  summary_prompt : Str :=
    ("You are a helpful task management assistant. " ++
      "Summarize the following tasks and provide a brief overview of what needs to be done. " ++
      "Highlight any overdue or high-priority items.").toList
  database_path : Str := "tasks.db".toList
  redis_enabled : Bool := false
  redis_host : Str := "localhost".toList
  redis_port : Int := 6379
  google_sheets_enabled : Bool := false
  google_sheets_endpoint : Str := "https://sheets.googleapis.com/v4/spreadsheets".toList
  google_sheets_api_key : Str := []

/-- The member `ConfigManager::get_database_path`. -/
def ConfigManager.get_database_path (c : ConfigManager) : Str := c.database_path

/-- The test `j.contains(key)`: the value is an object that has the key. -/
def JsonValue.contains (j : JsonValue) (key : Str) : Bool :=
  match j with
  | JsonValue.obj kvs => kvs.any (fun kv => kv.1 = key)
  | _ => false

/-- The copy `auto section = j[key]`, made after `j.contains(key)`. -/
def JsonValue.section_at (j : JsonValue) (key : Str) : JsonValue :=
  (j.member key).getD JsonValue.null

/-- The conversion `get<float>()`: a number, or a boolean as 0 or 1. -/
def JsonValue.get_float : JsonValue → Option ℚ
  | JsonValue.num n => some n
  | JsonValue.real q => some q
  | JsonValue.bool b => some (if b then 1 else 0)
  | _ => none

/-- The statement `if (j.contains(key)) member = j[key].get<T>();`: the members
after it, or, as an error, the members as they are when the conversion throws. -/
def load_member {α : Type} (j : JsonValue) (key : Str) (get : JsonValue → Option α)
    (put : ConfigManager → α → ConfigManager) (c : ConfigManager) :
    Except ConfigManager ConfigManager :=
  if j.contains key then
    match get (j.section_at key) with
    | some v => Except.ok (put c v)
    | none => Except.error c
  else Except.ok c

/-- The block "Load AI settings" of `load_config`. -/
def load_ai (j : JsonValue) (c : ConfigManager) : Except ConfigManager ConfigManager :=
  if j.contains "ai".toList then
    let ai_config := j.section_at "ai".toList
    load_member ai_config "enabled".toList JsonValue.get_bool
        (fun c v => { c with ai_enabled := v }) c >>=
    load_member ai_config "ollama_endpoint".toList JsonValue.get_string
        (fun c v => { c with ollama_endpoint := v }) >>=
    load_member ai_config "model_name".toList JsonValue.get_string
        (fun c v => { c with model_name := v }) >>=
    load_member ai_config "max_tokens".toList JsonValue.get_int
        (fun c v => { c with max_tokens := v }) >>=
    load_member ai_config "temperature".toList JsonValue.get_float
        (fun c v => { c with temperature := v })
  else Except.ok c

/-- The block "Load database settings", which the source places inside the
block of the prompts. -/
def load_database (j : JsonValue) (c : ConfigManager) : Except ConfigManager ConfigManager :=
  if j.contains "database".toList then
    let db_config := j.section_at "database".toList
    load_member db_config "path".toList JsonValue.get_string
      (fun c v => { c with database_path := v }) c
  else Except.ok c

/-- The block "Load custom prompts" of `load_config`, with the database block
in it. -/
def load_prompts (j : JsonValue) (c : ConfigManager) : Except ConfigManager ConfigManager :=
  if j.contains "prompts".toList then
    let prompts_config := j.section_at "prompts".toList
    load_member prompts_config "task_suggestion".toList JsonValue.get_string
        (fun c v => { c with task_suggestion_prompt := v }) c >>=
    load_member prompts_config "summary".toList JsonValue.get_string
        (fun c v => { c with summary_prompt := v }) >>=
    load_database j
  else Except.ok c

/-- The block "Load redis settings" of `load_config`. -/
def load_redis (j : JsonValue) (c : ConfigManager) : Except ConfigManager ConfigManager :=
  if j.contains "redis".toList then
    let redis_config := j.section_at "redis".toList
    load_member redis_config "enabled".toList JsonValue.get_bool
        (fun c v => { c with redis_enabled := v }) c >>=
    load_member redis_config "host".toList JsonValue.get_string
        (fun c v => { c with redis_host := v }) >>=
    load_member redis_config "port".toList JsonValue.get_int
        (fun c v => { c with redis_port := v })
  else Except.ok c

/-- The block "Google sheets settings" of `load_config`. -/
def load_google_sheets (j : JsonValue) (c : ConfigManager) :
    Except ConfigManager ConfigManager :=
  if j.contains "google_sheets".toList then
    let google_sheets_config := j.section_at "google_sheets".toList
    load_member google_sheets_config "enabled".toList JsonValue.get_bool
        (fun c v => { c with google_sheets_enabled := v }) c >>=
    load_member google_sheets_config "api_key".toList JsonValue.get_string
        (fun c v => { c with google_sheets_api_key := v }) >>=
    load_member google_sheets_config "endpoint".toList JsonValue.get_string
        (fun c v => { c with google_sheets_endpoint := v })
  else Except.ok c

/-- The member `ConfigManager::load_config`. The file is `none` when it cannot
be opened, `some none` when its text is not JSON (the parser throws), and else
the value parsed. Returns the members and the `bool` result: `false` with the
members assigned so far when a conversion throws. -/
def ConfigManager.load_config (c : ConfigManager) (file : Option (Option JsonValue)) :
    ConfigManager × Bool :=
  match file with
  | none => (c, false)
  | some none => (c, false)
  | some (some config_json) =>
    match load_ai config_json c >>= load_prompts config_json >>= load_redis config_json >>=
        load_google_sheets config_json with
    | Except.ok c1 => (c1, true)
    | Except.error c1 => (c1, false)

/-! ## Sample values -/

/-- An environment for the worked examples: the clock reads 1000, `mktime`
counts seconds in months of 31 days, no AI service. -/
def sample_env : Env :=
  { now := 1000
    mktime := fun tm =>
      ((((tm.tm_year * 12 + tm.tm_mon) * 31 + tm.tm_mday) * 24 + tm.tm_hour) * 60
        + tm.tm_min) * 60 + tm.tm_sec
    localtime := fun _ => ⟨125, 0, 5, 9, 0, 0⟩
    ai_enabled := false
    task_suggestions := fun _ => []
    schedule_summary := fun _ => [] }

/-- A store with two rows of equal priority: row 1 is due at 100, row 2 has no
due date. -/
def sample_db : DatabaseManager :=
  { tasks :=
      [ { id := 1, description := "pay rent".toList, is_completed := false, priority := 1,
          created_at := 10, due_date := some 100, parent_id := none, progress := 0,
          status := 0 },
        { id := 2, description := "call home".toList, is_completed := false, priority := 1,
          created_at := 20, due_date := none, parent_id := none, progress := 0,
          status := 0 } ]
    task_links := []
    seq := 2 }

/-- The collaborators around `sample_db`: no cache, and the given outcomes for
the coming store statements. -/
def sample_world (db_outcomes : List Bool) : World :=
  { db := sample_db, redis := none, db_outcomes := db_outcomes, redis_outcomes := [],
    calls := [], posted := 0, exited := false }

/-- The controller right after construction over `sample_world`. -/
def sample_view (db_outcomes : List Bool) : TaskListView :=
  TaskListView.init (sample_world db_outcomes)

/-- A dialog state over `sample_view`: the given view, active field and buffers. -/
def sample_dialog (v : View) (field : Int) (description : Str) (priority : Int)
    (due_date : Str) (progress : Int) : TaskListView :=
  { sample_view [] with
    current_view := v, current_input_field := field, input_description := description,
    input_priority := priority, input_due_date := due_date, input_progress := progress }

/-- The views in which the multi-field dialog is shown. -/
def is_dialog (v : View) : Prop := v = View.add ∨ v = View.edit ∨ v = View.add_subtask

instance (v : View) : Decidable (is_dialog v) := by unfold is_dialog; exact inferInstance

/-! ## The orders of the listing and the selection invariant -/

/-- The order of the listing on tasks: higher priority first; at equal priority
a task without a due date first, then by ascending due date. -/
def listed_before (a b : Task) : Prop :=
  b.priority < a.priority ∨
    (a.priority = b.priority ∧ due_date_asc a.due_date b.due_date = true)

instance : DecidableRel listed_before := fun a b => by
  unfold listed_before; exact inferInstance

/-- Ascending order of due dates with a missing due date last, as the
specification words it. -/
def due_date_nulls_last : Option Int → Option Int → Bool
  | _, none => true
  | none, some _ => false
  | some a, some b => decide (a ≤ b)

/-- The order the specification words: priority descending, then due date
ascending, a missing due date after every present one. -/
def listed_before_nulls_last (a b : Task) : Prop :=
  b.priority < a.priority ∨
    (a.priority = b.priority ∧ due_date_nulls_last a.due_date b.due_date = true)

instance : DecidableRel listed_before_nulls_last := fun a b => by
  unfold listed_before_nulls_last; exact inferInstance

/-- The selection invariant on a task list and an index. -/
def selection_in_range (tasks : List Task) (i : Int) : Prop :=
  0 ≤ i ∧ i ≤ max 0 ((tasks.length : Int) - 1)

/-- The selection invariant of a controller state. -/
def selection_ok (s : TaskListView) : Prop := selection_in_range s.tasks s.selected_index

/-- The list in memory is the store's listing under the current filter. -/
def in_sync (s : TaskListView) : Prop := s.tasks = s.w.db.get_all_tasks s.show_completed

/-- Every row id is positive, as AUTOINCREMENT assigns them. -/
def positive_ids (db : DatabaseManager) : Prop := ∀ r ∈ db.tasks, 0 < r.id

/-! ## Vocabulary of the save, delete and cache properties -/

/-- A task is selected: the index points into the list in memory. -/
def has_selection (s : TaskListView) : Prop :=
  0 ≤ s.selected_index ∧ s.selected_index < (s.tasks.length : Int)

instance (s : TaskListView) : Decidable (has_selection s) := by
  unfold has_selection; exact inferInstance

/-- The buffers pass the validation of a save: the description is not empty and
the due-date buffer is empty or is read by the parser. -/
def buffers_valid (s : TaskListView) : Prop :=
  s.input_description ≠ [] ∧
    (s.input_due_date = [] ∨ (parse_due_date s.input_due_date).isSome = true)

instance (s : TaskListView) : Decidable (buffers_valid s) := by
  unfold buffers_valid; exact inferInstance

/-- The due date a save with valid buffers stores: none for an empty buffer,
else `mktime` of the parsed fields. -/
def saved_due_date (env : Env) (s : TaskListView) : Option Int :=
  if s.input_due_date.isEmpty then none
  else (parse_due_date s.input_due_date).map env.mktime

/-- The task a create builds from the buffers, before the store assigns an id. -/
def created_task (env : Env) (s : TaskListView) : Task :=
  { id := 0, description := s.input_description, is_completed := false,
    priority := s.input_priority, created_at := env.now,
    due_date := saved_due_date env s, links := [], tags := [], parent_id := none,
    progress := s.input_progress, status := 0 }

/-- The task a subtask creation builds from the buffers and the selected parent. -/
def created_subtask (env : Env) (s : TaskListView) : Task :=
  { created_task env s with parent_id := some (selected_task s).id }

/-- The task an edit builds from the selected task and the buffers. -/
def edited_task (env : Env) (s : TaskListView) : Task :=
  { selected_task s with
    description := s.input_description, priority := s.input_priority,
    progress := s.input_progress, due_date := saved_due_date env s }

/-- The cache calls of one guarded statement
`if (redis && redis->is_connected()) redis-><call>`. -/
def cache_calls (w : World) (c : Call) : List Call :=
  match w.redis with
  | none => []
  | some r => if r.connected then [Call.is_connected, c] else [Call.is_connected]

/-- The calls of the optional link attachment of a save. -/
def link_calls (s : TaskListView) (task_id : Int) : List Call :=
  if s.input_link.isEmpty then [] else [Call.add_task_link task_id s.input_link]

/-- A call on the cache. -/
def Call.is_cache_call : Call → Bool
  | Call.is_connected => true
  | Call.cache_task _ => true
  | Call.invalidate_task _ => true
  | _ => false

/-- A call on the store that writes. -/
def Call.is_store_write : Call → Bool
  | Call.add_task _ => true
  | Call.update_task _ => true
  | Call.delete_task _ => true
  | Call.add_task_link _ _ => true
  | _ => false

/-- The collaborators with the cache taken away: no cache object, no cache
outcomes, and the cache calls removed from the record of calls. -/
def World.without_cache (w : World) : World :=
  { w with redis := none, redis_outcomes := [],
           calls := w.calls.filter (fun c => !c.is_cache_call) }

/-- The controller state with the cache taken away. -/
def TaskListView.without_cache (s : TaskListView) : TaskListView :=
  { s with w := s.w.without_cache }

/-! ## More vocabulary and sample values -/

/-- Every text a cache write of the next event can carry is valid UTF-8: the
description buffer, and the description and links of every listed task. -/
def texts_valid (s : TaskListView) : Prop :=
  utf8_valid s.input_description = true ∧ ∀ t ∈ s.tasks, dump_ok t = true

instance (s : TaskListView) : Decidable (texts_valid s) := by
  unfold texts_valid; exact inferInstance

/-- The state `finish_save` reaches when `cache_task` returns: its statements
in order, none of them throwing. -/
def finish_save_returning (s : TaskListView) (task : Task) (result : Int)
    (ok_msg fail_msg : Str) : TaskListView :=
  let s1 := { s with progress_value := 70, w := s.w.post_event }
  let s2 :=
    if result > 0 then
      let w1 := if s1.input_link.isEmpty then s1.w
                else (s1.w.add_task_link task.id s1.input_link).1
      let w2 := (w1.cache_if_connected task).post_event
      let s3 := refresh_tasks { s1 with w := w2, progress_value := 100, status_message := ok_msg }
      { s3 with w := s3.w.post_event }
    else { s1 with status_message := fail_msg }
  { s2 with show_progress := false, current_view := View.list, w := s2.w.post_event }

/-- The byte 0xC3 alone: what Backspace (`pop_back`) leaves of a two-byte
character such as U+00E9, typed into an empty buffer. -/
def sample_cut_text : Str := [Char.ofNat 0xC3]

/-- The row an insert of `task` writes under the id `i`. -/
def Row.of_task (i : Int) (task : Task) : Row :=
  { id := i, description := task.description, is_completed := task.is_completed,
    priority := task.priority, created_at := task.created_at, due_date := task.due_date,
    parent_id := task.parent_id, progress := task.progress, status := task.status }

/-- The state in which `save_task` and `save_subtask` call the store. -/
def before_store (s : TaskListView) (msg : Str) : TaskListView :=
  { s with show_progress := true, progress_value := 30, progress_message := msg,
           w := s.w.post_event.post_event }

/-- A delete-confirmation state over the sample store with a connected cache that
holds every task of the store; `redis_outcomes` are the outcomes of the coming
cache commands. -/
def sample_cached_view (redis_outcomes : List Bool) : TaskListView :=
  { TaskListView.init
      { sample_world [] with
        redis := some
          { connected := true,
            entries := (sample_db.get_all_tasks true).map (fun t => (t.id, task_json t)) },
        redis_outcomes := redis_outcomes } with
    current_view := View.delete_confirm }

/-- The affirming keys of the delete confirmation. -/
def is_affirm (ev : Event) : Prop := ev = Event.character ['y'] ∨ ev = Event.character ['Y']

instance (ev : Event) : Decidable (is_affirm ev) := by unfold is_affirm; exact inferInstance

/-- A call that attaches a link. -/
def Call.is_add_task_link : Call → Bool
  | Call.add_task_link _ _ => true
  | _ => false

/-- The outcome of the store statement after the next one. -/
def World.second_db_ok (w : World) : Bool := w.db_outcomes.tail.headD true

/-- The id under which a successful save stores the task: the edited task's id,
or the id the insert assigns. -/
def saved_id (s : TaskListView) : Int :=
  if s.current_view = View.edit then (selected_task s).id else s.w.db.next_id

/-- The task a save hands to the cache: as built from the buffers, with the id
under which it is stored. -/
def saved_task (env : Env) (s : TaskListView) : Task :=
  if s.current_view = View.edit then edited_task env s
  else if s.current_view = View.add_subtask then
    { created_subtask env s with id := s.w.db.next_id }
  else { created_task env s with id := s.w.db.next_id }

/-- The store call of a save: the update of the edited task, or the insert of
the created one. -/
def store_call (env : Env) (s : TaskListView) : Call :=
  if s.current_view = View.edit then Call.update_task (edited_task env s)
  else if s.current_view = View.add_subtask then Call.add_task (created_subtask env s)
  else Call.add_task (created_task env s)

/-- A task with progress 50 and status 1 (In Progress). -/
def sample_task_in_progress : Task :=
  { id := 7, description := "write report".toList, is_completed := false, priority := 2,
    created_at := 10, due_date := some 100, links := ["http://a".toList], tags := [3],
    parent_id := none, progress := 50, status := 1 }

/-- The add dialog over the sample store with a description typed in; the cache
is as given, and its coming commands fail. -/
def sample_add_dialog (redis : Option RedisManager) : TaskListView :=
  { sample_dialog View.add 0 "x".toList 1 [] 0 with
    w := { sample_world [] with
      redis := redis, redis_outcomes := [false], calls := [Call.get_all_tasks true] } }

/-- The add dialog over the sample store in which U+00E9 was typed into the
empty description and Backspace pressed; the cache is as given. -/
def sample_cut_dialog (redis : Option RedisManager) : TaskListView :=
  (on_event sample_env Event.backspace
    (on_event sample_env (Event.character [Char.ofNat 0xC3, Char.ofNat 0xA9])
      { sample_add_dialog redis with input_description := [] }).1).1

/-- The text of a character event is one UTF-8 sequence (one character, as the
terminal input delivers it): a first byte and as many bytes as it announces. -/
def Event.well_formed : Event → Prop
  | Event.character c =>
    match c with
    | [] => False
    | b :: rest =>
      match utf8_lead b.toNat with
      | some (n, _, _) => rest.length = n
      | none => False
  | _ => True

/-- Modelled on the words of the claim: the first attempt alone, on the format
"%d-%d-%d %d:%d:%d", with hour, minute and second 0 when they are not
converted, and rejection when fewer than three fields are converted. -/
def parse_first_attempt (buf : Str) : Option Tm :=
  let r := sscanf fmt_date_hms buf
  if 3 ≤ r.length then
    some { tm_year := r.getD 0 0 - 1900, tm_mon := r.getD 1 0 - 1, tm_mday := r.getD 2 0,
           tm_hour := r.getD 3 0, tm_min := r.getD 4 0, tm_sec := r.getD 5 0 }
  else none

/-- Modelled on the words of the claim: the marker of completion. -/
def completion_marker (t : Task) : Str :=
  if t.is_completed then "[".toList ++ bytes [0xE2, 0x9C, 0x93] ++ "] ".toList
  else "[ ] ".toList

/-- Modelled on the words of the claim: the marker of the priority (a red,
yellow or green disc and a blank). -/
def priority_marker (t : Task) : Str :=
  (if t.priority = 2 then bytes [0xF0, 0x9F, 0x94, 0xB4]
   else if t.priority = 1 then bytes [0xF0, 0x9F, 0x9F, 0xA1]
   else bytes [0xF0, 0x9F, 0x9F, 0xA2]) ++ " ".toList

/-- Modelled on the words of the claim: the line of a task as the concatenation
of its parts, `children` being the children of the task. -/
def format_reference (env : Env) (t : Task) (children : List Task) : Str :=
  completion_marker t ++ priority_marker t ++ t.description ++
    (if t.due_date.isSome then
      " (Due: ".toList ++ t.get_due_date_string env ++
        (if t.is_overdue env.now then " - OVERDUE!".toList else []) ++ ")".toList
     else []) ++
    (if t.links ≠ [] then " ".toList ++ bytes [0xF0, 0x9F, 0x94, 0x97] ++
        to_string t.links.length
     else []) ++
    (if t.parent_id.isSome then " [subtask]".toList else []) ++
    (if 0 < children.length then
      " [".toList ++ to_string ((children.filter (fun st => st.is_completed)).length : Int) ++
        "/".toList ++ to_string children.length ++ " subtasks]".toList
     else []) ++
    (if 0 < t.progress then " [".toList ++ to_string t.progress ++ "%]".toList else [])

/-- The list view over the sample store in which task 1 has the stored link
`http://a`, with task 1 selected. -/
def sample_view_linked : TaskListView :=
  { TaskListView.init
      { sample_world [] with
        db := { sample_db with task_links := [⟨1, "http://a".toList⟩] } } with
    selected_index := 1 }

/-- The index of the active field is one of 0, 1, 2, 3. -/
def field_in_range (s : TaskListView) : Prop :=
  0 ≤ s.current_input_field ∧ s.current_input_field ≤ 3

instance (s : TaskListView) : Decidable (field_in_range s) := by
  unfold field_in_range; exact inferInstance

/-- A configuration whose only member is `database`, an object with the `path`
x.db: it has no `prompts`. -/
def sample_config_database_only : JsonValue :=
  JsonValue.obj [("database".toList, JsonValue.obj [("path".toList, JsonValue.str "x.db".toList)])]

/-- A configuration with an empty object as `prompts` and the same `database`
member. -/
def sample_config_with_prompts : JsonValue :=
  JsonValue.obj [("prompts".toList, JsonValue.obj []),
    ("database".toList, JsonValue.obj [("path".toList, JsonValue.str "x.db".toList)])]

/-! ## Properties -/

/-! ### The scanner on decimal fields -/

theorem dec_value_cons (c : Char) (ds : Str) :
    dec_value (c :: ds) = 10 ^ ds.length * digit_value c + dec_value ds := by
  simp [dec_value, Nat.ofDigits_append, Nat.ofDigits_singleton]
  ring

theorem scan_digits_number (ds rest : Str) (hds : ∀ c ∈ ds, isdigit c = true)
    (hrest : no_digit_head rest) (acc : Nat) :
    scan_digits acc (ds ++ rest) = (acc * 10 ^ ds.length + dec_value ds, rest) := by
  induction ds generalizing acc with
  | nil =>
    cases rest with
    | nil => simp [scan_digits, dec_value]
    | cons c cs =>
      have : isdigit c = false := hrest c (by simp)
      simp [scan_digits, this, dec_value]
  | cons c cs ih =>
    have hc : isdigit c = true := hds c (by simp)
    have hcs : ∀ x ∈ cs, isdigit x = true := fun x hx => hds x (by simp [hx])
    simp only [List.cons_append, scan_digits, hc, if_true]
    show scan_digits _ (cs ++ rest) = _
    rw [ih hcs, dec_value_cons]
    simp only [digit_value, List.length_cons, Prod.mk.injEq, and_true]
    ring

theorem isdigit_not_space (c : Char) (h : isdigit c = true) : isspace c = false := by
  cases hs : isspace c with
  | false => rfl
  | true =>
    simp only [isspace, Bool.or_eq_true, beq_iff_eq] at hs
    rcases hs with ((((h1 | h1) | h1) | h1) | h1) | h1 <;> subst h1 <;> revert h <;> decide

theorem scan_decimal_number (ds rest : Str) (hds : is_number ds)
    (hrest : no_digit_head rest) :
    scan_decimal (ds ++ rest) = some ((dec_value ds : Int), rest) := by
  obtain ⟨hne, hall⟩ := hds
  cases ds with
  | nil => exact absurd rfl hne
  | cons c cs =>
    have hc : isdigit c = true := hall c (by simp)
    have hsp := isdigit_not_space c hc
    have hm : c ≠ '-' := by rintro rfl; revert hc; decide
    have hp : c ≠ '+' := by rintro rfl; revert hc; decide
    have hscan := scan_digits_number (c :: cs) rest hall hrest 0
    simp only [List.cons_append] at hscan
    unfold scan_decimal
    simp only [List.cons_append, skip_ws, hsp]
    split
    · rename_i h; simp at h; exact absurd h.1 hm
    · rename_i h; simp at h; exact absurd h.1 hp
    · simp [scan_unsigned, hc, hscan]

/-- A value of the range of `int` is stored as it is. -/
theorem to_int_strtol_value (v : Int) (h0 : -2147483648 ≤ v) (h1 : v ≤ 2147483647) :
    to_int (strtol_value v) = v := by
  unfold strtol_value to_int
  rw [if_neg (by omega), if_neg (by omega)]
  omega

theorem scan_int_number (ds rest : Str) (hds : is_int_number ds)
    (hrest : no_digit_head rest) :
    scan_int (ds ++ rest) = some ((dec_value ds : Int), rest) := by
  unfold scan_int
  rw [scan_decimal_number ds rest hds.1 hrest]
  have h := hds.2
  simp only [Option.map_some']
  rw [to_int_strtol_value _ (by omega) (by omega)]

theorem sscanf_int_number (fmt : List Directive) (ds rest : Str) (hds : is_int_number ds)
    (hrest : no_digit_head rest) :
    sscanf (Directive.int :: fmt) (ds ++ rest) = (dec_value ds : Int) :: sscanf fmt rest := by
  simp [sscanf, scan_int_number ds rest hds hrest]

theorem sscanf_int_number_end (fmt : List Directive) (ds : Str) (hds : is_int_number ds) :
    sscanf (Directive.int :: fmt) ds = (dec_value ds : Int) :: sscanf fmt [] := by
  have h := sscanf_int_number fmt ds [] hds (by simp [no_digit_head])
  simpa using h

theorem sscanf_lit (fmt : List Directive) (c : Char) (rest : Str) :
    sscanf (Directive.lit c :: fmt) (c :: rest) = sscanf fmt rest := by
  simp [sscanf]

theorem no_digit_head_cons (c : Char) (rest : Str) (h : isdigit c = false) :
    no_digit_head (c :: rest) := by
  simp [no_digit_head, h]

theorem skip_ws_space_number (ds rest : Str) (hds : is_number ds) :
    skip_ws (' ' :: (ds ++ rest)) = ds ++ rest := by
  obtain ⟨hne, hall⟩ := hds
  cases ds with
  | nil => exact absurd rfl hne
  | cons c cs =>
    have h1 := isdigit_not_space c (hall c (by simp))
    have h2 : isspace ' ' = true := by decide
    simp only [skip_ws, h2, if_true, List.cons_append, h1]
    simp

theorem sscanf_append_of_short (f g : List Directive) (s : Str)
    (h : (sscanf f s).length < conversions f) : sscanf (f ++ g) s = sscanf f s := by
  induction f generalizing s with
  | nil => simp [conversions] at h
  | cons d f ih =>
    cases d with
    | int =>
      simp only [List.cons_append, sscanf]
      cases hs : scan_int s with
      | none => rfl
      | some r =>
        obtain ⟨v, rest⟩ := r
        simp only [sscanf, hs, conversions, List.length_cons, Nat.add_lt_add_iff_right] at h
        simp [ih rest h]
    | lit c =>
      cases s with
      | nil => simp [sscanf]
      | cons x rest =>
        by_cases hx : x = c
        · simp only [sscanf, hx, if_true, conversions] at h
          simp [sscanf, hx, ih rest h]
        · simp [sscanf, hx]
    | ws =>
      simp only [sscanf, conversions] at h
      simp [sscanf, ih _ h]

/-- When "%d-%d-%d" converts fewer than three fields, so do the two longer
formats, and the cascade ends in its last branch. -/
theorem parse_due_date_eq_none (buf : Str) (h : (sscanf fmt_date buf).length < 3) :
    parse_due_date buf = none := by
  have h1 : sscanf fmt_date_hm buf = sscanf fmt_date buf :=
    sscanf_append_of_short fmt_date _ buf h
  have h2 : sscanf fmt_date_hms buf = sscanf fmt_date buf := by
    unfold fmt_date_hms fmt_date_hm
    rw [List.append_assoc]
    exact sscanf_append_of_short fmt_date _ buf h
  have h3 : ¬ 3 ≤ (sscanf fmt_date buf).length := by omega
  simp [parse_due_date, h1, h2, h3]

theorem parse_due_date_date (y m d : Str) (hy : is_int_number y) (hm' : is_int_number m)
    (hd : is_int_number d) :
    parse_due_date (y ++ '-' :: (m ++ '-' :: d)) =
      some ⟨(dec_value y : Int) - 1900, (dec_value m : Int) - 1, dec_value d, 0, 0, 0⟩ := by
  have hm : isdigit '-' = false := by decide
  have : sscanf fmt_date_hms (y ++ '-' :: (m ++ '-' :: d)) =
      [(dec_value y : Int), dec_value m, dec_value d] := by
    simp only [fmt_date_hms, fmt_date_hm, fmt_date, List.cons_append, List.nil_append]
    rw [sscanf_int_number _ y _ hy (no_digit_head_cons _ _ hm), sscanf_lit,
      sscanf_int_number _ m _ hm' (no_digit_head_cons _ _ hm), sscanf_lit,
      sscanf_int_number_end _ d hd]
    simp [sscanf, skip_ws, scan_int, scan_decimal, scan_unsigned]
  simp [parse_due_date, this, ScanVars.assign]

theorem parse_due_date_date_hm (y m d h mi : Str) (hy : is_int_number y)
    (hm' : is_int_number m) (hd : is_int_number d) (hh : is_int_number h)
    (hmi : is_int_number mi) :
    parse_due_date (y ++ '-' :: (m ++ '-' :: (d ++ ' ' :: (h ++ ':' :: mi)))) =
      some ⟨(dec_value y : Int) - 1900, (dec_value m : Int) - 1, dec_value d,
        dec_value h, dec_value mi, 0⟩ := by
  have hm : isdigit '-' = false := by decide
  have hsp : isdigit ' ' = false := by decide
  have hco : isdigit ':' = false := by decide
  have : sscanf fmt_date_hms (y ++ '-' :: (m ++ '-' :: (d ++ ' ' :: (h ++ ':' :: mi)))) =
      [(dec_value y : Int), dec_value m, dec_value d, dec_value h, dec_value mi] := by
    simp only [fmt_date_hms, fmt_date_hm, fmt_date, List.cons_append, List.nil_append]
    rw [sscanf_int_number _ y _ hy (no_digit_head_cons _ _ hm), sscanf_lit,
      sscanf_int_number _ m _ hm' (no_digit_head_cons _ _ hm), sscanf_lit,
      sscanf_int_number _ d _ hd (no_digit_head_cons _ _ hsp)]
    have hws := skip_ws_space_number h (':' :: mi) hh.1
    rw [sscanf, hws, sscanf_int_number _ h _ hh (no_digit_head_cons _ _ hco), sscanf_lit,
      sscanf_int_number_end _ mi hmi]
    simp [sscanf]
  simp [parse_due_date, this, ScanVars.assign]

theorem parse_due_date_date_hms (y m d h mi sec : Str) (hy : is_int_number y)
    (hm' : is_int_number m) (hd : is_int_number d) (hh : is_int_number h)
    (hmi : is_int_number mi) (hsec : is_int_number sec) :
    parse_due_date
        (y ++ '-' :: (m ++ '-' :: (d ++ ' ' :: (h ++ ':' :: (mi ++ ':' :: sec))))) =
      some ⟨(dec_value y : Int) - 1900, (dec_value m : Int) - 1, dec_value d,
        dec_value h, dec_value mi, dec_value sec⟩ := by
  have hm : isdigit '-' = false := by decide
  have hsp : isdigit ' ' = false := by decide
  have hco : isdigit ':' = false := by decide
  have : sscanf fmt_date_hms
      (y ++ '-' :: (m ++ '-' :: (d ++ ' ' :: (h ++ ':' :: (mi ++ ':' :: sec))))) =
      [(dec_value y : Int), dec_value m, dec_value d, dec_value h, dec_value mi,
        dec_value sec] := by
    simp only [fmt_date_hms, fmt_date_hm, fmt_date, List.cons_append, List.nil_append]
    rw [sscanf_int_number _ y _ hy (no_digit_head_cons _ _ hm), sscanf_lit,
      sscanf_int_number _ m _ hm' (no_digit_head_cons _ _ hm), sscanf_lit,
      sscanf_int_number _ d _ hd (no_digit_head_cons _ _ hsp)]
    have hws := skip_ws_space_number h (':' :: (mi ++ ':' :: sec)) hh.1
    rw [sscanf, hws, sscanf_int_number _ h _ hh (no_digit_head_cons _ _ hco), sscanf_lit,
      sscanf_int_number _ mi _ hmi (no_digit_head_cons _ _ hco), sscanf_lit,
      sscanf_int_number_end _ sec hsec]
    simp [sscanf]
  simp [parse_due_date, this, ScanVars.assign]

/-- C4 (as amended): on a buffer of the shape `Y-M-D` whose fields are at most
`INT_MAX` the save parser produces the fields (Y - 1900, M - 1, D, 0, 0, 0) of
`struct tm`; on `Y-M-D h:m` it produces (Y - 1900, M - 1, D, h, m, 0); on
`Y-M-D h:m:s` it produces (Y - 1900, M - 1, D, h, m, s); every field is a
non-empty run of decimal digits of a value at most 2147483647 and stands for
that value. -/
theorem parse_due_date_shapes :
    (∀ y m d : Str, is_int_number y → is_int_number m → is_int_number d →
      parse_due_date (y ++ '-' :: (m ++ '-' :: d)) =
        some ⟨(dec_value y : Int) - 1900, (dec_value m : Int) - 1, dec_value d, 0, 0, 0⟩) ∧
    (∀ y m d h mi : Str, is_int_number y → is_int_number m → is_int_number d →
      is_int_number h → is_int_number mi →
      parse_due_date (y ++ '-' :: (m ++ '-' :: (d ++ ' ' :: (h ++ ':' :: mi)))) =
        some ⟨(dec_value y : Int) - 1900, (dec_value m : Int) - 1, dec_value d,
          dec_value h, dec_value mi, 0⟩) ∧
    (∀ y m d h mi sec : Str, is_int_number y → is_int_number m → is_int_number d →
      is_int_number h → is_int_number mi → is_int_number sec →
      parse_due_date
          (y ++ '-' :: (m ++ '-' :: (d ++ ' ' :: (h ++ ':' :: (mi ++ ':' :: sec))))) =
        some ⟨(dec_value y : Int) - 1900, (dec_value m : Int) - 1, dec_value d,
          dec_value h, dec_value mi, dec_value sec⟩) :=
  ⟨parse_due_date_date, parse_due_date_date_hm, parse_due_date_date_hms⟩

/-- C5: `is_overdue` is true exactly when the due date is present, lies before
the current time, and the task is not completed. -/
theorem is_overdue_iff (t : Task) (now : Int) :
    t.is_overdue now = true ↔
      (∃ d, t.due_date = some d ∧ d < now) ∧ t.is_completed = false := by
  unfold Task.is_overdue
  cases hd : t.due_date <;> cases hc : t.is_completed <;> simp

/-- C2: in a dialog view with an empty description buffer, Enter makes no call
on the store or the cache (the collaborators are left exactly as they were),
leaves the task list, the view and the five input buffers unchanged, and sets a
non-empty error message. -/
theorem empty_description_rejected (env : Env) (s : TaskListView)
    (hv : is_dialog s.current_view) (hd : s.input_description = []) :
    let s' := (on_event env Event.enter s).1
    s'.w = s.w ∧ s'.tasks = s.tasks ∧ s'.current_view = s.current_view ∧
      s'.input_description = s.input_description ∧ s'.input_priority = s.input_priority ∧
      s'.input_due_date = s.input_due_date ∧ s'.input_link = s.input_link ∧
      s'.input_progress = s.input_progress ∧ s'.status_message ≠ [] ∧
      (s'.status_message = "Task description cannot be empty!".toList ∨
        s'.status_message = "Subtask description cannot be empty!".toList) := by
  rcases hv with h | h | h <;>
    simp [on_event, on_dialog_event, save_task, save_subtask, h, hd]

/-- C2 at a concrete state: the add dialog over the sample store with every
buffer but the due date empty. -/
theorem empty_description_rejected_witness :
    is_dialog (sample_dialog View.add 0 [] 1 "2025-01-05".toList 0).current_view ∧
    (on_event sample_env Event.enter
        (sample_dialog View.add 0 [] 1 "2025-01-05".toList 0)).1.w.calls =
      [Call.get_all_tasks true] ∧
    (on_event sample_env Event.enter
        (sample_dialog View.add 0 [] 1 "2025-01-05".toList 0)).1.current_view = View.add :=
  have h := empty_description_rejected sample_env
    (sample_dialog View.add 0 [] 1 "2025-01-05".toList 0) (Or.inl rfl) rfl
  ⟨Or.inl rfl, by rw [h.1]; rfl, h.2.2.1⟩

/-- C4 (as amended) at the three buffers the specification lists. -/
theorem parse_due_date_shapes_witness :
    is_int_number "2025".toList ∧ is_int_number "01".toList ∧ is_int_number "05".toList ∧
    is_int_number "09".toList ∧ is_int_number "00".toList ∧ is_int_number "30".toList ∧
    parse_due_date "2025-01-05".toList = some ⟨125, 0, 5, 0, 0, 0⟩ ∧
    parse_due_date "2025-01-05 09:00".toList = some ⟨125, 0, 5, 9, 0, 0⟩ ∧
    parse_due_date "2025-01-05 09:00:30".toList = some ⟨125, 0, 5, 9, 0, 30⟩ := by
  have hy : is_int_number "2025".toList := ⟨⟨by decide, by decide⟩, by decide⟩
  have hm : is_int_number "01".toList := ⟨⟨by decide, by decide⟩, by decide⟩
  have hd : is_int_number "05".toList := ⟨⟨by decide, by decide⟩, by decide⟩
  have hh : is_int_number "09".toList := ⟨⟨by decide, by decide⟩, by decide⟩
  have hmi : is_int_number "00".toList := ⟨⟨by decide, by decide⟩, by decide⟩
  have hs : is_int_number "30".toList := ⟨⟨by decide, by decide⟩, by decide⟩
  have vy : dec_value "2025".toList = 2025 := by decide
  have vm : dec_value "01".toList = 1 := by decide
  have vd : dec_value "05".toList = 5 := by decide
  have vh : dec_value "09".toList = 9 := by decide
  have vmi : dec_value "00".toList = 0 := by decide
  have vs : dec_value "30".toList = 30 := by decide
  have h1 := parse_due_date_shapes.1 _ _ _ hy hm hd
  have h2 := parse_due_date_shapes.2.1 _ _ _ _ _ hy hm hd hh hmi
  have h3 := parse_due_date_shapes.2.2 _ _ _ _ _ _ hy hm hd hh hmi hs
  rw [vy, vm, vd] at h1
  rw [vy, vm, vd, vh, vmi] at h2
  rw [vy, vm, vd, vh, vmi, vs] at h3
  exact ⟨hy, hm, hd, hh, hmi, hs, h1, h2, h3⟩

/-- C4 fails as stated: the buffer `99999999999-01-05` has the shape `Y-M-D`
with Y = 99999999999, a run of decimal digits; the year the parser stores in
its `int` is 1215752191, the 32 low bits of Y, so `tm_year` is 1215750291 and
not Y - 1900 = 99999998099. -/
theorem year_above_int_max_is_wrapped :
    date_shape "99999999999-01-05".toList = true ∧
    is_number_text "99999999999".toList = true ∧
    dec_value "99999999999".toList = 99999999999 ∧
    sscanf fmt_date_hms "99999999999-01-05".toList = [1215752191, 1, 5] ∧
    parse_due_date "99999999999-01-05".toList = some ⟨1215750291, 0, 5, 0, 0, 0⟩ ∧
    parse_due_date "99999999999-01-05".toList ≠ some ⟨99999999999 - 1900, 0, 5, 0, 0, 0⟩ := by
  refine ⟨by decide, by decide, by decide, by decide, by decide, by decide⟩


/-- C3 (as amended): with a non-empty description, a non-empty due-date buffer on
which "%d-%d-%d" converts fewer than three fields is a validation failure:
Enter makes no call on the store or the cache, the view stays the dialog, the
buffers and the task list are unchanged and an error message is set. -/
theorem unparsable_due_date_rejected (env : Env) (s : TaskListView)
    (hv : is_dialog s.current_view) (hd : s.input_description ≠ [])
    (hb : s.input_due_date ≠ [])
    (hp : (sscanf fmt_date s.input_due_date).length < 3) :
    let s' := (on_event env Event.enter s).1
    s'.w.calls = s.w.calls ∧ s'.w.db = s.w.db ∧ s'.w.redis = s.w.redis ∧
      s'.tasks = s.tasks ∧ s'.current_view = s.current_view ∧
      s'.input_description = s.input_description ∧ s'.input_priority = s.input_priority ∧
      s'.input_due_date = s.input_due_date ∧ s'.input_link = s.input_link ∧
      s'.input_progress = s.input_progress ∧
      (s'.status_message =
          "Invalid date format! Use: YYYY-MM-DD or YYYY-MM-DD HH:MM".toList ∨
        s'.status_message = "No parent task selected.".toList) := by
  have hnone := parse_due_date_eq_none s.input_due_date hp
  rcases hv with h | h | h
  · simp [on_event, on_dialog_event, save_task, h, hd, hb, hnone, World.post_event]
  · simp [on_event, on_dialog_event, save_task, h, hd, hb, hnone, World.post_event]
  · by_cases hsel : no_selection s = true
    · simp [on_event, on_dialog_event, save_subtask, h, hd, hsel]
    · simp [on_event, on_dialog_event, save_subtask, h, hd, hb, hnone, World.post_event, hsel]

/-- C3 (as amended) at the buffer `not-a-date` in the add dialog. -/
theorem unparsable_due_date_rejected_witness :
    (on_event sample_env Event.enter
        (sample_dialog View.add 1 "x".toList 1 "not-a-date".toList 0)).1.w.calls =
      [Call.get_all_tasks true] ∧
    (on_event sample_env Event.enter
        (sample_dialog View.add 1 "x".toList 1 "not-a-date".toList 0)).1.current_view =
      View.add :=
  have h := unparsable_due_date_rejected sample_env
    (sample_dialog View.add 1 "x".toList 1 "not-a-date".toList 0) (Or.inl rfl)
    (by decide) (by decide) (by decide)
  ⟨by rw [h.1]; rfl, h.2.2.2.2.1⟩

/-- C3 fails as stated: the buffer `2025-01-05xyz` is none of the three shapes,
yet Enter in the add dialog hands the task to the store's insert with the due
date 2025-01-05 00:00:00 and returns to the list. -/
theorem due_date_with_trailing_text_accepted :
    date_shape "2025-01-05xyz".toList = false ∧
    (on_event sample_env Event.enter
        (sample_dialog View.add 1 "x".toList 1 "2025-01-05xyz".toList 0)).1.w.calls =
      [ Call.get_all_tasks true,
        Call.add_task
          { id := 0, description := "x".toList, is_completed := false, priority := 1,
            created_at := 1000, due_date := some (sample_env.mktime ⟨125, 0, 5, 0, 0, 0⟩),
            links := [], tags := [], parent_id := none, progress := 0, status := 0 },
        Call.get_all_tasks true ] ∧
    (on_event sample_env Event.enter
        (sample_dialog View.add 1 "x".toList 1 "2025-01-05xyz".toList 0)).1.current_view =
      View.list := by
  refine ⟨by decide, by decide, by decide⟩

/-! ### Toggle with a failing update -/

/-- C1 fails on the code: over the sample store with the next store statement
failing, the list in memory equals the store's listing before the space key,
and differs from it afterwards: the selected task is completed in memory and
not in the store. -/
theorem toggle_failure_leaves_list_out_of_sync :
    (sample_view [false]).tasks =
      (sample_view [false]).w.db.get_all_tasks (sample_view [false]).show_completed ∧
    (on_event sample_env (Event.character [' ']) (sample_view [false])).1.tasks ≠
      (on_event sample_env (Event.character [' ']) (sample_view [false])).1.w.db.get_all_tasks
        (on_event sample_env (Event.character [' ']) (sample_view [false])).1.show_completed ∧
    (on_event sample_env (Event.character [' ']) (sample_view [false])).1.tasks.map
        (fun t => (t.id, t.is_completed)) = [(2, true), (1, false)] ∧
    ((on_event sample_env (Event.character [' ']) (sample_view [false])).1.w.db.get_all_tasks
        (on_event sample_env (Event.character [' ']) (sample_view [false])).1.show_completed).map
        (fun t => (t.id, t.is_completed)) = [(2, false), (1, false)] := by
  decide

/-! ### The list and the store stay in step on every other path -/

theorem in_sync_of_eq (s u : TaskListView) (hs : in_sync s) (ht : u.tasks = s.tasks)
    (hd : u.w.db = s.w.db) (hc : u.show_completed = s.show_completed) : in_sync u := by
  unfold in_sync at hs ⊢
  rw [ht, hd, hc]; exact hs

theorem update_task_fail_db (w : World) (t : Task) (h : ¬ (w.update_task t).2 = true) :
    (w.update_task t).1.db = w.db := by
  cases hok : w.db_ok <;>
    simp_all [World.update_task, DatabaseManager.update_task, World.log]

theorem delete_task_fail_db (w : World) (i : Int) (h : ¬ (w.delete_task i).2 = true) :
    (w.delete_task i).1.db = w.db := by
  cases hok : w.db_ok <;>
    simp_all [World.delete_task, DatabaseManager.delete_task, World.log]

theorem foldl_max_ge (rows : List Row) (m : Int) :
    m ≤ rows.foldl (fun m r => max m r.id) m := by
  induction rows generalizing m with
  | nil => simp
  | cons r rs ih =>
    simp only [List.foldl_cons]
    exact le_trans (le_max_left _ _) (ih _)

theorem next_id_pos (db : DatabaseManager) : 0 < db.next_id := by
  unfold DatabaseManager.next_id
  have := foldl_max_ge db.tasks (max db.seq 0)
  have h0 : (0 : Int) ≤ max db.seq 0 := le_max_right _ _
  omega

theorem add_task_fail_db (w : World) (t : Task) (h : ¬ (w.add_task t).2 > 0) :
    (w.add_task t).1.db = w.db := by
  cases hok : w.db_ok
  · simp [World.add_task, DatabaseManager.add_task, World.log, hok]
  · exfalso
    apply h
    simp only [World.add_task, DatabaseManager.add_task, hok, if_true]
    exact next_id_pos w.db

theorem update_task_no_row_db (w : World) (t : Task) (hp : positive_ids w.db)
    (ht : t.id ≤ 0) : (w.update_task t).1.db = w.db := by
  cases hok : w.db_ok
  · simp [World.update_task, DatabaseManager.update_task, World.log, hok]
  · have hmap : w.db.tasks.map (fun r =>
        if r.id = t.id then
          { r with description := t.description, is_completed := t.is_completed,
                   priority := t.priority, due_date := t.due_date,
                   parent_id := t.parent_id, progress := t.progress,
                   status := t.status }
        else r) = w.db.tasks := by
      conv_rhs => rw [← List.map_id w.db.tasks]
      apply List.map_congr_left
      intro r hr
      have := hp r hr
      have hne : r.id ≠ t.id := by omega
      simp [hne]
    simp only [World.update_task, DatabaseManager.update_task, hok, if_true, World.log]
    rw [hmap]


theorem update_task_result (w : World) (t : Task) : (w.update_task t).2 = w.db_ok := by
  cases hok : w.db_ok <;> simp [World.update_task, DatabaseManager.update_task, hok]

theorem cache_throws_exited (w : World) (task : Task) (h : w.cache_throws task = true) :
    (w.cache_if_connected task).exited = true := by
  unfold World.cache_throws at h
  unfold World.cache_if_connected
  cases hr : w.redis with
  | none => simp [hr] at h
  | some r =>
    simp only [hr, Bool.and_eq_true, Option.isNone_iff_eq_none] at h
    simp only [h.1, h.2, if_true]

theorem toggle_sync (s : TaskListView) (hs : in_sync s)
    (hok : no_selection s = false → s.w.db_ok = true) :
    in_sync (toggle_task_completion s) ∨ (toggle_task_completion s).w.exited = true := by
  unfold toggle_task_completion
  dsimp only
  by_cases h1 : no_selection s = true
  · rw [if_pos h1]; exact Or.inl hs
  rw [if_neg h1]
  have h2 : (s.w.update_task
      { selected_task s with is_completed := !(selected_task s).is_completed }).2 = true := by
    rw [update_task_result]; exact hok (by simpa using h1)
  rw [if_pos h2]
  split_ifs with h3
  all_goals first
    | exact Or.inr (cache_throws_exited _ _ h3)
    | (left; rfl)

theorem confirm_delete_sync (s : TaskListView) (hs : in_sync s) :
    in_sync (confirm_delete s) := by
  unfold confirm_delete
  dsimp only
  split_ifs with h1 h2
  all_goals first
    | exact hs
    | rfl
    | exact in_sync_of_eq s _ hs rfl (delete_task_fail_db _ _ h2) rfl

theorem finish_save_sync (s : TaskListView) (task : Task) (result : Int) (a b : Str)
    (h : ¬ result > 0 → in_sync s) :
    in_sync (finish_save s task result a b) ∨ (finish_save s task result a b).w.exited = true := by
  unfold finish_save
  dsimp only
  by_cases h1 : result > 0
  · by_cases h2 : (if s.input_link.isEmpty = true then s.w.post_event
        else (s.w.post_event.add_task_link task.id s.input_link).1).cache_throws task = true
    · rw [if_pos ⟨h1, h2⟩]
      exact Or.inr (cache_throws_exited _ _ h2)
    · rw [if_neg (fun hc => h2 hc.2), if_pos h1]
      (left; rfl)
  · rw [if_neg (fun hc => h1 hc.1), if_neg h1]
    exact Or.inl (h h1)

theorem update_task_result_db (w : World) (t : Task) (hp : positive_ids w.db)
    (hres : ¬ (if (w.update_task t).2 = true then t.id else -1) > 0) :
    (w.update_task t).1.db = w.db := by
  split_ifs at hres with h3
  · exact update_task_no_row_db _ _ hp (not_lt.mp hres)
  · exact update_task_fail_db _ _ h3

theorem save_task_sync (env : Env) (is_edit : Bool) (s : TaskListView) (hs : in_sync s)
    (hp : positive_ids s.w.db) :
    in_sync (save_task env is_edit s) ∨ (save_task env is_edit s).w.exited = true := by
  unfold save_task
  dsimp only
  by_cases h1 : s.input_description.isEmpty = true
  · rw [if_pos h1]; exact Or.inl hs
  rw [if_neg h1]
  split
  · exact Or.inl hs
  · cases is_edit
    · rw [if_neg (by decide)]
      apply finish_save_sync
      intro hres
      exact in_sync_of_eq s _ hs rfl (add_task_fail_db _ _ hres) rfl
    · rw [if_pos rfl]
      apply finish_save_sync
      intro hres
      exact in_sync_of_eq s _ hs rfl (update_task_result_db _ _ hp hres) rfl

theorem save_subtask_sync (env : Env) (s : TaskListView) (hs : in_sync s) :
    in_sync (save_subtask env s) ∨ (save_subtask env s).w.exited = true := by
  unfold save_subtask
  dsimp only
  by_cases h1 : s.input_description.isEmpty = true
  · rw [if_pos h1]; exact Or.inl hs
  rw [if_neg h1]
  by_cases h2 : no_selection s = true
  · rw [if_pos h2]; exact Or.inl hs
  rw [if_neg h2]
  split
  · exact Or.inl hs
  · apply finish_save_sync
    intro hres
    exact in_sync_of_eq s _ hs rfl (add_task_fail_db _ _ hres) rfl

theorem on_dialog_event_sync (env : Env) (ev : Event) (s : TaskListView)
    (hs : in_sync s) (hp : positive_ids s.w.db) :
    in_sync (on_dialog_event env ev s) ∨ (on_dialog_event env ev s).w.exited = true := by
  unfold on_dialog_event
  dsimp only
  cases ev with
  | enter =>
    dsimp only
    split_ifs
    · exact save_subtask_sync env s hs
    · exact save_task_sync env _ s hs hp
  | character c =>
    dsimp only [append_active]
    repeat' split
    all_goals exact Or.inl hs
  | backspace => dsimp only; split_ifs <;> exact Or.inl hs
  | _ => exact Or.inl hs

theorem dialogs_sync (env : Env) (s : TaskListView) (h : in_sync s) :
    in_sync (add_task_dialog s) ∧ in_sync (edit_task_dialog env s) ∧
      in_sync (delete_task_dialog s) ∧ in_sync (add_subtask_dialog s) ∧
      in_sync (show_ai_suggestions env s) ∧ in_sync (show_schedule_summary env s) ∧
      in_sync (show_settings s) ∧ in_sync (sync_to_sheets s) ∧
      in_sync (show_help s) := by
  refine ⟨?_, ?_, ?_, ?_, ?_, ?_, ?_, ?_, ?_⟩
  · exact h
  · unfold edit_task_dialog; split <;> exact h
  · unfold delete_task_dialog; split <;> exact h
  · unfold add_subtask_dialog; split <;> exact h
  · unfold show_ai_suggestions; dsimp only; repeat' split
    all_goals exact h
  · unfold show_schedule_summary; split <;> exact h
  · exact h
  · exact h
  · exact h

/-- Every event but a space key whose store update fails keeps the list in
memory equal to the store's listing (the rows carrying positive ids, the
reads of the store executing), unless the loop is left (by `q`, Escape or an
exception). -/
theorem sync_preserved_unless_toggle_fails (env : Env) (ev : Event) (s : TaskListView)
    (hs : in_sync s) (hp : positive_ids s.w.db)
    (hne : ¬ (s.current_view = View.list ∧ ev = Event.character [' '] ∧
      no_selection s = false ∧ s.w.db_ok = false)) :
    in_sync (on_event env ev s).1 ∨ (on_event env ev s).1.w.exited = true := by
  unfold on_event
  cases hv : s.current_view with
  | delete_confirm =>
    dsimp only
    split_ifs
    · exact Or.inl (confirm_delete_sync s hs)
    · exact Or.inl hs
  | add => exact on_dialog_event_sync env ev s hs hp
  | edit => exact on_dialog_event_sync env ev s hs hp
  | add_subtask => exact on_dialog_event_sync env ev s hs hp
  | settings =>
    dsimp only
    split_ifs
    all_goals first
      | exact Or.inl hs
      | (left; rfl)
  | help => exact Or.inl hs
  | ai_suggestions => exact Or.inl hs
  | list =>
    dsimp only
    cases ev with
    | arrow_up => dsimp only; split_ifs <;> exact Or.inl hs
    | arrow_down => dsimp only; split_ifs <;> exact Or.inl hs
    | character c =>
      dsimp only
      by_cases hc : c = ['q']
      · rw [if_pos hc]; exact Or.inl hs
      rw [if_neg hc]; clear hc
      by_cases hc : c = ['a']
      · rw [if_pos hc]; exact Or.inl ((dialogs_sync env s hs).1)
      rw [if_neg hc]; clear hc
      by_cases hc : c = ['e']
      · rw [if_pos hc]; exact Or.inl ((dialogs_sync env s hs).2.1)
      rw [if_neg hc]; clear hc
      by_cases hc : c = ['d']
      · rw [if_pos hc]; exact Or.inl ((dialogs_sync env s hs).2.2.1)
      rw [if_neg hc]; clear hc
      by_cases hc : c = ['t']
      · rw [if_pos hc]; exact Or.inl ((dialogs_sync env s hs).2.2.2.1)
      rw [if_neg hc]; clear hc
      by_cases hc : c = [' ']
      · rw [if_pos hc]
        apply toggle_sync s hs
        intro hsel
        cases hok : s.w.db_ok with
        | true => rfl
        | false => exact absurd ⟨hv, by rw [hc], hsel, hok⟩ hne
      rw [if_neg hc]; clear hc
      by_cases hc : c = ['s']
      · rw [if_pos hc]; exact Or.inl ((dialogs_sync env s hs).2.2.2.2.1)
      rw [if_neg hc]; clear hc
      by_cases hc : c = ['S']
      · rw [if_pos hc]; exact Or.inl ((dialogs_sync env s hs).2.2.2.2.2.1)
      rw [if_neg hc]; clear hc
      by_cases hc : c = ['g']
      · rw [if_pos hc]; exact Or.inl ((dialogs_sync env s hs).2.2.2.2.2.2.1)
      rw [if_neg hc]; clear hc
      by_cases hc : c = ['G']
      · rw [if_pos hc]; exact Or.inl ((dialogs_sync env s hs).2.2.2.2.2.2.2.1)
      rw [if_neg hc]; clear hc
      by_cases hc : c = ['c']
      · rw [if_pos hc]; (left; rfl)
      rw [if_neg hc]; clear hc
      by_cases hc : c = ['h']
      · rw [if_pos hc]; exact Or.inl ((dialogs_sync env s hs).2.2.2.2.2.2.2.2)
      rw [if_neg hc]; clear hc
      exact Or.inl hs
    | _ => exact Or.inl hs

/-! ### Validation, parsing and the dialog keys -/

/-- C9: in a dialog view with the progress field active and the progress
buffer p in [0,100], `+` sets the buffer to min(100, p+5) and `-` to
max(0, p-5); the result stays in [0,100] and no other buffer changes. -/
theorem progress_step_clamped (env : Env) (s : TaskListView)
    (hv : is_dialog s.current_view) (hf : s.current_input_field = 3)
    (h0 : 0 ≤ s.input_progress) (h1 : s.input_progress ≤ 100) :
    let sp := (on_event env (Event.character ['+']) s).1
    let sm := (on_event env (Event.character ['-']) s).1
    sp.input_progress = min 100 (s.input_progress + 5) ∧
      sm.input_progress = max 0 (s.input_progress - 5) ∧
      (0 ≤ sp.input_progress ∧ sp.input_progress ≤ 100) ∧
      (0 ≤ sm.input_progress ∧ sm.input_progress ≤ 100) ∧
      (sp.input_description = s.input_description ∧ sp.input_priority = s.input_priority ∧
        sp.input_due_date = s.input_due_date ∧ sp.input_link = s.input_link) ∧
      (sm.input_description = s.input_description ∧ sm.input_priority = s.input_priority ∧
        sm.input_due_date = s.input_due_date ∧ sm.input_link = s.input_link) := by
  have e : ∀ ev, (on_event env ev s).1 = on_dialog_event env ev s := by
    intro ev
    rcases hv with h | h | h <;> simp [on_event, h]
  have hp : on_dialog_event env (Event.character ['+']) s =
      if s.input_progress < 100 then
        { s with input_progress :=
            if s.input_progress + 5 > 100 then 100 else s.input_progress + 5 }
      else s := by
    simp [on_dialog_event, hf, append_active]
  have hm : on_dialog_event env (Event.character ['-']) s =
      if s.input_progress > 0 then
        { s with input_progress :=
            if s.input_progress - 5 < 0 then 0 else s.input_progress - 5 }
      else s := by
    simp [on_dialog_event, hf, append_active]
  simp only [e, hp, hm]
  by_cases c1 : s.input_progress < 100 <;> by_cases c2 : s.input_progress + 5 > 100 <;>
    by_cases c3 : s.input_progress > 0 <;> by_cases c4 : s.input_progress - 5 < 0 <;>
    simp only [c1, c2, c3, c4, if_true, if_false, min_def, max_def] <;>
    refine ⟨?_, ?_, ?_, ?_, ?_, ?_⟩ <;> (try split_ifs) <;> (try simp) <;> omega

/-- C9 at 98 and at 2: `+` from 98 gives 100, `-` from 2 gives 0. -/
theorem progress_step_clamped_witness :
    (on_event sample_env (Event.character ['+'])
        (sample_dialog View.add 3 "x".toList 1 [] 98)).1.input_progress = 100 ∧
    (on_event sample_env (Event.character ['-'])
        (sample_dialog View.add 3 "x".toList 1 [] 2)).1.input_progress = 0 :=
  ⟨(progress_step_clamped sample_env (sample_dialog View.add 3 "x".toList 1 [] 98)
      (Or.inl rfl) rfl (by decide) (by decide)).1,
   (progress_step_clamped sample_env (sample_dialog View.add 3 "x".toList 1 [] 2)
      (Or.inl rfl) rfl (by decide) (by decide)).2.1⟩

/-- C10 (as amended): in a dialog view with the priority buffer q in {0,1,2}.
With the description field active, `+` sets the priority to min(2, q+1) and `-`
to max(0, q-1); the description buffer is unchanged when the priority moves
(q < 2 on `+`, q > 0 on `-`) and receives the literal character when the
priority is already at its bound (q = 2 on `+`, q = 0 on `-`); the due-date,
link and progress buffers are unchanged. With the due-date or the link field
active the literal character is appended to that field and nothing else changes. -/
theorem priority_step_on_description (env : Env) (s : TaskListView)
    (hv : is_dialog s.current_view) (hq0 : 0 ≤ s.input_priority)
    (hq2 : s.input_priority ≤ 2) :
    let sp := (on_event env (Event.character ['+']) s).1
    let sm := (on_event env (Event.character ['-']) s).1
    (s.current_input_field = 0 →
      sp.input_priority = min 2 (s.input_priority + 1) ∧
      sm.input_priority = max 0 (s.input_priority - 1) ∧
      sp.input_description =
        (if s.input_priority < 2 then s.input_description else s.input_description ++ ['+']) ∧
      sm.input_description =
        (if s.input_priority > 0 then s.input_description else s.input_description ++ ['-']) ∧
      sp.input_due_date = s.input_due_date ∧ sp.input_link = s.input_link ∧
      sp.input_progress = s.input_progress ∧
      sm.input_due_date = s.input_due_date ∧ sm.input_link = s.input_link ∧
      sm.input_progress = s.input_progress) ∧
    (s.current_input_field = 1 →
      sp.input_due_date = s.input_due_date ++ ['+'] ∧
      sm.input_due_date = s.input_due_date ++ ['-'] ∧
      sp.input_description = s.input_description ∧ sm.input_description = s.input_description ∧
      sp.input_priority = s.input_priority ∧ sm.input_priority = s.input_priority ∧
      sp.input_link = s.input_link ∧ sm.input_link = s.input_link ∧
      sp.input_progress = s.input_progress ∧ sm.input_progress = s.input_progress) ∧
    (s.current_input_field = 2 →
      sp.input_link = s.input_link ++ ['+'] ∧
      sm.input_link = s.input_link ++ ['-'] ∧
      sp.input_description = s.input_description ∧ sm.input_description = s.input_description ∧
      sp.input_priority = s.input_priority ∧ sm.input_priority = s.input_priority ∧
      sp.input_due_date = s.input_due_date ∧ sm.input_due_date = s.input_due_date ∧
      sp.input_progress = s.input_progress ∧ sm.input_progress = s.input_progress) := by
  have e : ∀ ev, (on_event env ev s).1 = on_dialog_event env ev s := by
    intro ev
    rcases hv with h | h | h <;> simp [on_event, h]
  simp only [e]
  refine ⟨?_, ?_, ?_⟩
  · intro hf
    by_cases c1 : s.input_priority < 2 <;> by_cases c2 : s.input_priority > 0 <;>
      simp [on_dialog_event, hf, append_active, c1, c2, min_def, max_def] <;> omega
  · intro hf
    simp [on_dialog_event, hf, append_active]
  · intro hf
    simp [on_dialog_event, hf, append_active]

/-- C10 (as amended) at priority 1 with the description field active. -/
theorem priority_step_on_description_witness :
    (on_event sample_env (Event.character ['+'])
        (sample_dialog View.add 0 "x".toList 1 [] 0)).1.input_priority = 2 ∧
    (on_event sample_env (Event.character ['+'])
        (sample_dialog View.add 0 "x".toList 1 [] 0)).1.input_description = "x".toList :=
  have h := (priority_step_on_description sample_env
    (sample_dialog View.add 0 "x".toList 1 [] 0) (Or.inl rfl) (by decide) (by decide)).1 rfl
  ⟨h.1, h.2.2.1⟩

/-- C10 fails as stated: with the description field active and the priority
already 2, `+` appends the character to the description buffer. -/
theorem plus_at_high_priority_edits_description :
    (sample_dialog View.add 0 "x".toList 2 [] 0).current_input_field = 0 ∧
    (sample_dialog View.add 0 "x".toList 2 [] 0).input_priority = 2 ∧
    (on_event sample_env (Event.character ['+'])
        (sample_dialog View.add 0 "x".toList 2 [] 0)).1.input_description = "x+".toList ∧
    (on_event sample_env (Event.character ['+'])
        (sample_dialog View.add 0 "x".toList 2 [] 0)).1.input_description ≠
      (sample_dialog View.add 0 "x".toList 2 [] 0).input_description := by
  decide

/-! ### The order of `get_all_tasks` -/

theorem due_date_asc_total (a b : Option Int) :
    due_date_asc a b = true ∨ due_date_asc b a = true := by
  cases a <;> cases b <;> simp [due_date_asc]
  omega

theorem due_date_asc_trans (a b c : Option Int) (h1 : due_date_asc a b = true)
    (h2 : due_date_asc b c = true) : due_date_asc a c = true := by
  cases a <;> cases b <;> cases c <;> simp_all [due_date_asc]
  omega

theorem order_by_total (a b : Row) : order_by a b ∨ order_by b a := by
  unfold order_by
  rcases due_date_asc_total a.due_date b.due_date with h | h <;>
    rcases lt_trichotomy a.priority b.priority with h' | h' | h' <;> simp [h, h']

theorem order_by_trans (a b c : Row) (hab : order_by a b) (hbc : order_by b c) :
    order_by a c := by
  unfold order_by at hab hbc ⊢
  rcases hab with h1 | ⟨h1, h1'⟩ <;> rcases hbc with h2 | ⟨h2, h2'⟩
  · left; omega
  · left; omega
  · left; omega
  · right; exact ⟨by omega, due_date_asc_trans _ _ _ h1' h2'⟩

/-- C7 (as amended): for every store content and both values of
`include_completed`, the list `get_all_tasks` returns is sorted by priority
descending, then by due date ascending with a missing due date first: among
tasks of equal priority every task without a due date comes before every task
that has one. The list holds exactly the selected rows. -/
theorem get_all_tasks_sorted (db : DatabaseManager) (include_completed : Bool) :
    (db.get_all_tasks include_completed).Pairwise listed_before ∧
    (∀ a b, [a, b].Sublist (db.get_all_tasks include_completed) →
      a.priority = b.priority → b.due_date = none → a.due_date = none) ∧
    (db.get_all_tasks include_completed).Perm
      ((db.tasks.filter (fun r => include_completed || !r.is_completed)).map db.load_task) := by
  have hs : (db.get_all_tasks include_completed).Pairwise listed_before := by
    unfold DatabaseManager.get_all_tasks
    rw [List.pairwise_map]
    haveI : IsTotal Row order_by := ⟨order_by_total⟩
    haveI : IsTrans Row order_by := ⟨order_by_trans⟩
    exact List.sorted_insertionSort order_by _
  refine ⟨hs, ?_, ?_⟩
  · intro a b hab hp hb
    have := (List.pairwise_iff_forall_sublist.mp hs) hab
    rcases this with h | ⟨_, h⟩
    · omega
    · cases ha : a.due_date with
      | none => rfl
      | some x => simp [ha, hb, due_date_asc] at h
  · unfold DatabaseManager.get_all_tasks
    apply List.Perm.map
    cases include_completed
    · simpa using (List.perm_insertionSort order_by _).trans (List.reverse_perm _)
    · simpa using (List.perm_insertionSort order_by _).trans (List.reverse_perm _)

/-- C7 fails as stated: over the sample store, whose two rows have the same
priority, the task without a due date is listed before the task due at 100, so
the list is not in the order with a missing due date last. -/
theorem get_all_tasks_not_nulls_last :
    ¬ (sample_db.get_all_tasks true).Pairwise listed_before_nulls_last ∧
    (sample_db.get_all_tasks true).map (fun t => (t.id, t.priority, t.due_date)) =
      [(2, 1, none), (1, 1, some 100)] := by
  decide

/-! ### The selection invariant -/

theorem refresh_tasks_selection (s : TaskListView) (h : 0 ≤ s.selected_index) :
    selection_ok (refresh_tasks s) := by
  simp only [selection_ok, selection_in_range, refresh_tasks]
  split_ifs <;> omega

theorem toggle_selection (s : TaskListView) (h : selection_ok s) :
    selection_ok (toggle_task_completion s) := by
  unfold toggle_task_completion
  dsimp only
  split_ifs
  all_goals first
    | exact h
    | exact refresh_tasks_selection _ h.1
    | simpa [selection_ok, selection_in_range] using h

theorem confirm_delete_selection (s : TaskListView) (h : selection_ok s) :
    selection_ok (confirm_delete s) := by
  unfold confirm_delete
  dsimp only
  split_ifs
  all_goals first
    | exact h
    | exact refresh_tasks_selection _ h.1

theorem finish_save_selection (s : TaskListView) (task : Task) (result : Int)
    (a b : Str) (h : selection_ok s) : selection_ok (finish_save s task result a b) := by
  unfold finish_save
  dsimp only
  split_ifs
  all_goals first
    | exact h
    | exact refresh_tasks_selection _ h.1

theorem save_task_selection (env : Env) (is_edit : Bool) (s : TaskListView)
    (h : selection_ok s) : selection_ok (save_task env is_edit s) := by
  unfold save_task
  dsimp only
  split_ifs
  all_goals first
    | exact h
    | exact finish_save_selection _ _ _ _ _ h
    | (split
       · exact h
       · split_ifs
         all_goals exact finish_save_selection _ _ _ _ _ h)
    | (split
       · exact h
       · exact finish_save_selection _ _ _ _ _ h)

theorem save_subtask_selection (env : Env) (s : TaskListView)
    (h : selection_ok s) : selection_ok (save_subtask env s) := by
  unfold save_subtask
  dsimp only
  split_ifs
  all_goals first
    | exact h
    | exact finish_save_selection _ _ _ _ _ h
    | (split
       · exact h
       · exact finish_save_selection _ _ _ _ _ h)

theorem on_dialog_event_selection (env : Env) (ev : Event) (s : TaskListView)
    (h : selection_ok s) : selection_ok (on_dialog_event env ev s) := by
  unfold on_dialog_event
  dsimp only
  cases ev with
  | enter =>
    dsimp only
    split_ifs
    · exact save_subtask_selection env s h
    · exact save_task_selection env _ s h
  | character c =>
    dsimp only [append_active]
    repeat' split
    all_goals exact h
  | backspace => dsimp only; split_ifs <;> exact h
  | _ => exact h

theorem dialogs_selection (env : Env) (s : TaskListView) (h : selection_ok s) :
    selection_ok (add_task_dialog s) ∧ selection_ok (edit_task_dialog env s) ∧
      selection_ok (delete_task_dialog s) ∧ selection_ok (add_subtask_dialog s) ∧
      selection_ok (show_ai_suggestions env s) ∧ selection_ok (show_schedule_summary env s) ∧
      selection_ok (show_settings s) ∧ selection_ok (sync_to_sheets s) ∧
      selection_ok (show_help s) := by
  refine ⟨?_, ?_, ?_, ?_, ?_, ?_, ?_, ?_, ?_⟩
  · exact h
  · unfold edit_task_dialog; split <;> exact h
  · unfold delete_task_dialog; split <;> exact h
  · unfold add_subtask_dialog; split <;> exact h
  · unfold show_ai_suggestions; dsimp only; repeat' split
    all_goals exact h
  · unfold show_schedule_summary; split <;> exact h
  · exact h
  · exact h
  · exact h

theorem on_event_selection (env : Env) (ev : Event) (s : TaskListView)
    (h : selection_ok s) : selection_ok (on_event env ev s).1 := by
  unfold on_event
  cases hv : s.current_view with
  | delete_confirm =>
    dsimp only
    split_ifs
    · exact confirm_delete_selection s h
    · exact h
  | add => exact on_dialog_event_selection env ev s h
  | edit => exact on_dialog_event_selection env ev s h
  | add_subtask => exact on_dialog_event_selection env ev s h
  | settings =>
    dsimp only
    split_ifs
    all_goals first
      | exact h
      | exact refresh_tasks_selection _ h.1
  | help => exact h
  | ai_suggestions => exact h
  | list =>
    dsimp only
    cases ev with
    | arrow_up =>
      dsimp only
      split_ifs with hc
      · simp only [selection_ok, selection_in_range] at h ⊢
        omega
      · exact h
    | arrow_down =>
      dsimp only
      split_ifs with hc
      · simp only [selection_ok, selection_in_range] at h ⊢
        omega
      · exact h
    | character c =>
      dsimp only
      by_cases hc : c = ['q']
      · rw [if_pos hc]; exact h
      rw [if_neg hc]; clear hc
      by_cases hc : c = ['a']
      · rw [if_pos hc]; exact (dialogs_selection env s h).1
      rw [if_neg hc]; clear hc
      by_cases hc : c = ['e']
      · rw [if_pos hc]; exact (dialogs_selection env s h).2.1
      rw [if_neg hc]; clear hc
      by_cases hc : c = ['d']
      · rw [if_pos hc]; exact (dialogs_selection env s h).2.2.1
      rw [if_neg hc]; clear hc
      by_cases hc : c = ['t']
      · rw [if_pos hc]; exact (dialogs_selection env s h).2.2.2.1
      rw [if_neg hc]; clear hc
      by_cases hc : c = [' ']
      · rw [if_pos hc]; exact toggle_selection s h
      rw [if_neg hc]; clear hc
      by_cases hc : c = ['s']
      · rw [if_pos hc]; exact (dialogs_selection env s h).2.2.2.2.1
      rw [if_neg hc]; clear hc
      by_cases hc : c = ['S']
      · rw [if_pos hc]; exact (dialogs_selection env s h).2.2.2.2.2.1
      rw [if_neg hc]; clear hc
      by_cases hc : c = ['g']
      · rw [if_pos hc]; exact (dialogs_selection env s h).2.2.2.2.2.2.1
      rw [if_neg hc]; clear hc
      by_cases hc : c = ['G']
      · rw [if_pos hc]; exact (dialogs_selection env s h).2.2.2.2.2.2.2.1
      rw [if_neg hc]; clear hc
      by_cases hc : c = ['c']
      · rw [if_pos hc]; exact refresh_tasks_selection _ h.1
      rw [if_neg hc]; clear hc
      by_cases hc : c = ['h']
      · rw [if_pos hc]; exact (dialogs_selection env s h).2.2.2.2.2.2.2.2
      rw [if_neg hc]; clear hc
      exact h
    | _ => exact h

/-- C6: in the state the constructor builds and after every sequence of input
events, over any store, cache and outcomes, `selected_index` lies between 0
and `max(0, len(tasks) - 1)`. -/
theorem selection_invariant (w : World) (events : List (Env × Event)) :
    let s := run_events events (TaskListView.init w)
    0 ≤ s.selected_index ∧ s.selected_index ≤ max 0 ((s.tasks.length : Int) - 1) := by
  have hinit : selection_ok (TaskListView.init w) :=
    refresh_tasks_selection _ (le_refl _)
  have hrun : ∀ (evs : List (Env × Event)) (s : TaskListView), selection_ok s →
      selection_ok (run_events evs s) := by
    intro evs
    induction evs with
    | nil => intro s hs; exact hs
    | cons e rest ih =>
      intro s hs
      obtain ⟨env, ev⟩ := e
      exact ih _ (on_event_selection env ev s hs)
  exact hrun events _ hinit

/-! ### Effects of the calls on the collaborators -/

theorem post_event_proj (w : World) :
    w.post_event.db = w.db ∧ w.post_event.redis = w.redis ∧
      w.post_event.db_outcomes = w.db_outcomes ∧
      w.post_event.redis_outcomes = w.redis_outcomes ∧ w.post_event.calls = w.calls ∧
      w.post_event.exited = w.exited ∧ w.post_event.db_ok = w.db_ok ∧
      w.post_event.redis_ok = w.redis_ok :=
  ⟨rfl, rfl, rfl, rfl, rfl, rfl, rfl, rfl⟩

theorem cache_throws_eq (w : World) (t : Task) :
    w.cache_throws t =
      match w.redis with
      | none => false
      | some r => r.connected && !dump_ok t := by
  unfold World.cache_throws
  cases hr : w.redis with
  | none => rfl
  | some r =>
    cases hc : r.connected <;> cases hd : dump_ok t <;> cases hok : w.redis_ok <;>
      simp [RedisManager.cache_task, serialize_task, hc, hd]

theorem cache_throws_congr (w w' : World) (t t' : Task) (h : w'.redis = w.redis)
    (hd : t'.description = t.description) (hl : t'.links = t.links) :
    w'.cache_throws t' = w.cache_throws t := by
  rw [cache_throws_eq, cache_throws_eq, h]
  unfold dump_ok
  rw [hd, hl]

theorem cache_if_connected_proj (w : World) (t : Task) :
    (w.cache_if_connected t).db = w.db ∧
      (w.cache_if_connected t).db_outcomes = w.db_outcomes ∧
      (w.cache_if_connected t).calls = w.calls ++ cache_calls w (Call.cache_task t) ∧
      (w.cache_if_connected t).posted = w.posted ∧
      (w.cache_if_connected t).exited = (w.exited || w.cache_throws t) ∧
      (w.cache_if_connected t).db_ok = w.db_ok := by
  rw [cache_throws_eq]
  unfold World.cache_if_connected cache_calls World.db_ok
  cases hr : w.redis with
  | none => simp
  | some r =>
    cases hc : r.connected <;> cases hd : dump_ok t <;> cases hok : w.redis_ok <;>
      simp [World.log, hc, hd, RedisManager.cache_task, serialize_task]

theorem invalidate_if_connected_proj (w : World) (i : Int) :
    (w.invalidate_if_connected i).db = w.db ∧
      (w.invalidate_if_connected i).db_outcomes = w.db_outcomes ∧
      (w.invalidate_if_connected i).calls = w.calls ++ cache_calls w (Call.invalidate_task i) ∧
      (w.invalidate_if_connected i).posted = w.posted ∧
      (w.invalidate_if_connected i).exited = w.exited ∧
      (w.invalidate_if_connected i).db_ok = w.db_ok := by
  unfold World.invalidate_if_connected cache_calls World.db_ok
  cases hr : w.redis with
  | none => simp
  | some r => cases hc : r.connected <;> simp [World.log, hc]

theorem add_task_link_proj (w : World) (i : Int) (l : Str) :
    (w.add_task_link i l).1.calls = w.calls ++ [Call.add_task_link i l] ∧
      (w.add_task_link i l).1.db.tasks = w.db.tasks ∧
      (w.add_task_link i l).1.db.task_links =
        w.db.task_links ++ (if w.db_ok then [⟨i, l⟩] else []) ∧
      (w.add_task_link i l).1.redis = w.redis ∧
      (w.add_task_link i l).1.redis_outcomes = w.redis_outcomes := by
  cases hok : w.db_ok <;>
    simp [World.add_task_link, DatabaseManager.add_task_link, World.log, hok]

theorem add_task_proj (w : World) (t : Task) (hl : t.links = []) :
    (w.add_task t).1.calls = w.calls ++ [Call.add_task t] ∧
      (w.add_task t).2 = (if w.db_ok then w.db.next_id else -1) ∧
      (w.add_task t).1.db.tasks =
        w.db.tasks ++ (if w.db_ok then [Row.of_task w.db.next_id t] else []) ∧
      (w.add_task t).1.db.task_links = w.db.task_links ∧
      (w.add_task t).1.redis = w.redis ∧
      (w.add_task t).1.redis_outcomes = w.redis_outcomes ∧
      (w.add_task t).1.db_outcomes = w.db_outcomes.tail := by
  cases hok : w.db_ok <;>
    simp [World.add_task, DatabaseManager.add_task, World.log, hok, hl, Row.of_task]

theorem update_task_proj (w : World) (t : Task) :
    (w.update_task t).1.calls = w.calls ++ [Call.update_task t] ∧
      (w.update_task t).2 = w.db_ok ∧
      (w.update_task t).1.db.task_links = w.db.task_links ∧
      (w.update_task t).1.db.tasks.map (fun r => (r.id, r.created_at)) =
        w.db.tasks.map (fun r => (r.id, r.created_at)) ∧
      (w.update_task t).1.redis = w.redis ∧
      (w.update_task t).1.redis_outcomes = w.redis_outcomes := by
  cases hok : w.db_ok
  · simp [World.update_task, DatabaseManager.update_task, World.log, hok]
  · simp only [World.update_task, DatabaseManager.update_task, World.log, hok, if_true,
      List.map_map, and_self, and_true, true_and]
    apply List.map_congr_left
    intro r _
    by_cases h : r.id = t.id <;> simp [h]

theorem delete_task_proj (w : World) (i : Int) :
    (w.delete_task i).1.calls = w.calls ++ [Call.delete_task i] ∧
      (w.delete_task i).2 = w.db_ok ∧
      (w.delete_task i).1.redis = w.redis ∧
      (w.delete_task i).1.redis_outcomes = w.redis_outcomes ∧
      (w.delete_task i).1.posted = w.posted := by
  cases hok : w.db_ok <;>
    simp [World.delete_task, DatabaseManager.delete_task, World.log, hok]

theorem refresh_tasks_proj (s : TaskListView) :
    (refresh_tasks s).w.calls = s.w.calls ++ [Call.get_all_tasks s.show_completed] ∧
      (refresh_tasks s).w.db = s.w.db ∧ (refresh_tasks s).w.redis = s.w.redis ∧
      (refresh_tasks s).w.redis_outcomes = s.w.redis_outcomes ∧
      (refresh_tasks s).current_view = s.current_view ∧
      (refresh_tasks s).status_message = s.status_message ∧
      (refresh_tasks s).tasks = s.w.db.get_all_tasks s.show_completed :=
  ⟨rfl, rfl, rfl, rfl, rfl, rfl, rfl⟩

theorem no_selection_eq_false (s : TaskListView) (h : has_selection s) :
    no_selection s = false := by
  obtain ⟨h0, h1⟩ := h
  simp only [no_selection, Bool.or_eq_false_iff, decide_eq_false_iff_not, not_le]
  refine ⟨?_, h1⟩
  cases hts : s.tasks with
  | nil => simp [hts] at h1; omega
  | cons a l => rfl

theorem selected_task_get (s : TaskListView) (h : has_selection s) :
    s.tasks.get? s.selected_index.toNat = some (selected_task s) := by
  obtain ⟨h0, h1⟩ := h
  have hlen : s.selected_index.toNat < s.tasks.length := by omega
  simp [selected_task, List.getD, List.getElem?_eq_getElem hlen]

theorem cache_calls_congr (w w' : World) (c : Call) (h : w'.redis = w.redis) :
    cache_calls w' c = cache_calls w c := by
  unfold cache_calls; rw [h]

/-! ### Toggle completion -/

theorem toggle_proj (s : TaskListView) (hsel : no_selection s = false) :
    (toggle_task_completion s).w.db =
      (s.w.update_task
        { selected_task s with is_completed := !(selected_task s).is_completed }).1.db ∧
    (toggle_task_completion s).w.calls =
      s.w.calls ++
        Call.update_task
          { selected_task s with is_completed := !(selected_task s).is_completed } ::
        (if s.w.db_ok = true then
          cache_calls s.w (Call.cache_task
            { selected_task s with is_completed := !(selected_task s).is_completed }) ++
            (if s.w.cache_throws (selected_task s) = true then []
             else [Call.get_all_tasks s.show_completed])
         else []) := by
  have hup := update_task_proj s.w
    { selected_task s with is_completed := !(selected_task s).is_completed }
  have hcc := cache_calls_congr (s.w.update_task
    { selected_task s with is_completed := !(selected_task s).is_completed }).1 s.w
    (Call.cache_task { selected_task s with is_completed := !(selected_task s).is_completed })
    hup.2.2.2.2.1
  have hth := cache_throws_congr s.w (s.w.update_task
    { selected_task s with is_completed := !(selected_task s).is_completed }).1
    (selected_task s) { selected_task s with is_completed := !(selected_task s).is_completed }
    hup.2.2.2.2.1 rfl rfl
  have hci := cache_if_connected_proj (s.w.update_task
    { selected_task s with is_completed := !(selected_task s).is_completed }).1
    { selected_task s with is_completed := !(selected_task s).is_completed }
  unfold toggle_task_completion
  dsimp only
  rw [if_neg (by simp [hsel]), hup.2.1]
  cases hok : s.w.db_ok
  · rw [if_neg (by simp), if_neg (by simp)]
    exact ⟨rfl, by rw [hup.1]⟩
  · simp only [if_true]
    rw [hth]
    cases ht : s.w.cache_throws (selected_task s)
    · simp only [Bool.false_eq_true, if_false]
      refine ⟨hci.1, ?_⟩
      show (World.cache_if_connected _ _).calls ++ [_] = _
      rw [hci.2.2.1, hcc, hup.1]
      simp
    · simp only [if_true]
      refine ⟨hci.1, ?_⟩
      rw [hci.2.2.1, hcc, hup.1]
      simp

/-- C8: in the list view with a selected task t, the space key passes to the
store's `update_task` the task t with `is_completed` negated and every other
field as in t, and makes no other mutating store call; when t was incomplete
and overdue, the task passed has `is_completed = true` and is not overdue at
the same instant; when the update executes, every row with the id of t holds
the negated flag. -/
theorem toggle_updates_negated_task (env : Env) (s : TaskListView)
    (hv : s.current_view = View.list) (h0 : 0 ≤ s.selected_index)
    (h1 : s.selected_index < (s.tasks.length : Int)) :
    let t := selected_task s
    let t' : Task := { t with is_completed := !t.is_completed }
    let s' := (on_event env (Event.character [' ']) s).1
    s.tasks.get? s.selected_index.toNat = some t ∧
      (∃ rest, s'.w.calls = s.w.calls ++ Call.update_task t' :: rest ∧
        ∀ c ∈ rest, c = Call.get_all_tasks s.show_completed ∨ c = Call.is_connected ∨
          c = Call.cache_task t') ∧
      (∀ now, t.is_completed = false → t.is_overdue now = true →
        t'.is_completed = true ∧ t'.is_overdue now = false) ∧
      (s.w.db_ok = true → ∀ r ∈ s'.w.db.tasks, r.id = t.id →
        r.is_completed = !t.is_completed) := by
  intro t t' s'
  have hsel : no_selection s = false := no_selection_eq_false s ⟨h0, h1⟩
  have e : s' = toggle_task_completion s := by
    simp [s', on_event, hv]
  have hp := toggle_proj s hsel
  rw [← e] at hp
  refine ⟨selected_task_get s ⟨h0, h1⟩, ⟨_, hp.2, ?_⟩, ?_, ?_⟩
  · intro c hc
    unfold cache_calls at hc
    split_ifs at hc <;> rcases hr : s.w.redis with _ | r <;> simp [hr] at hc
    all_goals first
      | exact Or.inl hc
      | (split_ifs at hc <;> simp at hc <;> tauto)
  · intro now hc _
    simp [Task.is_overdue, hc, t']
  · intro hok r hr hid
    rw [hp.1] at hr
    simp [World.update_task, DatabaseManager.update_task, hok] at hr
    obtain ⟨a, _, rfl⟩ := hr
    by_cases ha : a.id = (selected_task s).id
    · simp [ha, t]
    · simp [ha] at hid

/-- C8 at the overdue task of the sample store (due at 100, the clock at 1000). -/
theorem toggle_updates_negated_task_witness :
    (selected_task { sample_view [] with selected_index := 1 }).is_overdue 1000 = true ∧
    (selected_task { sample_view [] with selected_index := 1 }).is_completed = false ∧
    ({ selected_task { sample_view [] with selected_index := 1 } with
        is_completed := true } : Task).is_overdue 1000 = false :=
  have h := (toggle_updates_negated_task sample_env
    { sample_view [] with selected_index := 1 } rfl (by decide) (by decide)).2.2.1 1000
    (by decide) (by decide)
  ⟨by decide, by decide, h.2⟩

theorem finish_save_returning_proj (s : TaskListView) (task : Task) (result : Int) (a b : Str) :
    (finish_save_returning s task result a b).current_view = View.list ∧
    (finish_save_returning s task result a b).w.calls =
      s.w.calls ++ (if result > 0 then
        link_calls s task.id ++ cache_calls s.w (Call.cache_task task) ++
          [Call.get_all_tasks s.show_completed]
        else []) ∧
    (finish_save_returning s task result a b).w.db.tasks = s.w.db.tasks ∧
    (finish_save_returning s task result a b).w.db.task_links =
      s.w.db.task_links ++
        (if result > 0 ∧ s.input_link ≠ [] ∧ s.w.db_ok = true then [⟨task.id, s.input_link⟩]
         else []) ∧
    (finish_save_returning s task result a b).status_message = (if result > 0 then a else b) ∧
    (¬ result > 0 → (finish_save_returning s task result a b).tasks = s.tasks ∧
      (finish_save_returning s task result a b).selected_index = s.selected_index) ∧
    ((finish_save_returning s task result a b).input_description = s.input_description ∧
      (finish_save_returning s task result a b).input_priority = s.input_priority ∧
      (finish_save_returning s task result a b).input_due_date = s.input_due_date ∧
      (finish_save_returning s task result a b).input_link = s.input_link ∧
      (finish_save_returning s task result a b).input_progress = s.input_progress ∧
      (finish_save_returning s task result a b).show_completed = s.show_completed) := by
  unfold finish_save_returning
  dsimp only
  by_cases hr : result > 0
  · by_cases hl : s.input_link.isEmpty = true
    · have hl' : s.input_link = [] := by simpa using hl
      simp only [hr, hl, if_true, refresh_tasks_proj, post_event_proj,
        cache_if_connected_proj, link_calls]
      simp [refresh_tasks, hl']
      rfl
    · have hl' : s.input_link ≠ [] := by simpa using hl
      simp only [hr, hl, if_true, if_false, refresh_tasks_proj, post_event_proj,
        cache_if_connected_proj, add_task_link_proj, link_calls]
      have hc := cache_calls_congr (s.w.post_event.add_task_link task.id s.input_link).1 s.w
        (Call.cache_task task) (add_task_link_proj s.w.post_event task.id s.input_link).2.2.2.1
      simp [refresh_tasks, hl', hc, post_event_proj]
      have hp := add_task_link_proj s.w.post_event task.id s.input_link
      refine ⟨?_, hp.2.1, hp.2.2.1⟩
      rw [hp.1]
      show (s.w.calls ++ _) ++ _ = _
      simp
  · simp [hr]
    exact ⟨rfl, rfl, rfl⟩

theorem link_world_redis (w : World) (i : Int) (l : Str) :
    (if l.isEmpty = true then w else (w.add_task_link i l).1).redis = w.redis := by
  split_ifs
  · rfl
  · exact (add_task_link_proj w i l).2.2.2.1

theorem finish_save_returns (s : TaskListView) (task : Task) (result : Int) (a b : Str)
    (h : ¬ (result > 0 ∧ s.w.cache_throws task = true)) :
    finish_save s task result a b = finish_save_returning s task result a b := by
  have hth := cache_throws_congr s.w
    (if s.input_link.isEmpty = true then s.w.post_event
      else (s.w.post_event.add_task_link task.id s.input_link).1) task task
    (link_world_redis s.w.post_event task.id s.input_link) rfl rfl
  unfold finish_save finish_save_returning
  dsimp only
  rw [hth, if_neg h]

theorem finish_save_thrown (s : TaskListView) (task : Task) (result : Int) (a b : Str)
    (h1 : result > 0) (h2 : s.w.cache_throws task = true) :
    finish_save s task result a b =
      { s with
        progress_value := 70
        w := (if s.input_link.isEmpty = true then s.w.post_event
              else (s.w.post_event.add_task_link task.id s.input_link).1).cache_if_connected
                task } := by
  have hth := cache_throws_congr s.w
    (if s.input_link.isEmpty = true then s.w.post_event
      else (s.w.post_event.add_task_link task.id s.input_link).1) task task
    (link_world_redis s.w.post_event task.id s.input_link) rfl rfl
  unfold finish_save
  dsimp only
  rw [hth, if_pos ⟨h1, h2⟩]

theorem finish_save_proj (s : TaskListView) (task : Task) (result : Int) (a b : Str) :
    (¬ (result > 0 ∧ s.w.cache_throws task = true) →
      (finish_save s task result a b).current_view = View.list) ∧
    (finish_save s task result a b).w.calls =
      s.w.calls ++ (if result > 0 then
        link_calls s task.id ++ cache_calls s.w (Call.cache_task task) ++
          (if s.w.cache_throws task = true then [] else [Call.get_all_tasks s.show_completed])
        else []) ∧
    (finish_save s task result a b).w.db.tasks = s.w.db.tasks ∧
    (finish_save s task result a b).w.db.task_links =
      s.w.db.task_links ++
        (if result > 0 ∧ s.input_link ≠ [] ∧ s.w.db_ok = true then [⟨task.id, s.input_link⟩]
         else []) ∧
    (¬ (result > 0 ∧ s.w.cache_throws task = true) →
      (finish_save s task result a b).status_message = (if result > 0 then a else b)) ∧
    (¬ result > 0 → (finish_save s task result a b).tasks = s.tasks ∧
      (finish_save s task result a b).selected_index = s.selected_index) ∧
    ((finish_save s task result a b).input_description = s.input_description ∧
      (finish_save s task result a b).input_priority = s.input_priority ∧
      (finish_save s task result a b).input_due_date = s.input_due_date ∧
      (finish_save s task result a b).input_link = s.input_link ∧
      (finish_save s task result a b).input_progress = s.input_progress ∧
      (finish_save s task result a b).show_completed = s.show_completed) := by
  by_cases h : result > 0 ∧ s.w.cache_throws task = true
  · obtain ⟨h1, h2⟩ := h
    rw [finish_save_thrown s task result a b h1 h2]
    have hci := cache_if_connected_proj
      (if s.input_link.isEmpty = true then s.w.post_event
        else (s.w.post_event.add_task_link task.id s.input_link).1) task
    have hcc := cache_calls_congr s.w
      (if s.input_link.isEmpty = true then s.w.post_event
        else (s.w.post_event.add_task_link task.id s.input_link).1) (Call.cache_task task)
      (link_world_redis s.w.post_event task.id s.input_link)
    have hp := add_task_link_proj s.w.post_event task.id s.input_link
    refine ⟨fun hn => absurd ⟨h1, h2⟩ hn, ?_, ?_, ?_, fun hn => absurd ⟨h1, h2⟩ hn,
      fun hn => absurd h1 hn, rfl, rfl, rfl, rfl, rfl, rfl⟩
    · show (World.cache_if_connected _ _).calls = _
      rw [hci.2.2.1, hcc, if_pos h1, if_pos h2, List.append_nil]
      unfold link_calls
      by_cases hl : s.input_link.isEmpty = true
      · rw [if_pos hl, if_pos hl]; rfl
      · rw [if_neg hl, if_neg hl, hp.1]
        show (s.w.calls ++ _) ++ _ = _
        simp
    · show (World.cache_if_connected _ _).db.tasks = _
      rw [hci.1]
      by_cases hl : s.input_link.isEmpty = true
      · rw [if_pos hl]; rfl
      · rw [if_neg hl]; exact hp.2.1
    · show (World.cache_if_connected _ _).db.task_links = _
      rw [hci.1]
      by_cases hl : s.input_link.isEmpty = true
      · have hl' : s.input_link = [] := by simpa using hl
        rw [if_pos hl]
        simp [hl']
        rfl
      · have hl' : s.input_link ≠ [] := by simpa using hl
        rw [if_neg hl, hp.2.2.1]
        have hok : s.w.post_event.db_ok = s.w.db_ok := rfl
        rw [hok]
        cases hdb : s.w.db_ok <;> simp [h1, hl'] <;> rfl
  · rw [finish_save_returns s task result a b h]
    have hr := finish_save_returning_proj s task result a b
    refine ⟨fun _ => hr.1, ?_, hr.2.2.1, hr.2.2.2.1, fun _ => hr.2.2.2.2.1, hr.2.2.2.2.2.1,
      hr.2.2.2.2.2.2⟩
    rw [hr.2.1]
    by_cases h1 : result > 0
    · have h2 : ¬ s.w.cache_throws task = true := fun h2 => h ⟨h1, h2⟩
      rw [if_pos h1, if_pos h1, if_neg h2]
    · rw [if_neg h1, if_neg h1]

theorem valid_due (env : Env) (s : TaskListView) (hb : buffers_valid s) :
    (if s.input_due_date.isEmpty = true then some none
      else (parse_due_date s.input_due_date).map (fun tm => some (env.mktime tm))) =
      some (saved_due_date env s) := by
  unfold saved_due_date
  rcases hb.2 with h | h
  · simp [h]
  · by_cases he : s.input_due_date.isEmpty = true
    · simp [he]
    · obtain ⟨tm, htm⟩ := Option.isSome_iff_exists.mp h
      simp [he, htm]

theorem save_subtask_eq (env : Env) (s : TaskListView) (hsel : has_selection s)
    (hb : buffers_valid s) :
    save_subtask env s =
      finish_save
        { before_store s "Creating subtask...".toList with
          w := (s.w.post_event.post_event.add_task (created_subtask env s)).1 }
        { created_subtask env s with
          id := (s.w.post_event.post_event.add_task (created_subtask env s)).2 }
        (s.w.post_event.post_event.add_task (created_subtask env s)).2
        "Subtask added successfully!".toList "Failed to add subtask.".toList := by
  have hd : ¬ s.input_description.isEmpty = true := by simpa using hb.1
  have hn : ¬ no_selection s = true := by simp [no_selection_eq_false s hsel]
  unfold save_subtask
  dsimp only
  rw [if_neg hd, if_neg hn, valid_due env s hb]
  rfl

theorem save_task_add_eq (env : Env) (s : TaskListView) (hb : buffers_valid s) :
    save_task env false s =
      finish_save
        { before_store s "Creating task...".toList with
          w := (s.w.post_event.post_event.add_task (created_task env s)).1 }
        { created_task env s with
          id := (s.w.post_event.post_event.add_task (created_task env s)).2 }
        (s.w.post_event.post_event.add_task (created_task env s)).2
        "Task added successfully!".toList "Failed to add task.".toList := by
  have hd : ¬ s.input_description.isEmpty = true := by simpa using hb.1
  unfold save_task
  dsimp only
  rw [if_neg hd, valid_due env s hb]
  rfl

theorem save_task_edit_eq (env : Env) (s : TaskListView) (hsel : has_selection s)
    (hb : buffers_valid s) :
    save_task env true s =
      finish_save
        { before_store s "Updating task...".toList with
          w := (s.w.post_event.post_event.update_task (edited_task env s)).1 }
        (edited_task env s)
        (if (s.w.post_event.post_event.update_task (edited_task env s)).2 = true
          then (edited_task env s).id else -1)
        "Task updated successfully!".toList "Failed to update task.".toList := by
  have hd : ¬ s.input_description.isEmpty = true := by simpa using hb.1
  have hlt : decide (s.selected_index < (s.tasks.length : Int)) = true := by
    simpa using hsel.2
  unfold save_task
  dsimp only
  rw [if_neg hd, valid_due env s hb]
  simp only [Bool.true_and, hlt, if_true]
  rfl

theorem on_event_enter_dialog (env : Env) (s : TaskListView) :
    (s.current_view = View.add → (on_event env Event.enter s).1 = save_task env false s) ∧
    (s.current_view = View.edit → (on_event env Event.enter s).1 = save_task env true s) ∧
    (s.current_view = View.add_subtask →
      (on_event env Event.enter s).1 = save_subtask env s) := by
  refine ⟨?_, ?_, ?_⟩ <;> intro h <;> simp [on_event, on_dialog_event, h]

/-- C11: in the add-subtask view with a selected parent P and buffers that pass
validation, the first call Enter makes is the store's insert, with a task whose
`parent_id` is the id of P, P being the element of the list in memory at the
selected index (no fetch precedes the insert: the calls that follow are the
link, the cache write and, unless that write throws, the reload); and when the
insert executes,
`get_subtasks(P.id)` on the store afterwards contains the inserted task, under
the id the insert returned, with `parent_id = P.id` and the fields built from
the buffers (the description as `getText` reads it back: the whole text when it
holds no NUL byte). -/
theorem subtask_parent_from_selection (env : Env) (s : TaskListView)
    (hv : s.current_view = View.add_subtask) (hsel : has_selection s)
    (hb : buffers_valid s) :
    let P := selected_task s
    let S := created_subtask env s
    let s' := (on_event env Event.enter s).1
    s.tasks.get? s.selected_index.toNat = some P ∧
      S.parent_id = some P.id ∧
      s'.w.calls = s.w.calls ++ Call.add_task S ::
        (if s.w.db_ok = true then
          link_calls s s.w.db.next_id ++
            cache_calls s.w (Call.cache_task { S with id := s.w.db.next_id }) ++
            (if s.w.cache_throws S = true then [] else [Call.get_all_tasks s.show_completed])
         else []) ∧
      (s.w.db_ok = true →
        ∃ c ∈ s'.w.db.get_subtasks P.id,
          c.id = s.w.db.next_id ∧ c.parent_id = some P.id ∧
          c.description = getText S.description ∧ c.is_completed = S.is_completed ∧
          c.priority = S.priority ∧ c.created_at = S.created_at ∧
          c.due_date = S.due_date ∧ c.progress = S.progress ∧ c.status = S.status) := by
  intro P S s'
  have hs' : s' = save_subtask env s := (on_event_enter_dialog env s).2.2 hv
  have hadd := add_task_proj s.w.post_event.post_event S rfl
  have hfin := finish_save_proj
    { before_store s "Creating subtask...".toList with
      w := (s.w.post_event.post_event.add_task S).1 }
    { S with id := (s.w.post_event.post_event.add_task S).2 }
    (s.w.post_event.post_event.add_task S).2
    "Subtask added successfully!".toList "Failed to add subtask.".toList
  rw [← save_subtask_eq env s hsel hb, ← hs'] at hfin
  have hnext := next_id_pos s.w.db
  refine ⟨selected_task_get s hsel, rfl, ?_, ?_⟩
  · rw [hfin.2.1]
    show (s.w.post_event.post_event.add_task S).1.calls ++ _ = _
    rw [hadd.1, hadd.2.1]
    show (s.w.calls ++ [Call.add_task S]) ++ _ = _
    have hcc : ∀ c, cache_calls (s.w.post_event.post_event.add_task S).1 c = cache_calls s.w c :=
      fun c => cache_calls_congr _ s.w c hadd.2.2.2.2.1
    have hth : ∀ i, (s.w.post_event.post_event.add_task S).1.cache_throws { S with id := i } =
        s.w.cache_throws S :=
      fun i => cache_throws_congr s.w _ S _ hadd.2.2.2.2.1 rfl rfl
    have hok2 : s.w.post_event.post_event.db_ok = s.w.db_ok := rfl
    have hn2 : s.w.post_event.post_event.db.next_id = s.w.db.next_id := rfl
    rw [hok2, hn2]
    cases hok : s.w.db_ok
    · simp
    · simp only [if_true, hnext, gt_iff_lt, hcc]
      show _ ++ (_ ++ _ ++
        (if (s.w.post_event.post_event.add_task S).1.cache_throws _ = true then [] else _)) = _
      rw [hth]
      simp [before_store, link_calls]
  · intro hok
    have hok' : s.w.post_event.post_event.db_ok = true := hok
    refine ⟨s'.w.db.load_task (Row.of_task s.w.db.next_id S), ?_, rfl, rfl, rfl, rfl, rfl,
      rfl, rfl, rfl, rfl⟩
    unfold DatabaseManager.get_subtasks
    apply List.mem_map_of_mem
    rw [(List.perm_insertionSort _ _).mem_iff, List.mem_filter]
    refine ⟨?_, by simp [Row.of_task, S, created_subtask, P]⟩
    rw [hfin.2.2.1]
    show Row.of_task s.w.db.next_id S ∈ (s.w.post_event.post_event.add_task S).1.db.tasks
    rw [hadd.2.2.1]
    simp [hok']
    right; rfl

theorem invalidate_if_connected_redis (w : World) (i : Int) :
    (w.invalidate_if_connected i).redis =
      w.redis.map (fun r => if r.connected then (r.invalidate_task w.redis_ok i).1 else r) := by
  unfold World.invalidate_if_connected
  cases hr : w.redis with
  | none => simp [hr]
  | some r => cases hc : r.connected <;> simp [World.log, hc, hr]

theorem confirm_delete_proj (s : TaskListView) (hsel : has_selection s) :
    (confirm_delete s).current_view = View.list ∧
    (confirm_delete s).w.calls =
      s.w.calls ++ Call.delete_task (selected_task s).id ::
        (if s.w.db_ok = true then
          cache_calls s.w (Call.invalidate_task (selected_task s).id) ++
            [Call.get_all_tasks s.show_completed]
         else []) ∧
    (confirm_delete s).w.redis =
      (if s.w.db_ok = true then
        s.w.redis.map (fun r =>
          if r.connected then (r.invalidate_task s.w.redis_ok (selected_task s).id).1 else r)
       else s.w.redis) ∧
    (confirm_delete s).w.db =
      (s.w.db.delete_task s.w.db_ok (selected_task s).id).1 ∧
    (s.w.db_ok = false → (confirm_delete s).tasks = s.tasks ∧
      (confirm_delete s).selected_index = s.selected_index ∧
      (confirm_delete s).w.db = s.w.db ∧
      (confirm_delete s).status_message = "Failed to delete task.".toList) ∧
    (s.w.db_ok = true →
      (confirm_delete s).tasks = (confirm_delete s).w.db.get_all_tasks s.show_completed ∧
      (confirm_delete s).status_message = "Task deleted successfully!".toList) := by
  have hn : ¬ no_selection s = true := by simp [no_selection_eq_false s hsel]
  unfold confirm_delete
  dsimp only
  rw [if_neg hn]
  have hd := delete_task_proj s.w.post_event (selected_task s).id
  have hok2 : s.w.post_event.db_ok = s.w.db_ok := rfl
  rw [hok2] at hd
  cases hok : s.w.db_ok
  · rw [hok] at hd
    simp only [hd.2.1, Bool.false_eq_true, if_false]
    refine ⟨by first | rfl | trivial, ?_, ?_, ?_, ?_, ?_⟩
    · show (s.w.post_event.delete_task _).1.calls = _
      rw [hd.1]; simp; rfl
    · exact hd.2.2.1
    · simp [World.delete_task, DatabaseManager.delete_task, World.log, hok2, hok]
      rfl
    · intro _
      refine ⟨by first | rfl | trivial, by first | rfl | trivial, ?_, by first | rfl | trivial⟩
      simp [World.delete_task, DatabaseManager.delete_task, World.log, hok2, hok]
      rfl
    · intro h; exact absurd h (by simp)
  · rw [hok] at hd
    simp only [hd.2.1, if_true]
    refine ⟨by first | rfl | trivial, ?_, ?_, ?_, ?_, ?_⟩
    · show (refresh_tasks _).w.post_event.post_event.calls = _
      show (refresh_tasks _).w.calls = _
      rw [(refresh_tasks_proj _).1]
      show ((s.w.post_event.delete_task _).1.post_event.invalidate_if_connected _).post_event.calls
        ++ _ = _
      show ((s.w.post_event.delete_task _).1.post_event.invalidate_if_connected _).calls
        ++ _ = _
      rw [(invalidate_if_connected_proj _ _).2.2.1]
      show ((s.w.post_event.delete_task _).1.calls ++ _) ++ _ = _
      rw [hd.1]
      have hc : ∀ c, cache_calls (s.w.post_event.delete_task (selected_task s).id).1.post_event c
          = cache_calls s.w c := fun c => cache_calls_congr _ s.w c hd.2.2.1
      rw [hc]
      show ((s.w.calls ++ _) ++ _) ++ _ = _
      simp
    · show ((s.w.post_event.delete_task _).1.post_event.invalidate_if_connected _).redis = _
      rw [invalidate_if_connected_redis]
      have h1 : (s.w.post_event.delete_task (selected_task s).id).1.post_event.redis = s.w.redis :=
        hd.2.2.1
      have h2 : (s.w.post_event.delete_task (selected_task s).id).1.post_event.redis_ok =
          s.w.redis_ok := by
        show ((s.w.post_event.delete_task (selected_task s).id).1.redis_outcomes).headD true = _
        rw [hd.2.2.2.1]; rfl
      rw [h1, h2]
    · show ((s.w.post_event.delete_task _).1.post_event.invalidate_if_connected _).db = _
      rw [(invalidate_if_connected_proj _ _).1]
      simp [World.delete_task, DatabaseManager.delete_task, World.log, hok2, hok]
      rfl
    · intro h; exact absurd h (by simp)
    · intro _
      exact ⟨rfl, rfl⟩

theorem on_event_delete_confirm (env : Env) (ev : Event) (s : TaskListView)
    (hv : s.current_view = View.delete_confirm) :
    (is_affirm ev → (on_event env ev s).1 = confirm_delete s) ∧
    (¬ is_affirm ev → (on_event env ev s).1 =
      { s with current_view := View.list, status_message := "Delete cancelled.".toList }) := by
  unfold is_affirm
  constructor <;> intro h <;> simp [on_event, hv, h]

/-- C12 (as amended): for every prior cache content, when the affirmed delete of
the selected task with id i executes in the store, the cache is connected and
the server executes the DEL command (its reply is an integer reply), every
later `get_cached_task(i)` returns not found, whatever the outcome of its
GET. -/
theorem delete_invalidates_cache (env : Env) (ev : Event) (s : TaskListView)
    (r : RedisManager) (hv : s.current_view = View.delete_confirm) (hev : is_affirm ev)
    (hsel : has_selection s) (hr : s.w.redis = some r) (hc : r.connected = true)
    (hdb : s.w.db_ok = true) (hro : s.w.redis_ok = true) :
    ∃ r', (on_event env ev s).1.w.redis = some r' ∧ r'.connected = true ∧
      ∀ ok, (r'.get_cached_task ok (selected_task s).id).2 = none := by
  rw [(on_event_delete_confirm env ev s hv).1 hev]
  have h := (confirm_delete_proj s hsel).2.2.1
  rw [hdb, hr] at h
  simp only [if_true, Option.map_some', hc, hro] at h
  refine ⟨_, h, ?_, ?_⟩
  · simp [RedisManager.invalidate_task, hc]
  · intro ok
    have hf : ∀ l : List (Int × JsonValue), l.find? (fun _ => false) = none := by
      intro l; induction l <;> simp [List.find?, *]
    cases ok <;> simp [RedisManager.get_cached_task, RedisManager.invalidate_task, hc, hf]

/-- C12 (as amended) over the sample store with a connected cache that holds
every task. -/
theorem delete_invalidates_cache_witness :
    has_selection (sample_cached_view []) ∧
    (selected_task (sample_cached_view [])).id = 2 ∧
    (∃ r', (on_event sample_env (Event.character ['y']) (sample_cached_view [])).1.w.redis =
        some r' ∧ r'.connected = true ∧
      ∀ ok, (r'.get_cached_task ok (selected_task (sample_cached_view [])).id).2 = none) :=
  ⟨by decide, by decide,
    delete_invalidates_cache sample_env (Event.character ['y']) (sample_cached_view [])
      { connected := true,
        entries := (sample_db.get_all_tasks true).map (fun t => (t.id, task_json t)) }
      rfl (Or.inl rfl) (by decide) rfl rfl rfl rfl⟩

/-- C12 fails as stated: over the sample store with a connected cache that holds
task 2, the delete of task 2 executes in the store while the server answers the
DEL command with an error reply; `invalidate_task` is called and returns false,
the controller does not look at the result, the key stays, and a later
`get_cached_task(2)` that the server answers returns the deleted task. -/
theorem failed_invalidate_leaves_cached_task :
    (selected_task (sample_cached_view [false])).id = 2 ∧
    (sample_cached_view [false]).w.db_ok = true ∧
    (sample_cached_view [false]).w.redis_ok = false ∧
    (sample_cached_view [false]).w.redis.map (fun r => r.connected) = some true ∧
    (on_event sample_env (Event.character ['y']) (sample_cached_view [false])).1.w.calls.drop
        (sample_cached_view [false]).w.calls.length =
      [Call.delete_task 2, Call.is_connected, Call.invalidate_task 2,
        Call.get_all_tasks true] ∧
    (on_event sample_env (Event.character ['y']) (sample_cached_view [false])).1.w.db.get_task_by_id 2
      = none ∧
    ((on_event sample_env (Event.character ['y']) (sample_cached_view [false])).1.w.redis.bind
        (fun r => (r.get_cached_task true 2).2)).map (fun t => (t.id, t.description)) =
      some (2, "call home".toList) := by
  decide

/-- C14: in the delete-confirmation view, every event other than `y` or `Y`
ends in the list view with the collaborators untouched (no store or cache
call) and the task list and selection unchanged; `y` or `Y`, with a task
selected, makes the store's `delete_task` call exactly once, as its first
call and with the id of the selected task, and ends in the list view whether
the delete executes or not; when it fails, the task list, the selection and the
store are unchanged. -/
theorem delete_confirm_transitions (env : Env) (ev : Event) (s : TaskListView)
    (hv : s.current_view = View.delete_confirm) :
    let s' := (on_event env ev s).1
    (¬ is_affirm ev →
      s'.current_view = View.list ∧ s'.w = s.w ∧ s'.tasks = s.tasks ∧
        s'.selected_index = s.selected_index) ∧
    (is_affirm ev → has_selection s →
      s'.current_view = View.list ∧
      s'.w.calls =
        s.w.calls ++ Call.delete_task (selected_task s).id ::
          (if s.w.db_ok = true then
            cache_calls s.w (Call.invalidate_task (selected_task s).id) ++
              [Call.get_all_tasks s.show_completed]
           else []) ∧
      (s'.w.calls.drop s.w.calls.length).filter Call.is_store_write =
        [Call.delete_task (selected_task s).id] ∧
      (s.w.db_ok = false →
        s'.tasks = s.tasks ∧ s'.selected_index = s.selected_index ∧ s'.w.db = s.w.db)) := by
  intro s'
  constructor
  · intro hne
    have : s' = _ := (on_event_delete_confirm env ev s hv).2 hne
    rw [this]
    exact ⟨rfl, rfl, rfl, rfl⟩
  · intro hev hsel
    have : s' = confirm_delete s := (on_event_delete_confirm env ev s hv).1 hev
    rw [this]
    have h := confirm_delete_proj s hsel
    refine ⟨h.1, h.2.1, ?_, fun hf => ⟨(h.2.2.2.2.1 hf).1, (h.2.2.2.2.1 hf).2.1,
      (h.2.2.2.2.1 hf).2.2.1⟩⟩
    rw [h.2.1, List.drop_left]
    cases hok : s.w.db_ok
    · simp [Call.is_store_write]
    · unfold cache_calls
      cases hr : s.w.redis with
      | none => simp [Call.is_store_write]
      | some r => cases hc : r.connected <;> simp [Call.is_store_write, hc]

/-- C14 at the sample store: `y` and Escape both end in the list view. -/
theorem delete_confirm_transitions_witness :
    has_selection (sample_cached_view []) ∧
    (on_event sample_env (Event.character ['y']) (sample_cached_view [])).1.current_view =
      View.list ∧
    (on_event sample_env Event.escape (sample_cached_view [])).1.current_view = View.list :=
  have h := delete_confirm_transitions sample_env (Event.character ['y'])
    (sample_cached_view []) rfl
  have h' := delete_confirm_transitions sample_env Event.escape (sample_cached_view []) rfl
  ⟨by decide, (h.2 (Or.inl rfl) (by decide)).1, (h'.1 (by decide)).1⟩

theorem invalid_buffers_stay (env : Env) (s : TaskListView) (hv : is_dialog s.current_view)
    (hb : ¬ buffers_valid s) :
    (on_event env Event.enter s).1.current_view = s.current_view ∧
      (on_event env Event.enter s).1.w.calls = s.w.calls ∧
      (on_event env Event.enter s).1.w.db = s.w.db := by
  have hcase : s.input_description = [] ∨
      (s.input_description ≠ [] ∧ s.input_due_date ≠ [] ∧
        parse_due_date s.input_due_date = none) := by
    unfold buffers_valid at hb
    by_cases hd : s.input_description = []
    · exact Or.inl hd
    · right
      simp only [hd, ne_eq, not_false_eq_true, true_and, not_or] at hb
      refine ⟨hd, hb.1, ?_⟩
      cases hp : parse_due_date s.input_due_date with
      | none => rfl
      | some tm => simp [hp] at hb
  rcases hcase with hd | ⟨hd, hdue, hp⟩
  · rcases hv with h | h | h <;>
      simp [on_event, on_dialog_event, save_task, save_subtask, h, hd]
  · rcases hv with h | h | h
    · simp [on_event, on_dialog_event, save_task, h, hd, hdue, hp, World.post_event]
    · simp [on_event, on_dialog_event, save_task, h, hd, hdue, hp, World.post_event]
    · by_cases hsel : no_selection s = true
      · simp [on_event, on_dialog_event, save_subtask, h, hd, hsel]
      · simp [on_event, on_dialog_event, save_subtask, h, hd, hdue, hp, World.post_event, hsel]

theorem finish_save_fail (s : TaskListView) (task : Task) (result : Int) (a b : Str)
    (h : ¬ result > 0) :
    finish_save s task result a b =
      { s with progress_value := 70, status_message := b, show_progress := false,
               current_view := View.list, w := s.w.post_event.post_event } := by
  rw [finish_save_returns s task result a b (fun hc => h hc.1)]
  unfold finish_save_returning
  dsimp only
  rw [if_neg h]

/-- C15: in a dialog view, Enter with buffers that fail validation leaves the
view as it is; with buffers that pass validation (and a task selected, for
edit and subtask), when the store's insert or update fails, Enter ends in the
list view with a failure message, the only call made is that insert or update
(no link is attached, nothing is written to the cache, nothing is reloaded),
and the task list, the selection and the store are unchanged. -/
theorem store_failure_returns_to_list (env : Env) (s : TaskListView)
    (hv : is_dialog s.current_view) :
    let s' := (on_event env Event.enter s).1
    (¬ buffers_valid s → s'.current_view = s.current_view) ∧
    (buffers_valid s → (s.current_view ≠ View.add → has_selection s) →
      s.w.db_ok = false →
      s'.current_view = View.list ∧
      (s'.status_message = "Failed to add task.".toList ∨
        s'.status_message = "Failed to update task.".toList ∨
        s'.status_message = "Failed to add subtask.".toList) ∧
      (s'.w.calls = s.w.calls ++ [Call.add_task (created_task env s)] ∨
        s'.w.calls = s.w.calls ++ [Call.update_task (edited_task env s)] ∨
        s'.w.calls = s.w.calls ++ [Call.add_task (created_subtask env s)]) ∧
      s'.tasks = s.tasks ∧ s'.selected_index = s.selected_index ∧ s'.w.db = s.w.db) := by
  intro s'
  refine ⟨fun hb => (invalid_buffers_stay env s hv hb).1, ?_⟩
  intro hb hsel hfail
  have hfail' : s.w.post_event.post_event.db_ok = false := hfail
  rcases hv with h | h | h
  · have hs' : s' = save_task env false s := (on_event_enter_dialog env s).1 h
    have hadd := add_task_proj s.w.post_event.post_event (created_task env s) rfl
    rw [hfail'] at hadd
    have hneg : ¬ (s.w.post_event.post_event.add_task (created_task env s)).2 > 0 := by
      rw [hadd.2.1]; simp
    rw [hs', save_task_add_eq env s hb, finish_save_fail _ _ _ _ _ hneg]
    refine ⟨rfl, Or.inl rfl, Or.inl ?_, rfl, rfl, ?_⟩
    · show (s.w.post_event.post_event.add_task _).1.calls = _
      rw [hadd.1]; rfl
    · exact add_task_fail_db _ _ hneg
  · have hsel' := hsel (by rw [h]; decide)
    have hs' : s' = save_task env true s := (on_event_enter_dialog env s).2.1 h
    have hup := update_task_proj s.w.post_event.post_event (edited_task env s)
    rw [hfail'] at hup
    have hneg : ¬ (if (s.w.post_event.post_event.update_task (edited_task env s)).2 = true
        then (edited_task env s).id else -1) > 0 := by
      rw [hup.2.1]; simp
    rw [hs', save_task_edit_eq env s hsel' hb, finish_save_fail _ _ _ _ _ hneg]
    refine ⟨rfl, Or.inr (Or.inl rfl), Or.inr (Or.inl ?_), rfl, rfl, ?_⟩
    · show (s.w.post_event.post_event.update_task _).1.calls = _
      rw [hup.1]; rfl
    · exact update_task_fail_db _ _ (by rw [hup.2.1]; simp)
  · have hsel' := hsel (by rw [h]; decide)
    have hs' : s' = save_subtask env s := (on_event_enter_dialog env s).2.2 h
    have hadd := add_task_proj s.w.post_event.post_event (created_subtask env s) rfl
    rw [hfail'] at hadd
    have hneg : ¬ (s.w.post_event.post_event.add_task (created_subtask env s)).2 > 0 := by
      rw [hadd.2.1]; simp
    rw [hs', save_subtask_eq env s hsel' hb, finish_save_fail _ _ _ _ _ hneg]
    refine ⟨rfl, Or.inr (Or.inr rfl), Or.inr (Or.inr ?_), rfl, rfl, ?_⟩
    · show (s.w.post_event.post_event.add_task _).1.calls = _
      rw [hadd.1]; rfl
    · exact add_task_fail_db _ _ hneg

/-- C15 at the add dialog over the sample store with the insert failing. -/
theorem store_failure_returns_to_list_witness :
    buffers_valid (sample_dialog View.add 0 "x".toList 1 [] 0) ∧
    (on_event sample_env Event.enter
      { sample_dialog View.add 0 "x".toList 1 [] 0 with
        w := sample_world [false] }).1.current_view = View.list :=
  have h := store_failure_returns_to_list sample_env
    { sample_dialog View.add 0 "x".toList 1 [] 0 with w := sample_world [false] } (Or.inl rfl)
  ⟨by decide, (h.2 (by decide) (fun hne => absurd rfl hne) rfl).1⟩

theorem finish_save_links (s0 s : TaskListView) (task : Task) (result : Int) (a b : Str)
    (h : s.w.db.task_links = s0.w.db.task_links) :
    ∃ extra, (finish_save s task result a b).w.db.task_links = s0.w.db.task_links ++ extra :=
  ⟨_, h ▸ (finish_save_proj s task result a b).2.2.2.1⟩

theorem save_task_links (env : Env) (is_edit : Bool) (s : TaskListView) :
    ∃ extra, (save_task env is_edit s).w.db.task_links = s.w.db.task_links ++ extra := by
  unfold save_task
  dsimp only
  by_cases h1 : s.input_description.isEmpty = true
  · rw [if_pos h1]; exact ⟨[], by simp⟩
  rw [if_neg h1]
  split
  · exact ⟨[], by simp [World.post_event]⟩
  · cases is_edit
    · rw [if_neg (by decide)]
      apply finish_save_links s
      exact (add_task_proj _ _ rfl).2.2.2.1
    · rw [if_pos rfl]
      apply finish_save_links s
      exact (update_task_proj _ _).2.2.1

theorem save_subtask_links (env : Env) (s : TaskListView) :
    ∃ extra, (save_subtask env s).w.db.task_links = s.w.db.task_links ++ extra := by
  unfold save_subtask
  dsimp only
  by_cases h1 : s.input_description.isEmpty = true
  · rw [if_pos h1]; exact ⟨[], by simp⟩
  rw [if_neg h1]
  by_cases h2 : no_selection s = true
  · rw [if_pos h2]; exact ⟨[], by simp⟩
  rw [if_neg h2]
  split
  · exact ⟨[], by simp [World.post_event]⟩
  · apply finish_save_links s
    exact (add_task_proj _ _ rfl).2.2.2.1

theorem finish_save_success (s0 x : TaskListView) (task : Task) (result : Int) (a b : Str)
    (c : Call) (hr : result > 0) (hcalls : x.w.calls = s0.w.calls ++ [c])
    (hredis : x.w.redis = s0.w.redis) (hlink : x.input_link = s0.input_link)
    (hshow : x.show_completed = s0.show_completed)
    (hlinks : x.w.db.task_links = s0.w.db.task_links)
    (hok : x.w.db_ok = s0.w.second_db_ok) :
    (finish_save x task result a b).w.calls =
      s0.w.calls ++ c :: (link_calls s0 task.id ++ cache_calls s0.w (Call.cache_task task) ++
        (if s0.w.cache_throws task = true then []
         else [Call.get_all_tasks s0.show_completed])) ∧
    (finish_save x task result a b).w.db.task_links =
      s0.w.db.task_links ++
        (if s0.input_link ≠ [] ∧ s0.w.second_db_ok = true then [⟨task.id, s0.input_link⟩]
         else []) ∧
    (s0.w.cache_throws task = false →
      (finish_save x task result a b).current_view = View.list ∧
      (finish_save x task result a b).status_message = a) := by
  have h := finish_save_proj x task result a b
  have hth : x.w.cache_throws task = s0.w.cache_throws task :=
    cache_throws_congr s0.w x.w task task hredis rfl rfl
  rw [hth] at h
  refine ⟨?_, ?_, ?_⟩
  · rw [h.2.1, if_pos hr, hcalls, cache_calls_congr s0.w x.w _ hredis, hshow]
    unfold link_calls
    rw [hlink]
    simp
  · rw [h.2.2.2.1, hlinks, hlink, hok]
    simp [hr]
  · intro hnt
    have hn : ¬ (result > 0 ∧ s0.w.cache_throws task = true) := by simp [hnt]
    refine ⟨h.1 hn, ?_⟩
    rw [h.2.2.2.2.1 hn, if_pos hr]

theorem save_success (env : Env) (s : TaskListView) (hv : is_dialog s.current_view)
    (hb : buffers_valid s) (hsel : s.current_view ≠ View.add → has_selection s)
    (hok : s.w.db_ok = true) (hid : s.current_view = View.edit → 0 < (selected_task s).id) :
    let s' := (on_event env Event.enter s).1
    s'.w.calls =
      s.w.calls ++ store_call env s ::
        (link_calls s (saved_id s) ++ cache_calls s.w (Call.cache_task (saved_task env s)) ++
          (if s.w.cache_throws (saved_task env s) = true then []
           else [Call.get_all_tasks s.show_completed])) ∧
    s'.w.db.task_links =
      s.w.db.task_links ++
        (if s.input_link ≠ [] ∧ s.w.second_db_ok = true then [⟨saved_id s, s.input_link⟩]
         else []) ∧
    (s.w.cache_throws (saved_task env s) = false →
      s'.current_view = View.list ∧
      (s'.status_message = "Task added successfully!".toList ∨
        s'.status_message = "Task updated successfully!".toList ∨
        s'.status_message = "Subtask added successfully!".toList)) := by
  intro s'
  have hok' : s.w.post_event.post_event.db_ok = true := hok
  have hnext := next_id_pos s.w.db
  rcases hv with h | h | h
  · have hs' : s' = save_task env false s := (on_event_enter_dialog env s).1 h
    have hadd := add_task_proj s.w.post_event.post_event (created_task env s) rfl
    rw [hok'] at hadd
    simp only [if_true] at hadd
    have hres : (s.w.post_event.post_event.add_task (created_task env s)).2 = s.w.db.next_id :=
      hadd.2.1
    have hfs := finish_save_success s
      { before_store s "Creating task...".toList with
        w := (s.w.post_event.post_event.add_task (created_task env s)).1 }
      { created_task env s with
        id := (s.w.post_event.post_event.add_task (created_task env s)).2 }
      (s.w.post_event.post_event.add_task (created_task env s)).2
      "Task added successfully!".toList "Failed to add task.".toList
      (Call.add_task (created_task env s)) (by rw [hres]; exact hnext) hadd.1 hadd.2.2.2.2.1
      rfl rfl hadd.2.2.2.1
      (by show ((s.w.post_event.post_event.add_task _).1.db_outcomes).headD true = _
          rw [hadd.2.2.2.2.2.2]; rfl)
    rw [← save_task_add_eq env s hb, ← hs'] at hfs
    have e1 : saved_id s = s.w.db.next_id := by simp [saved_id, h]
    have e2 : saved_task env s = { created_task env s with id := s.w.db.next_id } := by
      simp [saved_task, h]
    have e3 : store_call env s = Call.add_task (created_task env s) := by
      simp [store_call, h]
    rw [e1, e2, e3]
    rw [hres] at hfs
    exact ⟨hfs.1, hfs.2.1, fun hnt => ⟨(hfs.2.2 hnt).1, Or.inl (hfs.2.2 hnt).2⟩⟩
  · have hsel' := hsel (by rw [h]; decide)
    have hs' : s' = save_task env true s := (on_event_enter_dialog env s).2.1 h
    have hup := update_task_proj s.w.post_event.post_event (edited_task env s)
    rw [hok'] at hup
    have hidp : 0 < (edited_task env s).id := hid h
    have hfs := finish_save_success s
      { before_store s "Updating task...".toList with
        w := (s.w.post_event.post_event.update_task (edited_task env s)).1 }
      (edited_task env s)
      (if (s.w.post_event.post_event.update_task (edited_task env s)).2 = true
        then (edited_task env s).id else -1)
      "Task updated successfully!".toList "Failed to update task.".toList
      (Call.update_task (edited_task env s)) (by rw [hup.2.1]; simpa using hidp) hup.1
      hup.2.2.2.2.1 rfl rfl hup.2.2.1
      (by simp [World.db_ok, World.second_db_ok, World.update_task, World.log,
            World.post_event])
    rw [← save_task_edit_eq env s hsel' hb, ← hs'] at hfs
    have e1 : saved_id s = (edited_task env s).id := by simp [saved_id, h, edited_task]
    have e2 : saved_task env s = edited_task env s := by simp [saved_task, h]
    have e3 : store_call env s = Call.update_task (edited_task env s) := by
      simp [store_call, h]
    rw [e1, e2, e3]
    exact ⟨hfs.1, hfs.2.1, fun hnt => ⟨(hfs.2.2 hnt).1, Or.inr (Or.inl (hfs.2.2 hnt).2)⟩⟩
  · have hsel' := hsel (by rw [h]; decide)
    have hs' : s' = save_subtask env s := (on_event_enter_dialog env s).2.2 h
    have hadd := add_task_proj s.w.post_event.post_event (created_subtask env s) rfl
    rw [hok'] at hadd
    simp only [if_true] at hadd
    have hres : (s.w.post_event.post_event.add_task (created_subtask env s)).2 =
        s.w.db.next_id := hadd.2.1
    have hfs := finish_save_success s
      { before_store s "Creating subtask...".toList with
        w := (s.w.post_event.post_event.add_task (created_subtask env s)).1 }
      { created_subtask env s with
        id := (s.w.post_event.post_event.add_task (created_subtask env s)).2 }
      (s.w.post_event.post_event.add_task (created_subtask env s)).2
      "Subtask added successfully!".toList "Failed to add subtask.".toList
      (Call.add_task (created_subtask env s)) (by rw [hres]; exact hnext) hadd.1
      hadd.2.2.2.2.1 rfl rfl hadd.2.2.2.1
      (by show ((s.w.post_event.post_event.add_task _).1.db_outcomes).headD true = _
          rw [hadd.2.2.2.2.2.2]; rfl)
    rw [← save_subtask_eq env s hsel' hb, ← hs'] at hfs
    have e1 : saved_id s = s.w.db.next_id := by simp [saved_id, h]
    have e2 : saved_task env s = { created_subtask env s with id := s.w.db.next_id } := by
      simp [saved_task, h]
    have e3 : store_call env s = Call.add_task (created_subtask env s) := by
      simp [store_call, h]
    rw [e1, e2, e3]
    rw [hres] at hfs
    exact ⟨hfs.1, hfs.2.1, fun hnt => ⟨(hfs.2.2 hnt).1, Or.inr (Or.inr (hfs.2.2 hnt).2)⟩⟩

theorem filter_link_calls (s : TaskListView) (i : Int) (w : World) (c d : Call) (b : Bool)
    (hc : c.is_add_task_link = false) (hd : d.is_add_task_link = false) :
    (link_calls s i ++ cache_calls w c ++ (if b = true then [] else [d])).filter
      Call.is_add_task_link = link_calls s i := by
  have h1 : Call.is_add_task_link Call.is_connected = false := rfl
  have h2 : ∀ j l, (Call.add_task_link j l).is_add_task_link = true := fun _ _ => rfl
  unfold link_calls cache_calls
  cases b <;> cases hr : w.redis with
  | none => by_cases hl : s.input_link.isEmpty = true <;> simp [hl, hd, h1, h2]
  | some r =>
    cases hcn : r.connected <;> by_cases hl : s.input_link.isEmpty = true <;>
      simp [hl, hd, hc, h1, h2, hcn]

theorem get_after (l : List Call) (a : Call) (r : List Call) :
    (l ++ a :: r).get? l.length = some a := by
  induction l with
  | nil => rfl
  | cons x xs ih => simpa using ih

theorem finish_save_calls_rest (x : TaskListView) (task : Task) (result : Int) (a b : Str) :
    ∃ rest, (finish_save x task result a b).w.calls = x.w.calls ++ rest ∧
      ∀ u, Call.update_task u ∉ rest ∧ Call.add_task u ∉ rest := by
  refine ⟨_, (finish_save_proj x task result a b).2.1, ?_⟩
  intro u
  by_cases hres : result > 0
  · rw [if_pos hres]
    unfold link_calls cache_calls
    cases hth : x.w.cache_throws task <;> cases hr : x.w.redis with
    | none => by_cases hl : x.input_link.isEmpty = true <;> simp [hl]
    | some r =>
      cases hcn : r.connected <;> by_cases hl : x.input_link.isEmpty = true <;> simp [hl, hcn]
  · rw [if_neg hres]
    simp

/-- C16: every Enter in a dialog view leaves the links already stored in place
(the table of links afterwards is the old table followed by what was added);
and for a successful save (valid buffers, the store call executing, a selected
task with a positive id for edit, a selected parent for subtask), the store
call is followed by exactly one `add_task_link(id, L)` when the link buffer L
is not empty and by none when it is empty, where id is the edited task's id on
edit and the id the insert returned otherwise; the table gains the row (id, L)
when that call executes. -/
theorem save_attaches_link_once (env : Env) (s : TaskListView)
    (hv : is_dialog s.current_view) :
    let s' := (on_event env Event.enter s).1
    (∃ extra, s'.w.db.task_links = s.w.db.task_links ++ extra) ∧
    (buffers_valid s → (s.current_view ≠ View.add → has_selection s) →
      s.w.db_ok = true → (s.current_view = View.edit → 0 < (selected_task s).id) →
      (s'.w.calls.drop (s.w.calls.length + 1)).filter Call.is_add_task_link =
        (if s.input_link = [] then [] else [Call.add_task_link (saved_id s) s.input_link]) ∧
      s'.w.calls.get? s.w.calls.length = some (store_call env s) ∧
      s'.w.db.task_links =
        s.w.db.task_links ++
          (if s.input_link ≠ [] ∧ s.w.second_db_ok = true then [⟨saved_id s, s.input_link⟩]
           else [])) := by
  intro s'
  constructor
  · rcases hv with h | h | h
    · have hs' : s' = save_task env false s := (on_event_enter_dialog env s).1 h
      rw [hs']; exact save_task_links env false s
    · have hs' : s' = save_task env true s := (on_event_enter_dialog env s).2.1 h
      rw [hs']; exact save_task_links env true s
    · have hs' : s' = save_subtask env s := (on_event_enter_dialog env s).2.2 h
      rw [hs']; exact save_subtask_links env s
  · intro hb hsel hok hid
    have h := save_success env s hv hb hsel hok hid
    refine ⟨?_, ?_, h.2.1⟩
    · rw [h.1]
      have : ∀ tail : List Call, s.w.calls ++ store_call env s ::
          (link_calls s (saved_id s) ++ cache_calls s.w (Call.cache_task (saved_task env s)) ++
            tail) =
          (s.w.calls ++ [store_call env s]) ++
          (link_calls s (saved_id s) ++ cache_calls s.w (Call.cache_task (saved_task env s)) ++
            tail) := by intro tail; simp
      rw [this, show s.w.calls.length + 1 = (s.w.calls ++ [store_call env s]).length by simp,
        List.drop_left, filter_link_calls s (saved_id s) s.w (Call.cache_task (saved_task env s))
          (Call.get_all_tasks s.show_completed) _ rfl rfl]
      unfold link_calls
      by_cases hl : s.input_link = [] <;> simp [hl]
    · rw [h.1]
      exact get_after _ _ _

/-- C16 at the add dialog over the sample store with a link typed in: the
insert returns 3 and the link is stored under 3. -/
theorem save_attaches_link_once_witness :
    buffers_valid { sample_dialog View.add 0 "x".toList 1 [] 0 with
      input_link := "http://a".toList } ∧
    (on_event sample_env Event.enter
      { sample_dialog View.add 0 "x".toList 1 [] 0 with
        input_link := "http://a".toList }).1.w.db.task_links = [⟨3, "http://a".toList⟩] :=
  have h := (save_attaches_link_once sample_env
    { sample_dialog View.add 0 "x".toList 1 [] 0 with input_link := "http://a".toList }
    (Or.inl rfl)).2 (by decide) (fun hne => absurd rfl hne) rfl (fun he => by cases he)
  ⟨by decide, by rw [h.2.2]; decide⟩

/-- C19: for every edit save of the selected task t with valid buffers, the one
`update_task` call carries a task with the id, `created_at`, `is_completed`,
`parent_id`, `status`, tags and links of t; its description, priority,
progress and due date are those of the buffers; and the ids and `created_at`
values of the rows of the store are the same before and after. -/
theorem edit_keeps_identity_fields (env : Env) (s : TaskListView)
    (hv : s.current_view = View.edit) (hsel : has_selection s) (hb : buffers_valid s) :
    let t := selected_task s
    let t' := edited_task env s
    let s' := (on_event env Event.enter s).1
    s.tasks.get? s.selected_index.toNat = some t ∧
    s'.w.calls.get? s.w.calls.length = some (Call.update_task t') ∧
    (∀ u, Call.update_task u ∈ s'.w.calls.drop s.w.calls.length → u = t') ∧
    (t'.id = t.id ∧ t'.created_at = t.created_at ∧ t'.is_completed = t.is_completed ∧
      t'.parent_id = t.parent_id ∧ t'.status = t.status ∧ t'.tags = t.tags ∧
      t'.links = t.links) ∧
    (t'.description = s.input_description ∧ t'.priority = s.input_priority ∧
      t'.progress = s.input_progress ∧ t'.due_date = saved_due_date env s) ∧
    s'.w.db.tasks.map (fun r => (r.id, r.created_at)) =
      s.w.db.tasks.map (fun r => (r.id, r.created_at)) := by
  intro t t' s'
  have hs' : s' = save_task env true s := (on_event_enter_dialog env s).2.1 hv
  have hup := update_task_proj s.w.post_event.post_event t'
  have hfin := finish_save_proj
    { before_store s "Updating task...".toList with
      w := (s.w.post_event.post_event.update_task t').1 }
    t'
    (if (s.w.post_event.post_event.update_task t').2 = true then t'.id else -1)
    "Task updated successfully!".toList "Failed to update task.".toList
  rw [← save_task_edit_eq env s hsel hb, ← hs'] at hfin
  have hcalls : ∃ rest, s'.w.calls = s.w.calls ++ Call.update_task t' :: rest ∧
      ∀ u, Call.update_task u ∉ rest := by
    obtain ⟨rest, hr1, hr2⟩ := finish_save_calls_rest
      { before_store s "Updating task...".toList with
        w := (s.w.post_event.post_event.update_task t').1 }
      t'
      (if (s.w.post_event.post_event.update_task t').2 = true then t'.id else -1)
      "Task updated successfully!".toList "Failed to update task.".toList
    rw [← save_task_edit_eq env s hsel hb, ← hs'] at hr1
    refine ⟨rest, ?_, fun u => (hr2 u).1⟩
    rw [hr1]
    show (s.w.post_event.post_event.update_task t').1.calls ++ _ = _
    rw [hup.1]
    show (s.w.calls ++ [Call.update_task t']) ++ _ = _
    rw [List.append_assoc]; rfl
  obtain ⟨rest, hrest, hno⟩ := hcalls
  refine ⟨selected_task_get s hsel, ?_, ?_, ⟨rfl, rfl, rfl, rfl, rfl, rfl, rfl⟩,
    ⟨rfl, rfl, rfl, rfl⟩, ?_⟩
  · rw [hrest]; exact get_after _ _ _
  · intro u hu
    rw [hrest, List.drop_left] at hu
    rcases List.mem_cons.mp hu with h | h
    · exact Call.update_task.inj h
    · exact absurd h (hno u)
  · rw [hfin.2.2.1]
    exact hup.2.2.2.1

/-- C19 at the edit dialog over the sample store. -/
theorem edit_keeps_identity_fields_witness :
    has_selection (sample_dialog View.edit 0 "x".toList 2 [] 40) ∧
    (edited_task sample_env (sample_dialog View.edit 0 "x".toList 2 [] 40)).created_at =
      (selected_task (sample_dialog View.edit 0 "x".toList 2 [] 40)).created_at ∧
    (on_event sample_env Event.enter
      (sample_dialog View.edit 0 "x".toList 2 [] 40)).1.w.db.tasks.map
        (fun r => (r.id, r.created_at)) = [(1, 10), (2, 20)] :=
  have h := edit_keeps_identity_fields sample_env
    (sample_dialog View.edit 0 "x".toList 2 [] 40) rfl (by decide) (by decide)
  ⟨by decide, h.2.2.2.1.2.1, by rw [h.2.2.2.2.2]; decide⟩

theorem foldl_add_task_link_tasks (links : List (Str × Nat)) (oks : List Bool) (i : Int)
    (db : DatabaseManager) :
    (links.foldl (fun d p => (d.add_task_link (oks.getD p.2 true) i p.1).1) db).tasks =
      db.tasks := by
  induction links generalizing db with
  | nil => rfl
  | cons p ps ih =>
    simp only [List.foldl_cons]
    rw [ih]
    cases h : oks.getD p.2 true <;> simp [DatabaseManager.add_task_link, h]

theorem id_le_foldl_max (rows : List Row) (m : Int) (r : Row) (hr : r ∈ rows) :
    r.id ≤ rows.foldl (fun m r => max m r.id) m := by
  induction rows generalizing m with
  | nil => cases hr
  | cons x xs ih =>
    simp only [List.foldl_cons]
    rcases List.mem_cons.mp hr with h | h
    · subst h
      exact le_trans (le_max_right _ _) (foldl_max_ge xs _)
    · exact ih _ h

theorem id_lt_next_id (db : DatabaseManager) (r : Row) (hr : r ∈ db.tasks) :
    r.id < db.next_id := by
  unfold DatabaseManager.next_id
  have := id_le_foldl_max db.tasks (max db.seq 0) r hr
  omega

theorem find_new_row (rows : List Row) (row : Row) (h : ∀ r ∈ rows, r.id ≠ row.id) :
    (rows ++ [row]).find? (fun r => decide (r.id = row.id)) = some row := by
  induction rows with
  | nil => simp
  | cons x xs ih =>
    have hx : x.id ≠ row.id := h x (by simp)
    simp only [List.cons_append, List.find?_cons, hx, decide_False]
    exact ih (fun r hr => h r (by simp [hr]))

/-- A text without a NUL byte is read back whole. -/
theorem getText_eq_self (s : Str) (h : ∀ c ∈ s, c ≠ Char.ofNat 0) : getText s = s := by
  unfold getText
  induction s with
  | nil => rfl
  | cons x xs ih =>
    have hx : x ≠ Char.ofNat 0 := h x (by simp)
    simp only [List.takeWhile_cons, hx, ne_eq, not_false_eq_true, decide_True, if_true]
    rw [ih (fun c hc => h c (by simp [hc]))]

/-- C17 (as amended): when `add_task(t)` succeeds and returns the id i,
`get_task_by_id(i)` on the store afterwards returns a task with the id i, the
`is_completed`, priority, `created_at`, due date, `parent_id`, progress and
status of t, and as its description the description of t up to its first NUL
byte: the description of t itself when it holds no NUL byte. -/
theorem add_task_round_trip (db : DatabaseManager) (ok : Bool) (link_oks : List Bool)
    (t : Task) (h : (db.add_task ok link_oks t).2 ≠ -1) :
    ∃ t', (db.add_task ok link_oks t).1.get_task_by_id (db.add_task ok link_oks t).2 = some t' ∧
      t'.id = (db.add_task ok link_oks t).2 ∧ t'.description = getText t.description ∧
      ((∀ c ∈ t.description, c ≠ Char.ofNat 0) → t'.description = t.description) ∧
      t'.is_completed = t.is_completed ∧ t'.priority = t.priority ∧
      t'.created_at = t.created_at ∧ t'.due_date = t.due_date ∧
      t'.parent_id = t.parent_id ∧ t'.progress = t.progress ∧ t'.status = t.status := by
  cases ok with
  | false => simp [DatabaseManager.add_task] at h
  | true =>
    have hfind := find_new_row db.tasks (Row.of_task db.next_id t)
      (fun r hr => ne_of_lt (id_lt_next_id db r hr))
    refine ⟨(db.add_task true link_oks t).1.load_task (Row.of_task db.next_id t), ?_,
      rfl, rfl, fun hn => getText_eq_self t.description hn, rfl, rfl, rfl, rfl, rfl, rfl, rfl⟩
    unfold DatabaseManager.get_task_by_id
    have htasks : (db.add_task true link_oks t).1.tasks =
        db.tasks ++ [Row.of_task db.next_id t] := by
      simp only [DatabaseManager.add_task, if_true]
      rw [foldl_add_task_link_tasks]
      rfl
    have hid : (db.add_task true link_oks t).2 = db.next_id := by
      simp [DatabaseManager.add_task]
    rw [htasks, hid]
    have hf : (db.tasks ++ [Row.of_task db.next_id t]).find? (fun r => decide (r.id = db.next_id))
        = some (Row.of_task db.next_id t) := hfind
    rw [hf]
    rfl

/-- C17 (as amended) at the task `Buy milk`, priority Medium, due date as parsed
from `2025-11-20 14:30`, inserted into the sample store. -/
theorem add_task_round_trip_witness :
    (sample_db.add_task true []
      { Task.default 1000 with
        description := "Buy milk".toList, priority := 1,
        due_date := some (sample_env.mktime ⟨125, 10, 20, 14, 30, 0⟩) }).2 = 3 ∧
    parse_due_date "2025-11-20 14:30".toList = some ⟨125, 10, 20, 14, 30, 0⟩ ∧
    (∃ t', (sample_db.add_task true []
        { Task.default 1000 with
          description := "Buy milk".toList, priority := 1,
          due_date := some (sample_env.mktime ⟨125, 10, 20, 14, 30, 0⟩) }).1.get_task_by_id 3
        = some t' ∧
      t'.description = "Buy milk".toList ∧ t'.priority = 1 ∧
      t'.due_date = some (sample_env.mktime ⟨125, 10, 20, 14, 30, 0⟩)) := by
  have h := add_task_round_trip sample_db true []
    { Task.default 1000 with
      description := "Buy milk".toList, priority := 1,
      due_date := some (sample_env.mktime ⟨125, 10, 20, 14, 30, 0⟩) } (by decide)
  obtain ⟨t', h1, _, _, h3, _, h5, _, h7, _⟩ := h
  exact ⟨by decide, by decide, t', h1, h3 (by decide), h5, h7⟩

/-- C17 fails as stated: `add_task` of a task whose description is the three
bytes `a`, NUL, `b` executes on the sample store and returns the id 3; the row
holds the three bytes, and `get_task_by_id(3)` returns a task whose description
is `a` alone. -/
theorem description_read_back_cut_at_nul :
    (sample_db.add_task true []
      { Task.default 1000 with description := ['a', Char.ofNat 0, 'b'] }).2 = 3 ∧
    ((sample_db.add_task true []
      { Task.default 1000 with description := ['a', Char.ofNat 0, 'b'] }).1.tasks.filter
        (fun r => r.id = 3)).map (fun r => r.description) = [['a', Char.ofNat 0, 'b']] ∧
    ((sample_db.add_task true []
      { Task.default 1000 with description := ['a', Char.ofNat 0, 'b'] }).1.get_task_by_id
        3).map (fun t => t.description) = some ['a'] ∧
    ((sample_db.add_task true []
      { Task.default 1000 with description := ['a', Char.ofNat 0, 'b'] }).1.get_task_by_id
        3).map (fun t => t.description) ≠ some ['a', Char.ofNat 0, 'b'] := by
  refine ⟨by decide, by decide, by decide, by decide⟩

theorem collect_get_string (ls : List Str) :
    collect ((ls.map JsonValue.str).map JsonValue.get_string) = some ls := by
  induction ls with
  | nil => rfl
  | cons x xs ih =>
    simp only [List.map_cons, JsonValue.get_string, collect]
    rw [ih]; rfl

theorem collect_get_int (ls : List Int) :
    collect ((ls.map JsonValue.num).map JsonValue.get_int) = some ls := by
  induction ls with
  | nil => rfl
  | cons x xs ih =>
    simp only [List.map_cons, JsonValue.get_int, collect]
    rw [ih]; rfl

theorem collect_get_string_comp (ls : List Str) :
    collect (ls.map (JsonValue.get_string ∘ JsonValue.str)) = some ls := by
  rw [← List.map_map]; exact collect_get_string ls

theorem collect_get_int_comp (ls : List Int) :
    collect (ls.map (JsonValue.get_int ∘ JsonValue.num)) = some ls := by
  rw [← List.map_map]; exact collect_get_int ls

/-- What `deserialize_task` reads from the object `serialize_task` builds:
every member but `progress` and `status`, which come back as 0. -/
theorem deserialize_task_json (t : Task) :
    deserialize_task (task_json t) = some { t with progress := 0, status := 0 } := by
  cases hd : t.due_date <;> cases hp : t.parent_id <;>
    simp [deserialize_task, task_json, JsonValue.member, JsonValue.get_int,
      JsonValue.get_string, JsonValue.get_bool, JsonValue.get_strings, JsonValue.get_ints,
      JsonValue.is_null, JsonValue.int_at, JsonValue.string_at, JsonValue.bool_at,
      JsonValue.opt_int_at, JsonValue.strings_at, JsonValue.ints_at,
      collect_get_string_comp, collect_get_int_comp, hd, hp, List.find?]

/-- C18 fails on the code: for a task with progress 50 and status 1 (and ASCII
texts, so that `dump` returns), `deserialize_task(serialize_task(t))` succeeds
and returns t with progress 0 and status 0, which is not t; the same task comes
back from `get_cached_task` after `cache_task`. -/
theorem cache_round_trip_drops_progress :
    (serialize_task sample_task_in_progress).bind deserialize_task =
      some { sample_task_in_progress with progress := 0, status := 0 } ∧
    (serialize_task sample_task_in_progress).bind deserialize_task ≠
      some sample_task_in_progress ∧
    ((RedisManager.cache_task { connected := true, entries := [] } true
        sample_task_in_progress).bind (fun r => (r.1.get_cached_task true 7).2)).map
      (fun t => (t.progress, t.status)) = some (0, 0) := by
  have hs : serialize_task sample_task_in_progress =
      some (task_json sample_task_in_progress) := by
    have hd : dump_ok sample_task_in_progress = true := by decide
    unfold serialize_task
    rw [if_pos hd]
  refine ⟨?_, ?_, ?_⟩
  · rw [hs, Option.some_bind, deserialize_task_json]
  · rw [hs, Option.some_bind, deserialize_task_json]; decide
  · decide

theorem to_string_small :
    ∀ n : Nat, n ≤ 100 →
      is_number_text (to_string (n : Int)) = true ∧ dec_value (to_string (n : Int)) = n := by
  decide

theorem is_number_of_text (ds : Str) (h : is_number_text ds = true) : is_number ds := by
  unfold is_number_text at h
  simp only [Bool.and_eq_true, Bool.not_eq_true', List.all_eq_true] at h
  refine ⟨?_, h.2⟩
  intro he
  rw [he] at h
  simp at h

theorem dec_value_snoc (ds : Str) (c : Char) :
    dec_value (ds ++ [c]) = 10 * dec_value ds + digit_value c := by
  simp [dec_value, Nat.ofDigits_cons]
  ring

theorem stoi_progress_digit (p : Int) (c : Char) (h0 : 0 ≤ p) (h1 : p ≤ 100)
    (hc : isdigit c = true) :
    stoi (to_string p ++ [c]) = some (10 * p + (digit_value c : Int)) ∧
      digit_value c ≤ 9 := by
  obtain ⟨n, rfl⟩ := Int.eq_ofNat_of_zero_le h0
  have hn : n ≤ 100 := by omega
  have hs := to_string_small n hn
  have hnum : is_number (to_string (n : Int) ++ [c]) := by
    have := is_number_of_text _ hs.1
    refine ⟨by simp, ?_⟩
    intro x hx
    rcases List.mem_append.mp hx with h | h
    · exact this.2 x h
    · simp at h; rw [h]; exact hc
  have hscan := scan_decimal_number (to_string (n : Int) ++ [c]) [] hnum
    (by simp [no_digit_head])
  rw [List.append_nil] at hscan
  have hd9 : digit_value c ≤ 9 := by
    unfold isdigit at hc
    simp only [Bool.and_eq_true, decide_eq_true_eq] at hc
    unfold digit_value
    have h2 : c.toNat ≤ '9'.toNat := hc.2
    have : '9'.toNat = 57 := rfl
    have : '0'.toNat = 48 := rfl
    omega
  refine ⟨?_, hd9⟩
  unfold stoi
  rw [hscan, dec_value_snoc, hs.2]
  have : -2147483648 ≤ ((10 * n + digit_value c : Nat) : Int) ∧
      ((10 * n + digit_value c : Nat) : Int) ≤ 2147483647 := by
    constructor <;> omega
  simp only [this, and_self, if_true]
  push_cast
  rfl

theorem on_progress_char (env : Env) (s : TaskListView) (c : Char)
    (hf : s.current_input_field = 3) (hplus : c ≠ '+') (hminus : c ≠ '-') :
    on_dialog_event env (Event.character [c]) s =
      if isdigit c = true then
        (stoi (to_string s.input_progress ++ [c])).elim
          { s with w := { s.w with exited := true } }
          (fun val => if val ≤ 100 then { s with input_progress := val } else s)
      else s := by
  have h1 : ¬ [c] = ['+'] := by simpa using hplus
  have h2 : ¬ [c] = ['-'] := by simpa using hminus
  unfold on_dialog_event
  simp only [h1, h2, if_false]
  rw [if_pos hf]
  by_cases hd : isdigit c = true
  · have hd' : '0' ≤ c ∧ c ≤ '9' := by simpa [isdigit] using hd
    simp only [hd, hd', and_self, if_true]
    cases stoi (to_string s.input_progress ++ [c]) <;> rfl
  · have hd' : ¬ ('0' ≤ c ∧ c ≤ '9') := by simpa [isdigit] using hd
    simp only [hd, hd', if_false]
    simp

/-- C20: in a dialog view with the progress field active, the progress buffer p
in [0,100] and a typed character c other than `+` and `-`: when c is a decimal
digit d and 10p + d is at most 100 the buffer becomes 10p + d; when c is a
digit and 10p + d exceeds 100 the buffer stays p; when c is not a digit the
buffer stays p; Backspace leaves it p; the result is in [0,100] and no other
buffer changes. -/
theorem progress_digit_input (env : Env) (s : TaskListView) (c : Char)
    (hv : is_dialog s.current_view) (hf : s.current_input_field = 3)
    (h0 : 0 ≤ s.input_progress) (h1 : s.input_progress ≤ 100)
    (hplus : c ≠ '+') (hminus : c ≠ '-') :
    let s' := (on_event env (Event.character [c]) s).1
    let sb := (on_event env Event.backspace s).1
    (isdigit c = true → 10 * s.input_progress + digit_value c ≤ 100 →
      s'.input_progress = 10 * s.input_progress + digit_value c) ∧
    (isdigit c = true → 100 < 10 * s.input_progress + digit_value c →
      s'.input_progress = s.input_progress) ∧
    (isdigit c = false → s'.input_progress = s.input_progress) ∧
    sb.input_progress = s.input_progress ∧
    (0 ≤ s'.input_progress ∧ s'.input_progress ≤ 100) ∧
    (s'.input_description = s.input_description ∧ s'.input_priority = s.input_priority ∧
      s'.input_due_date = s.input_due_date ∧ s'.input_link = s.input_link) ∧
    (sb.input_description = s.input_description ∧ sb.input_priority = s.input_priority ∧
      sb.input_due_date = s.input_due_date ∧ sb.input_link = s.input_link) := by
  have e : ∀ ev, (on_event env ev s).1 = on_dialog_event env ev s := by
    intro ev
    rcases hv with h | h | h <;> simp [on_event, h]
  have hb : on_dialog_event env Event.backspace s = s := by
    simp [on_dialog_event, hf]
  simp only [e, hb, on_progress_char env s c hf hplus hminus]
  by_cases hd : isdigit c = true
  · have hst := stoi_progress_digit s.input_progress c h0 h1 hd
    simp only [hd, if_true, hst.1, Option.elim]
    by_cases hle : 10 * s.input_progress + (digit_value c : Int) ≤ 100
    · simp only [hle, if_true]
      have hnn : 0 ≤ 10 * s.input_progress + (digit_value c : Int) := by omega
      refine ⟨?_, ?_, ?_, ?_, ?_, ?_, ?_⟩
      all_goals first
        | (intros; trivial)
        | exact ⟨hnn, hle⟩
        | (intros; omega)
    · simp only [hle, if_false]
      refine ⟨?_, ?_, ?_, ?_, ?_, ?_, ?_⟩
      all_goals (intros; trivial)
  · simp only [hd, if_false]
    refine ⟨?_, ?_, ?_, ?_, ?_, ?_, ?_⟩
    all_goals (intros; trivial)

/-- C20 at the buffers 7 and 50: `5` makes 7 into 75, leaves 50 (505 exceeds
100), and `a` leaves 50. -/
theorem progress_digit_input_witness :
    (on_event sample_env (Event.character ['5'])
        (sample_dialog View.add 3 "x".toList 1 [] 7)).1.input_progress = 75 ∧
    (on_event sample_env (Event.character ['5'])
        (sample_dialog View.add 3 "x".toList 1 [] 50)).1.input_progress = 50 ∧
    (on_event sample_env (Event.character ['a'])
        (sample_dialog View.add 3 "x".toList 1 [] 50)).1.input_progress = 50 :=
  ⟨(progress_digit_input sample_env (sample_dialog View.add 3 "x".toList 1 [] 7) '5'
      (Or.inl rfl) rfl (by decide) (by decide) (by decide) (by decide)).1 (by decide)
      (by decide),
   (progress_digit_input sample_env (sample_dialog View.add 3 "x".toList 1 [] 50) '5'
      (Or.inl rfl) rfl (by decide) (by decide) (by decide) (by decide)).2.1 (by decide)
      (by decide),
   (progress_digit_input sample_env (sample_dialog View.add 3 "x".toList 1 [] 50) 'a'
      (Or.inl rfl) rfl (by decide) (by decide) (by decide) (by decide)).2.2.1 (by decide)⟩

/-! ### The cache does not interfere -/

theorem without_cache_log_store (w : World) (c : Call) (hc : c.is_cache_call = false) :
    (w.log c).without_cache = w.without_cache.log c := by
  simp [World.without_cache, World.log, List.filter_append, hc]

theorem without_cache_log_cache (w : World) (c : Call) (hc : c.is_cache_call = true) :
    (w.log c).without_cache = w.without_cache := by
  simp [World.without_cache, World.log, List.filter_append, hc]

theorem without_cache_post_event (w : World) :
    w.post_event.without_cache = w.without_cache.post_event := rfl

theorem without_cache_db_ok (w : World) : w.without_cache.db_ok = w.db_ok := rfl

theorem without_cache_get_all_tasks (w : World) (b : Bool) :
    (w.get_all_tasks b).1.without_cache = (w.without_cache.get_all_tasks b).1 ∧
      (w.get_all_tasks b).2 = (w.without_cache.get_all_tasks b).2 :=
  ⟨without_cache_log_store w _ rfl, rfl⟩

theorem without_cache_update_task (w : World) (t : Task) :
    (w.update_task t).1.without_cache = (w.without_cache.update_task t).1 ∧
      (w.update_task t).2 = (w.without_cache.update_task t).2 := by
  refine ⟨?_, rfl⟩
  simp [World.without_cache, World.update_task, World.log, List.filter_append,
    Call.is_cache_call, World.db_ok]

theorem without_cache_add_task (w : World) (t : Task) :
    (w.add_task t).1.without_cache = (w.without_cache.add_task t).1 ∧
      (w.add_task t).2 = (w.without_cache.add_task t).2 := by
  refine ⟨?_, rfl⟩
  simp [World.without_cache, World.add_task, World.log, List.filter_append,
    Call.is_cache_call, World.db_ok]

theorem without_cache_delete_task (w : World) (i : Int) :
    (w.delete_task i).1.without_cache = (w.without_cache.delete_task i).1 ∧
      (w.delete_task i).2 = (w.without_cache.delete_task i).2 := by
  refine ⟨?_, rfl⟩
  simp [World.without_cache, World.delete_task, World.log, List.filter_append,
    Call.is_cache_call, World.db_ok]

theorem without_cache_add_task_link (w : World) (i : Int) (l : Str) :
    (w.add_task_link i l).1.without_cache = (w.without_cache.add_task_link i l).1 := by
  simp [World.without_cache, World.add_task_link, World.log, List.filter_append,
    Call.is_cache_call, World.db_ok]

theorem cache_throws_without_cache (w : World) (t : Task) :
    w.without_cache.cache_throws t = false := rfl

theorem dump_ok_of_not_throws (db : DatabaseManager) (r : RedisManager) (dbo ro : List Bool)
    (calls : List Call) (posted : Nat) (exited : Bool) (t : Task) (hc : r.connected = true)
    (h : World.cache_throws
      { db := db, redis := some r, db_outcomes := dbo, redis_outcomes := ro, calls := calls,
        posted := posted, exited := exited } t = false) :
    dump_ok t = true := by
  rw [cache_throws_eq] at h
  simpa [hc] using h

theorem without_cache_cache_if_connected (w : World) (t : Task)
    (h : w.cache_throws t = false) :
    (w.cache_if_connected t).without_cache = w.without_cache ∧
      w.without_cache.cache_if_connected t = w.without_cache := by
  refine ⟨?_, rfl⟩
  rw [cache_throws_eq] at h
  unfold World.cache_if_connected
  cases hr : w.redis with
  | none => rfl
  | some r =>
    rw [hr] at h
    cases hc : r.connected
    · simp [World.without_cache, World.log, List.filter_append, Call.is_cache_call, hc]
    · have hd : dump_ok t = true := by simpa [hc] using h
      cases hok : w.redis_ok <;>
        simp [World.without_cache, World.log, List.filter_append, Call.is_cache_call, hc,
          RedisManager.cache_task, serialize_task, hd]

theorem without_cache_invalidate_if_connected (w : World) (i : Int) :
    (w.invalidate_if_connected i).without_cache = w.without_cache ∧
      w.without_cache.invalidate_if_connected i = w.without_cache := by
  refine ⟨?_, rfl⟩
  unfold World.invalidate_if_connected
  cases hr : w.redis with
  | none => rfl
  | some r =>
    cases hc : r.connected <;>
      simp [World.without_cache, World.log, List.filter_append, Call.is_cache_call, hc]

theorem cache_if_connected_of_none (w : World) (t : Task) (h : w.redis = none) :
    w.cache_if_connected t = w := by
  unfold World.cache_if_connected; rw [h]

theorem invalidate_if_connected_of_none (w : World) (i : Int) (h : w.redis = none) :
    w.invalidate_if_connected i = w := by
  unfold World.invalidate_if_connected; rw [h]

theorem refresh_tasks_without_cache (s : TaskListView) :
    (refresh_tasks s).without_cache = refresh_tasks s.without_cache := by
  simp [refresh_tasks, TaskListView.without_cache, (without_cache_get_all_tasks _ _).1]
  exact ⟨rfl, rfl⟩

theorem refresh_post_without_cache (x : TaskListView) :
    TaskListView.without_cache { refresh_tasks x with w := (refresh_tasks x).w.post_event } =
      { refresh_tasks x.without_cache with
        w := (refresh_tasks x.without_cache).w.post_event } := by
  rw [← refresh_tasks_without_cache]
  rfl

theorem toggle_eq (s : TaskListView) :
    toggle_task_completion s =
      if no_selection s = true then { s with status_message := "No task selected.".toList }
      else if s.w.db_ok = true then
        if s.w.cache_throws (selected_task s) = true then
          { s with
            tasks := s.tasks.set s.selected_index.toNat
              { selected_task s with is_completed := !(selected_task s).is_completed }
            w := (s.w.update_task
              { selected_task s with
                is_completed := !(selected_task s).is_completed }).1.cache_if_connected
              { selected_task s with is_completed := !(selected_task s).is_completed }
            status_message :=
              if (!(selected_task s).is_completed) = true then
                "Task marked as completed!".toList
              else "Task marked as pending!".toList }
        else
          { refresh_tasks
              { s with
                tasks := s.tasks.set s.selected_index.toNat
                  { selected_task s with is_completed := !(selected_task s).is_completed }
                w := (s.w.update_task
                  { selected_task s with
                    is_completed := !(selected_task s).is_completed }).1.cache_if_connected
                  { selected_task s with is_completed := !(selected_task s).is_completed }
                status_message :=
                  if (!(selected_task s).is_completed) = true then
                    "Task marked as completed!".toList
                  else "Task marked as pending!".toList } with
            w := (refresh_tasks
              { s with
                tasks := s.tasks.set s.selected_index.toNat
                  { selected_task s with is_completed := !(selected_task s).is_completed }
                w := (s.w.update_task
                  { selected_task s with
                    is_completed := !(selected_task s).is_completed }).1.cache_if_connected
                  { selected_task s with is_completed := !(selected_task s).is_completed }
                status_message :=
                  if (!(selected_task s).is_completed) = true then
                    "Task marked as completed!".toList
                  else "Task marked as pending!".toList }).w.post_event }
      else
        { s with
          tasks := s.tasks.set s.selected_index.toNat
            { selected_task s with is_completed := !(selected_task s).is_completed }
          w := (s.w.update_task
            { selected_task s with is_completed := !(selected_task s).is_completed }).1
          status_message := "Failed to update task.".toList } := by
  have hup := update_task_proj s.w
    { selected_task s with is_completed := !(selected_task s).is_completed }
  have hth := cache_throws_congr s.w (s.w.update_task
    { selected_task s with is_completed := !(selected_task s).is_completed }).1
    (selected_task s) { selected_task s with is_completed := !(selected_task s).is_completed }
    hup.2.2.2.2.1 rfl rfl
  unfold toggle_task_completion
  dsimp only
  rw [hup.2.1, hth]

theorem cache_throws_of_none (w : World) (t : Task) (h : w.redis = none) :
    w.cache_throws t = false := by
  unfold World.cache_throws; rw [h]

theorem toggle_without_cache (s : TaskListView)
    (h : s.w.cache_throws (selected_task s) = false) :
    (toggle_task_completion s).without_cache = toggle_task_completion s.without_cache := by
  have hup := update_task_proj s.w
    { selected_task s with is_completed := !(selected_task s).is_completed }
  have hth : (s.w.update_task
      { selected_task s with is_completed := !(selected_task s).is_completed }).1.cache_throws
      { selected_task s with is_completed := !(selected_task s).is_completed } = false :=
    (cache_throws_congr s.w (s.w.update_task
      { selected_task s with is_completed := !(selected_task s).is_completed }).1
      (selected_task s)
      { selected_task s with is_completed := !(selected_task s).is_completed }
      hup.2.2.2.2.1 rfl rfl).trans h
  have hwu := (without_cache_update_task s.w
    { selected_task s with is_completed := !(selected_task s).is_completed }).1
  have hci := (without_cache_cache_if_connected _ _ hth).1
  have hn : no_selection s.without_cache = no_selection s := rfl
  have hsel : selected_task s.without_cache = selected_task s := rfl
  have hok : s.without_cache.w.db_ok = s.w.db_ok := rfl
  have hnt : ¬ s.w.cache_throws (selected_task s) = true := by simp [h]
  have hnt' : ¬ s.without_cache.w.cache_throws (selected_task s) = true := by
    simp [cache_throws_of_none s.without_cache.w _ rfl]
  clear hup hth h
  rw [toggle_eq s, toggle_eq s.without_cache, hn, hsel, hok]
  by_cases h1 : no_selection s = true
  · rw [if_pos h1, if_pos h1]; rfl
  rw [if_neg h1, if_neg h1]
  by_cases h2 : s.w.db_ok = true
  · rw [if_pos h2, if_pos h2, if_neg hnt, if_neg hnt', refresh_post_without_cache]
    have key : TaskListView.without_cache
        { s with
          tasks := s.tasks.set s.selected_index.toNat
            { selected_task s with is_completed := !(selected_task s).is_completed }
          w := (s.w.update_task
            { selected_task s with
              is_completed := !(selected_task s).is_completed }).1.cache_if_connected
            { selected_task s with is_completed := !(selected_task s).is_completed }
          status_message :=
            if (!(selected_task s).is_completed) = true then
              "Task marked as completed!".toList
            else "Task marked as pending!".toList } =
        { s.without_cache with
          tasks := s.without_cache.tasks.set s.without_cache.selected_index.toNat
            { selected_task s with is_completed := !(selected_task s).is_completed }
          w := (s.without_cache.w.update_task
            { selected_task s with
              is_completed := !(selected_task s).is_completed }).1.cache_if_connected
            { selected_task s with is_completed := !(selected_task s).is_completed }
          status_message :=
            if (!(selected_task s).is_completed) = true then
              "Task marked as completed!".toList
            else "Task marked as pending!".toList } := by
      unfold TaskListView.without_cache
      dsimp only
      rw [hci, hwu, cache_if_connected_of_none _ _ rfl]
    rw [key]
  · rw [if_neg h2, if_neg h2]
    unfold TaskListView.without_cache
    dsimp only
    rw [hwu]

theorem finish_save_returning_without_cache (s : TaskListView) (task : Task) (result : Int)
    (a b : Str) (h : s.w.cache_throws task = false) :
    (finish_save_returning s task result a b).without_cache =
      finish_save_returning s.without_cache task result a b := by
  obtain ⟨⟨db, redis, dbo, ro, calls, posted, exited⟩, tasks, idx, showc, status, view, sp, pv,
    pm, idesc, iprio, idue, ilink, iprog, field⟩ := s
  by_cases hr : result > 0
  · by_cases hl : ilink.isEmpty = true
    · rcases redis with _ | ⟨connected, entries, hits, misses⟩
      · simp [finish_save_returning, hr, hl, World.cache_if_connected, refresh_tasks,
          World.get_all_tasks, World.post_event, World.without_cache,
          TaskListView.without_cache, World.log, List.filter_append, Call.is_cache_call]
      · cases connected
        · simp [finish_save_returning, hr, hl, World.cache_if_connected, refresh_tasks,
            World.get_all_tasks, World.post_event, World.without_cache,
            TaskListView.without_cache, World.log, List.filter_append, Call.is_cache_call]
        · have hd := dump_ok_of_not_throws _ _ _ _ _ _ _ _ rfl h
          rcases ro with _ | ⟨ok, ro⟩
          · simp [finish_save_returning, hr, hl, World.cache_if_connected, refresh_tasks,
              World.get_all_tasks, World.post_event, World.without_cache,
              TaskListView.without_cache, World.log, List.filter_append, Call.is_cache_call,
              RedisManager.cache_task, serialize_task, hd, World.redis_ok]
          · cases ok <;>
            simp [finish_save_returning, hr, hl, World.cache_if_connected, refresh_tasks,
              World.get_all_tasks, World.post_event, World.without_cache,
              TaskListView.without_cache, World.log, List.filter_append, Call.is_cache_call,
              RedisManager.cache_task, serialize_task, hd, World.redis_ok]
    · rcases redis with _ | ⟨connected, entries, hits, misses⟩
      · simp [finish_save_returning, hr, hl, World.cache_if_connected, refresh_tasks,
          World.get_all_tasks, World.post_event, World.without_cache, World.add_task_link,
          World.db_ok, TaskListView.without_cache, World.log, List.filter_append,
          Call.is_cache_call]
      · cases connected
        · simp [finish_save_returning, hr, hl, World.cache_if_connected, refresh_tasks,
            World.get_all_tasks, World.post_event, World.without_cache, World.add_task_link,
            World.db_ok, TaskListView.without_cache, World.log, List.filter_append,
            Call.is_cache_call]
        · have hd := dump_ok_of_not_throws _ _ _ _ _ _ _ _ rfl h
          rcases ro with _ | ⟨ok, ro⟩
          · simp [finish_save_returning, hr, hl, World.cache_if_connected, refresh_tasks,
              World.get_all_tasks, World.post_event, World.without_cache, World.add_task_link,
              World.db_ok, TaskListView.without_cache, World.log, List.filter_append,
              Call.is_cache_call, RedisManager.cache_task, serialize_task, hd,
              World.redis_ok]
          · cases ok <;>
            simp [finish_save_returning, hr, hl, World.cache_if_connected, refresh_tasks,
              World.get_all_tasks, World.post_event, World.without_cache, World.add_task_link,
              World.db_ok, TaskListView.without_cache, World.log, List.filter_append,
              Call.is_cache_call, RedisManager.cache_task, serialize_task, hd,
              World.redis_ok]
  · simp [finish_save_returning, hr, World.post_event, World.without_cache,
      TaskListView.without_cache]

theorem finish_save_without_cache (s : TaskListView) (task : Task) (result : Int)
    (a b : Str) (h : s.w.cache_throws task = false) :
    (finish_save s task result a b).without_cache =
      finish_save s.without_cache task result a b := by
  rw [finish_save_returns s task result a b (by simp [h]),
    finish_save_returns s.without_cache task result a b
      (by simp [cache_throws_of_none s.without_cache.w task rfl])]
  exact finish_save_returning_without_cache s task result a b h

theorem not_throws_of_dump_ok (w : World) (t : Task) (h : dump_ok t = true) :
    w.cache_throws t = false := by
  rw [cache_throws_eq]
  cases w.redis <;> simp [h]

theorem save_task_without_cache (env : Env) (is_edit : Bool) (s : TaskListView)
    (hdesc : utf8_valid s.input_description = true)
    (hlinks : (selected_task s).links.all utf8_valid = true) :
    (save_task env is_edit s).without_cache = save_task env is_edit s.without_cache := by
  obtain ⟨⟨db, redis, dbo, ro, calls, posted, exited⟩, tasks, idx, showc, status, view, sp, pv,
    pm, idesc, iprio, idue, ilink, iprog, field⟩ := s
  by_cases hd : idesc.isEmpty = true
  · simp [save_task, hd, TaskListView.without_cache]
  · cases hdue : (if idue.isEmpty = true then some none
        else (parse_due_date idue).map (fun tm => some (env.mktime tm))) with
    | none =>
      simp only [save_task, hd, if_false, TaskListView.without_cache, hdue]
      rfl
    | some d =>
      cases is_edit
      · simp only [save_task, hd, if_false, TaskListView.without_cache, hdue,
          Bool.false_eq_true]
        rw [← TaskListView.without_cache, finish_save_without_cache]
        · simp [TaskListView.without_cache, World.without_cache, World.add_task, World.log,
            List.filter_append, Call.is_cache_call, World.post_event, World.db_ok]
        · apply not_throws_of_dump_ok
          simpa [dump_ok, Task.default] using hdesc
      · simp only [save_task, hd, if_false, TaskListView.without_cache, hdue, if_true,
          Bool.false_eq_true, eq_self_iff_true]
        rw [← TaskListView.without_cache, finish_save_without_cache]
        · simp [TaskListView.without_cache, World.without_cache, World.update_task, World.log,
            List.filter_append, Call.is_cache_call, World.post_event, World.db_ok, selected_task]
        · apply not_throws_of_dump_ok
          have hdesc' : utf8_valid idesc = true := hdesc
          have hlinks' : ∀ x ∈ (tasks[idx.toNat]?.getD (Task.default 0)).links,
              utf8_valid x = true := by
            simpa [selected_task] using hlinks
          by_cases hlt : idx < (tasks.length : Int)
          · simp only [dump_ok, hdesc', hlt, selected_task, decide_True, Bool.and_self,
              if_true, Bool.true_and, List.all_eq_true]
            simpa using hlinks'
          · simp [dump_ok, Task.default, hdesc', hlt]

theorem save_subtask_without_cache (env : Env) (s : TaskListView)
    (hdesc : utf8_valid s.input_description = true) :
    (save_subtask env s).without_cache = save_subtask env s.without_cache := by
  obtain ⟨⟨db, redis, dbo, ro, calls, posted, exited⟩, tasks, idx, showc, status, view, sp, pv,
    pm, idesc, iprio, idue, ilink, iprog, field⟩ := s
  by_cases hd : idesc.isEmpty = true
  · simp [save_subtask, hd, TaskListView.without_cache]
  · by_cases hn : (tasks.isEmpty || decide (idx ≥ (tasks.length : Int))) = true
    · simp [save_subtask, hd, hn, no_selection, TaskListView.without_cache]
    · cases hdue : (if idue.isEmpty = true then some none
          else (parse_due_date idue).map (fun tm => some (env.mktime tm))) with
      | none =>
        simp only [save_subtask, hd, hn, no_selection, if_false, TaskListView.without_cache,
          hdue, Bool.false_eq_true]
        rfl
      | some d =>
        simp only [save_subtask, hd, hn, no_selection, if_false, TaskListView.without_cache,
          hdue, Bool.false_eq_true]
        rw [← TaskListView.without_cache, finish_save_without_cache]
        · simp [TaskListView.without_cache, World.without_cache, World.add_task, World.log,
            List.filter_append, Call.is_cache_call, World.post_event, World.db_ok,
            selected_task]
        · apply not_throws_of_dump_ok
          simpa [dump_ok, Task.default] using hdesc

theorem confirm_delete_without_cache (s : TaskListView) :
    (confirm_delete s).without_cache = confirm_delete s.without_cache := by
  obtain ⟨⟨db, redis, dbo, ro, calls, posted, exited⟩, tasks, idx, showc, status, view, sp, pv,
    pm, idesc, iprio, idue, ilink, iprog, field⟩ := s
  rcases redis with _ | ⟨connected, entries, hits, misses⟩
  · simp only [confirm_delete, no_selection, selected_task, World.delete_task,
      World.log, World.invalidate_if_connected, refresh_tasks, World.get_all_tasks,
      World.post_event, World.without_cache, TaskListView.without_cache, World.db_ok]
    split_ifs <;> simp [List.filter_append, Call.is_cache_call]
  · cases connected <;>
    · simp only [confirm_delete, no_selection, selected_task, World.delete_task,
        World.log, World.invalidate_if_connected, refresh_tasks, World.get_all_tasks,
        World.post_event, World.without_cache, TaskListView.without_cache, World.db_ok]
      split_ifs <;> simp [List.filter_append, Call.is_cache_call]

theorem ai_without_cache (env : Env) (s : TaskListView) :
    (show_ai_suggestions env s).without_cache = show_ai_suggestions env s.without_cache ∧
    (show_schedule_summary env s).without_cache =
      show_schedule_summary env s.without_cache := by
  obtain ⟨⟨db, redis, dbo, ro, calls, posted, exited⟩, tasks, idx, showc, status, view, sp, pv,
    pm, idesc, iprio, idue, ilink, iprog, field⟩ := s
  constructor
  · by_cases hn : (tasks.isEmpty || decide (idx ≥ (tasks.length : Int))) = true
    · simp [show_ai_suggestions, hn, no_selection, TaskListView.without_cache]
    · cases hai : env.ai_enabled <;>
        simp [show_ai_suggestions, hn, no_selection, TaskListView.without_cache, hai,
          World.without_cache, World.log, World.post_event, List.filter_append,
          Call.is_cache_call, selected_task]
  · cases hai : env.ai_enabled <;>
      simp [show_schedule_summary, TaskListView.without_cache, hai,
        World.without_cache, World.log, World.post_event, List.filter_append,
        Call.is_cache_call]

theorem on_dialog_event_without_cache (env : Env) (ev : Event) (s : TaskListView)
    (hdesc : utf8_valid s.input_description = true)
    (hlinks : (selected_task s).links.all utf8_valid = true) :
    (on_dialog_event env ev s).without_cache = on_dialog_event env ev s.without_cache := by
  cases ev with
  | enter =>
    have hv : s.without_cache.current_view = s.current_view := rfl
    unfold on_dialog_event
    simp only [hv]
    split_ifs
    · exact save_subtask_without_cache env s hdesc
    · exact save_task_without_cache env _ s hdesc hlinks
  | character c =>
    unfold on_dialog_event
    dsimp only [append_active, TaskListView.without_cache]
    repeat' split
    all_goals rfl
  | backspace =>
    unfold on_dialog_event
    dsimp only [TaskListView.without_cache]
    split_ifs <;> rfl
  | escape => rfl
  | tab => rfl
  | arrow_up => rfl
  | arrow_down => rfl
  | other => rfl

theorem dialogs_without_cache (env : Env) (s : TaskListView) :
    (add_task_dialog s).without_cache = add_task_dialog s.without_cache ∧
    (edit_task_dialog env s).without_cache = edit_task_dialog env s.without_cache ∧
    (delete_task_dialog s).without_cache = delete_task_dialog s.without_cache ∧
    (add_subtask_dialog s).without_cache = add_subtask_dialog s.without_cache ∧
    (show_settings s).without_cache = show_settings s.without_cache ∧
    (sync_to_sheets s).without_cache = sync_to_sheets s.without_cache ∧
    (show_help s).without_cache = show_help s.without_cache := by
  have hn : no_selection s.without_cache = no_selection s := rfl
  refine ⟨rfl, ?_, ?_, ?_, rfl, rfl, rfl⟩
  · unfold edit_task_dialog; rw [hn]; split <;> rfl
  · unfold delete_task_dialog; rw [hn]; split <;> rfl
  · unfold add_subtask_dialog; rw [hn]; split <;> rfl

theorem filter_toggle_without_cache (x : TaskListView) (m1 m2 : Str) :
    TaskListView.without_cache
        { refresh_tasks x with
          status_message := if (refresh_tasks x).show_completed = true then m1 else m2
          w := (refresh_tasks x).w.post_event } =
      { refresh_tasks x.without_cache with
        status_message :=
          if (refresh_tasks x.without_cache).show_completed = true then m1 else m2
        w := (refresh_tasks x.without_cache).w.post_event } ∧
    TaskListView.without_cache
        { refresh_tasks x with
          status_message := if (refresh_tasks x).show_completed = true then m1 else m2 } =
      { refresh_tasks x.without_cache with
        status_message :=
          if (refresh_tasks x.without_cache).show_completed = true then m1 else m2 } := by
  rw [← refresh_tasks_without_cache]
  exact ⟨rfl, rfl⟩

theorem dump_ok_selected (s : TaskListView) (h : texts_valid s) :
    dump_ok (selected_task s) = true := by
  unfold selected_task
  rw [List.getD_eq_getElem?_getD]
  cases hg : s.tasks[s.selected_index.toNat]? with
  | none => rfl
  | some t => exact h.2 t (List.getElem?_mem hg)

theorem on_event_without_cache (env : Env) (ev : Event) (s : TaskListView)
    (h : texts_valid s) :
    (on_event env ev s).1.without_cache = (on_event env ev s.without_cache).1 ∧
      (on_event env ev s).2 = (on_event env ev s.without_cache).2 := by
  have hdump := dump_ok_selected s h
  have hlinks : (selected_task s).links.all utf8_valid = true := by
    unfold dump_ok at hdump
    exact (Bool.and_eq_true _ _ ▸ hdump).2
  have hdesc := h.1
  have hvw : s.without_cache.current_view = s.current_view := rfl
  unfold on_event
  rw [hvw]
  cases hv : s.current_view with
  | delete_confirm =>
    dsimp only
    split_ifs
    · exact ⟨confirm_delete_without_cache s, rfl⟩
    · exact ⟨rfl, rfl⟩
  | add => exact ⟨on_dialog_event_without_cache env ev s hdesc hlinks, rfl⟩
  | edit => exact ⟨on_dialog_event_without_cache env ev s hdesc hlinks, rfl⟩
  | add_subtask => exact ⟨on_dialog_event_without_cache env ev s hdesc hlinks, rfl⟩
  | settings =>
    dsimp only
    by_cases he : ev = Event.escape
    · rw [if_pos he, if_pos he]; exact ⟨rfl, rfl⟩
    rw [if_neg he, if_neg he]
    by_cases hc : ev = Event.character ['c']
    · rw [if_pos hc, if_pos hc]
      exact ⟨(filter_toggle_without_cache _ _ _).1, rfl⟩
    rw [if_neg hc, if_neg hc]
    exact ⟨rfl, rfl⟩
  | help => exact ⟨rfl, rfl⟩
  | ai_suggestions => exact ⟨rfl, rfl⟩
  | list =>
    dsimp only
    cases ev with
    | arrow_up =>
      have hi : s.without_cache.selected_index = s.selected_index := rfl
      dsimp only
      rw [hi]
      split_ifs <;> exact ⟨rfl, rfl⟩
    | arrow_down =>
      have hi : s.without_cache.selected_index = s.selected_index := rfl
      have ht : s.without_cache.tasks = s.tasks := rfl
      dsimp only
      rw [hi, ht]
      split_ifs <;> exact ⟨rfl, rfl⟩
    | character c =>
      dsimp only
      by_cases hc : c = ['q']
      · rw [if_pos hc, if_pos hc]; exact ⟨rfl, rfl⟩
      rw [if_neg hc, if_neg hc]; clear hc
      by_cases hc : c = ['a']
      · rw [if_pos hc, if_pos hc]; exact ⟨(dialogs_without_cache env s).1, rfl⟩
      rw [if_neg hc, if_neg hc]; clear hc
      by_cases hc : c = ['e']
      · rw [if_pos hc, if_pos hc]; exact ⟨(dialogs_without_cache env s).2.1, rfl⟩
      rw [if_neg hc, if_neg hc]; clear hc
      by_cases hc : c = ['d']
      · rw [if_pos hc, if_pos hc]; exact ⟨(dialogs_without_cache env s).2.2.1, rfl⟩
      rw [if_neg hc, if_neg hc]; clear hc
      by_cases hc : c = ['t']
      · rw [if_pos hc, if_pos hc]; exact ⟨(dialogs_without_cache env s).2.2.2.1, rfl⟩
      rw [if_neg hc, if_neg hc]; clear hc
      by_cases hc : c = [' ']
      · rw [if_pos hc, if_pos hc]
        exact ⟨toggle_without_cache s (not_throws_of_dump_ok _ _ hdump), rfl⟩
      rw [if_neg hc, if_neg hc]; clear hc
      by_cases hc : c = ['s']
      · rw [if_pos hc, if_pos hc]; exact ⟨(ai_without_cache env s).1, rfl⟩
      rw [if_neg hc, if_neg hc]; clear hc
      by_cases hc : c = ['S']
      · rw [if_pos hc, if_pos hc]; exact ⟨(ai_without_cache env s).2, rfl⟩
      rw [if_neg hc, if_neg hc]; clear hc
      by_cases hc : c = ['g']
      · rw [if_pos hc, if_pos hc]; exact ⟨(dialogs_without_cache env s).2.2.2.2.1, rfl⟩
      rw [if_neg hc, if_neg hc]; clear hc
      by_cases hc : c = ['G']
      · rw [if_pos hc, if_pos hc]; exact ⟨(dialogs_without_cache env s).2.2.2.2.2.1, rfl⟩
      rw [if_neg hc, if_neg hc]; clear hc
      by_cases hc : c = ['c']
      · rw [if_pos hc, if_pos hc]
        exact ⟨(filter_toggle_without_cache _ _ _).2, rfl⟩
      rw [if_neg hc, if_neg hc]; clear hc
      by_cases hc : c = ['h']
      · rw [if_pos hc, if_pos hc]; exact ⟨(dialogs_without_cache env s).2.2.2.2.2.2, rfl⟩
      rw [if_neg hc, if_neg hc]; clear hc
      exact ⟨rfl, rfl⟩
    | escape => exact ⟨rfl, rfl⟩
    | enter => exact ⟨rfl, rfl⟩
    | tab => exact ⟨rfl, rfl⟩
    | backspace => exact ⟨rfl, rfl⟩
    | other => exact ⟨rfl, rfl⟩

/-- Apart from a cache write that throws, the cache does not interfere: two
controller states that differ only in the cache (the cache object absent,
disconnected or connected, its content, the outcomes of its commands, and the
cache calls recorded so far), and whose texts are valid UTF-8, produce on every
event results that again differ only in the cache: the same handler result,
the same store calls with the same arguments, the same store, view, task list,
selection, status message and input buffers. -/
theorem cache_non_interference (env : Env) (ev : Event) (s1 s2 : TaskListView)
    (h : s1.without_cache = s2.without_cache) (hv : texts_valid s1) :
    (on_event env ev s1).1.without_cache = (on_event env ev s2).1.without_cache ∧
    (on_event env ev s1).2 = (on_event env ev s2).2 ∧
    (on_event env ev s1).1.w.calls.filter (fun c => !c.is_cache_call) =
      (on_event env ev s2).1.w.calls.filter (fun c => !c.is_cache_call) ∧
    (on_event env ev s1).1.w.db = (on_event env ev s2).1.w.db ∧
    (on_event env ev s1).1.current_view = (on_event env ev s2).1.current_view ∧
    (on_event env ev s1).1.tasks = (on_event env ev s2).1.tasks ∧
    (on_event env ev s1).1.selected_index = (on_event env ev s2).1.selected_index ∧
    (on_event env ev s1).1.status_message = (on_event env ev s2).1.status_message ∧
    ((on_event env ev s1).1.input_description = (on_event env ev s2).1.input_description ∧
      (on_event env ev s1).1.input_priority = (on_event env ev s2).1.input_priority ∧
      (on_event env ev s1).1.input_due_date = (on_event env ev s2).1.input_due_date ∧
      (on_event env ev s1).1.input_link = (on_event env ev s2).1.input_link ∧
      (on_event env ev s1).1.input_progress = (on_event env ev s2).1.input_progress) := by
  have hv2 : texts_valid s2 := by
    have e1 : s2.input_description = s1.input_description :=
      (congrArg (fun s => s.input_description) h).symm
    have e2 : s2.tasks = s1.tasks := (congrArg (fun s => s.tasks) h).symm
    unfold texts_valid
    rw [e1, e2]
    exact hv
  have h1 := on_event_without_cache env ev s1 hv
  have h2 := on_event_without_cache env ev s2 hv2
  have hw : (on_event env ev s1).1.without_cache = (on_event env ev s2).1.without_cache := by
    rw [h1.1, h2.1, h]
  refine ⟨hw, by rw [h1.2, h2.2, h], ?_, ?_, ?_, ?_, ?_, ?_, ?_, ?_, ?_, ?_, ?_⟩
  · exact congrArg (fun s => s.w.calls) hw
  · exact congrArg (fun s => s.w.db) hw
  · exact congrArg (fun s => s.current_view) hw
  · exact congrArg (fun s => s.tasks) hw
  · exact congrArg (fun s => s.selected_index) hw
  · exact congrArg (fun s => s.status_message) hw
  · exact congrArg (fun s => s.input_description) hw
  · exact congrArg (fun s => s.input_priority) hw
  · exact congrArg (fun s => s.input_due_date) hw
  · exact congrArg (fun s => s.input_link) hw
  · exact congrArg (fun s => s.input_progress) hw

/-- The statement above at the add dialog over the sample store: without a
cache, and with a connected cache whose commands fail. -/
theorem cache_non_interference_witness :
    (sample_add_dialog none).without_cache =
      (sample_add_dialog (some { connected := true, entries := [] })).without_cache ∧
    texts_valid (sample_add_dialog none) ∧
    (on_event sample_env Event.enter (sample_add_dialog none)).1.tasks =
      (on_event sample_env Event.enter
        (sample_add_dialog (some { connected := true, entries := [] }))).1.tasks ∧
    (on_event sample_env Event.enter (sample_add_dialog none)).1.w.db =
      (on_event sample_env Event.enter
        (sample_add_dialog (some { connected := true, entries := [] }))).1.w.db :=
  have h := cache_non_interference sample_env Event.enter (sample_add_dialog none)
    (sample_add_dialog (some { connected := true, entries := [] })) rfl (by decide)
  ⟨rfl, by decide, h.2.2.2.2.2.1, h.2.2.2.1⟩

/-- C13 fails on the code: in the add dialog over the sample store, after
U+00E9 (the bytes C3 A9) and Backspace the description buffer holds the byte
C3 alone. The two states, without a cache and with a connected cache, differ
only in the cache. Without the cache Enter stores the task, reloads the list
and ends in the list view. With the connected cache `cache_task` throws after
the store call: the reload is not called, the list in memory is not reloaded,
the view is still the dialog and the loop is left. -/
theorem cache_write_exception_interferes :
    (sample_cut_dialog none).input_description = sample_cut_text ∧
    (sample_cut_dialog none).without_cache =
      (sample_cut_dialog (some { connected := true, entries := [] })).without_cache ∧
    ((on_event sample_env Event.enter (sample_cut_dialog none)).1.current_view = View.list ∧
      (on_event sample_env Event.enter (sample_cut_dialog none)).1.w.exited = false ∧
      (on_event sample_env Event.enter (sample_cut_dialog none)).1.tasks.length = 3 ∧
      ((on_event sample_env Event.enter (sample_cut_dialog none)).1.w.calls.drop 1).map
          (fun c => (c.is_store_write, c.is_cache_call)) = [(true, false), (false, false)]) ∧
    ((on_event sample_env Event.enter
        (sample_cut_dialog (some { connected := true, entries := [] }))).1.current_view =
        View.add ∧
      (on_event sample_env Event.enter
        (sample_cut_dialog (some { connected := true, entries := [] }))).1.w.exited = true ∧
      (on_event sample_env Event.enter
        (sample_cut_dialog (some { connected := true, entries := [] }))).1.tasks.length = 2 ∧
      ((on_event sample_env Event.enter
        (sample_cut_dialog (some { connected := true, entries := [] }))).1.w.calls.drop 1).map
          (fun c => (c.is_store_write, c.is_cache_call)) =
        [(true, false), (false, true), (false, true)] ∧
      (on_event sample_env Event.enter
        (sample_cut_dialog (some { connected := true, entries := [] }))).1.w.db.tasks.length =
        3) := by
  refine ⟨by decide, rfl, by decide, by decide⟩

/-- C11 at the add-subtask dialog over the sample store with task 2 selected. -/
theorem subtask_parent_from_selection_witness :
    has_selection (sample_dialog View.add_subtask 0 "buy stamps".toList 1 [] 0) ∧
    buffers_valid (sample_dialog View.add_subtask 0 "buy stamps".toList 1 [] 0) ∧
    (selected_task (sample_dialog View.add_subtask 0 "buy stamps".toList 1 [] 0)).id = 2 ∧
    (created_subtask sample_env
      (sample_dialog View.add_subtask 0 "buy stamps".toList 1 [] 0)).parent_id = some 2 ∧
    (∃ c ∈ (on_event sample_env Event.enter
        (sample_dialog View.add_subtask 0 "buy stamps".toList 1 [] 0)).1.w.db.get_subtasks
          (selected_task (sample_dialog View.add_subtask 0 "buy stamps".toList 1 [] 0)).id,
      c.id =
        (sample_dialog View.add_subtask 0 "buy stamps".toList 1 [] 0).w.db.next_id ∧
      c.parent_id =
        some (selected_task (sample_dialog View.add_subtask 0 "buy stamps".toList 1 [] 0)).id) := by
  have h := subtask_parent_from_selection sample_env
    (sample_dialog View.add_subtask 0 "buy stamps".toList 1 [] 0) rfl (by decide) (by decide)
  obtain ⟨c, hc, h1, h2, _⟩ := h.2.2.2 rfl
  exact ⟨by decide, by decide, by decide, by decide, c, hc, h1, h2⟩

/-! ### The dialogs, the due-date text and the field index -/

theorem sscanf_length_le_append (f g : List Directive) (s : Str) :
    (sscanf f s).length ≤ (sscanf (f ++ g) s).length := by
  induction f generalizing s with
  | nil => simp [sscanf]
  | cons d f ih =>
    cases d with
    | int =>
      simp only [List.cons_append, sscanf]
      cases hs : scan_int s with
      | none => simp
      | some r =>
        obtain ⟨v, rest⟩ := r
        simp only [List.length_cons, Nat.add_le_add_iff_right]
        exact ih rest
    | lit c =>
      cases s with
      | nil => simp [sscanf]
      | cons x rest =>
        by_cases hx : x = c
        · simp only [List.cons_append, sscanf, hx, if_true]
          exact ih rest
        · simp [sscanf, hx]
    | ws =>
      simp only [List.cons_append, sscanf]
      exact ih _

/-- C27: when the first pattern of the due-date cascade converts fewer than
three fields, the second and the third convert fewer than three too, so the
two later attempts never decide; and the cascade returns what the first attempt
alone returns, with hour, minute and second 0 when not converted, and rejects
otherwise. -/
theorem first_attempt_decides (buf : Str) :
    ((sscanf fmt_date_hms buf).length < 3 →
      (sscanf fmt_date_hm buf).length < 3 ∧ (sscanf fmt_date buf).length < 3) ∧
    parse_due_date buf = parse_first_attempt buf := by
  have h1 : (sscanf fmt_date buf).length ≤ (sscanf fmt_date_hm buf).length :=
    sscanf_length_le_append fmt_date _ buf
  have h2 : (sscanf fmt_date_hm buf).length ≤ (sscanf fmt_date_hms buf).length :=
    sscanf_length_le_append fmt_date_hm _ buf
  refine ⟨fun h => ⟨by omega, by omega⟩, ?_⟩
  by_cases h : 3 ≤ (sscanf fmt_date_hms buf).length
  · simp [parse_due_date, parse_first_attempt, h, ScanVars.assign]
  · rw [parse_due_date_eq_none buf (by omega)]
    simp [parse_first_attempt, h]

/-- C27 at the buffer `not-a-date`: no pattern converts a field and the buffer
is rejected. -/
theorem first_attempt_decides_witness :
    (sscanf fmt_date_hms "not-a-date".toList).length < 3 ∧
    (sscanf fmt_date_hm "not-a-date".toList).length < 3 ∧
    (sscanf fmt_date "not-a-date".toList).length < 3 ∧
    parse_due_date "not-a-date".toList = none :=
  have h := first_attempt_decides "not-a-date".toList
  ⟨by decide, (h.1 (by decide)).1, (h.1 (by decide)).2, by rw [h.2]; decide⟩

theorem on_event_edit_key (env : Env) (s : TaskListView) (hv : s.current_view = View.list)
    (hsel : has_selection s) :
    (on_event env (Event.character ['e']) s).1 =
      { s with
        input_description := (selected_task s).description
        input_priority := (selected_task s).priority
        input_due_date :=
          if (selected_task s).due_date.isSome then (selected_task s).get_due_date_string env
          else []
        input_link := (selected_task s).links.headD []
        input_progress := (selected_task s).progress
        current_input_field := 0
        current_view := View.edit
        status_message :=
          "Edit task (Tab to switch fields, ESC to cancel, Enter to save)".toList } := by
  have hn := no_selection_eq_false s hsel
  simp [on_event, hv, edit_task_dialog, hn]

/-- C25: for a selected task with a positive id whose first link in memory is
L (not empty), whose description is not empty and whose due date, when it has
one, is read back by the parser: `e` puts L into the link buffer, and Enter
right after it, the store executing its statements, makes the one call
`add_task_link(id, L)`; the links the store returns for the task afterwards
are the links it returned before followed by L as `getText` reads it back, one
more in all; when L holds no NUL byte (as every link read from the store) that
is L itself, L one more time than before. -/
theorem unchanged_edit_repeats_first_link (env : Env) (s : TaskListView) (l : Str)
    (rest : List Str) (hv : s.current_view = View.list) (hsel : has_selection s)
    (hlinks : (selected_task s).links = l :: rest) (hl : l ≠ [])
    (hdesc : (selected_task s).description ≠ [])
    (hdue : (selected_task s).due_date.isSome = true →
      (parse_due_date ((selected_task s).get_due_date_string env)).isSome = true)
    (hid : 0 < (selected_task s).id) (hok : s.w.db_ok = true)
    (hok2 : s.w.second_db_ok = true) :
    let s1 := (on_event env (Event.character ['e']) s).1
    let s2 := (on_event env Event.enter s1).1
    s1.input_link = l ∧
    (s2.w.calls.drop (s.w.calls.length + 1)).filter Call.is_add_task_link =
      [Call.add_task_link (selected_task s).id l] ∧
    s2.w.db.get_task_links (selected_task s).id =
      s.w.db.get_task_links (selected_task s).id ++ [getText l] ∧
    (s2.w.db.get_task_links (selected_task s).id).length =
      (s.w.db.get_task_links (selected_task s).id).length + 1 ∧
    (s2.w.db.get_task_links (selected_task s).id).count (getText l) =
      (s.w.db.get_task_links (selected_task s).id).count (getText l) + 1 ∧
    ((∀ c ∈ l, c ≠ Char.ofNat 0) →
      s2.w.db.get_task_links (selected_task s).id =
        s.w.db.get_task_links (selected_task s).id ++ [l] ∧
      (s2.w.db.get_task_links (selected_task s).id).count l =
        (s.w.db.get_task_links (selected_task s).id).count l + 1) := by
  intro s1 s2
  have e1 : s1 = _ := on_event_edit_key env s hv hsel
  have hlink : s1.input_link = l := by rw [e1]; simp [hlinks]
  have hv1 : s1.current_view = View.edit := by rw [e1]
  have hsel1 : has_selection s1 := by rw [e1]; exact hsel
  have hst : selected_task s1 = selected_task s := by rw [e1]; rfl
  have hw : s1.w = s.w := by rw [e1]
  have hb1 : buffers_valid s1 := by
    refine ⟨by rw [e1]; exact hdesc, ?_⟩
    rw [e1]
    dsimp only
    by_cases hs : (selected_task s).due_date.isSome = true
    · rw [if_pos hs]; exact Or.inr (hdue hs)
    · rw [if_neg hs]; exact Or.inl rfl
  have h := save_success env s1 (Or.inr (Or.inl hv1)) hb1 (fun _ => hsel1)
    (by rw [hw]; exact hok) (fun _ => by rw [hst]; exact hid)
  have hsid : saved_id s1 = (selected_task s).id := by
    simp [saved_id, hv1, hst]
  rw [hw, hsid, hlink] at h
  have hne : (l ≠ [] ∧ s.w.second_db_ok = true) := ⟨hl, hok2⟩
  have hlinks2 : s2.w.db.task_links =
      s.w.db.task_links ++ [⟨(selected_task s).id, l⟩] := by
    rw [h.2.1, if_pos hne]
  have hget : s2.w.db.get_task_links (selected_task s).id =
      s.w.db.get_task_links (selected_task s).id ++ [getText l] := by
    simp [DatabaseManager.get_task_links, hlinks2, List.filter_append]
  have hself : (∀ c ∈ l, c ≠ Char.ofNat 0) →
      s2.w.db.get_task_links (selected_task s).id =
        s.w.db.get_task_links (selected_task s).id ++ [l] ∧
      (s2.w.db.get_task_links (selected_task s).id).count l =
        (s.w.db.get_task_links (selected_task s).id).count l + 1 := by
    intro hn
    rw [hget, getText_eq_self l hn]
    exact ⟨rfl, by simp⟩
  refine ⟨hlink, ?_, hget, by rw [hget]; simp, by rw [hget]; simp, hself⟩
  rw [h.1]
  have : ∀ tail : List Call, s.w.calls ++ store_call env s1 ::
      (link_calls s1 (selected_task s).id ++
        cache_calls s.w (Call.cache_task (saved_task env s1)) ++ tail) =
      (s.w.calls ++ [store_call env s1]) ++
      (link_calls s1 (selected_task s).id ++
        cache_calls s.w (Call.cache_task (saved_task env s1)) ++ tail) := by
    intro tail; simp
  rw [this, show s.w.calls.length + 1 = (s.w.calls ++ [store_call env s1]).length by simp,
    List.drop_left, filter_link_calls s1 (selected_task s).id s.w
      (Call.cache_task (saved_task env s1)) (Call.get_all_tasks s1.show_completed) _ rfl rfl]
  unfold link_calls
  rw [hlink]
  simp [hl]

/-- C25 at the sample store in which task 1 has the link `http://a`: after `e`
and Enter it has it twice. -/
theorem unchanged_edit_repeats_first_link_witness :
    (selected_task sample_view_linked).id = 1 ∧
    (selected_task sample_view_linked).links = ["http://a".toList] ∧
    (on_event sample_env Event.enter
      (on_event sample_env (Event.character ['e']) sample_view_linked).1).1.w.db.get_task_links
        1 = ["http://a".toList, "http://a".toList] :=
  have h := unchanged_edit_repeats_first_link sample_env sample_view_linked "http://a".toList
    [] rfl (by decide) (by decide) (by decide) (by decide) (by decide) (by decide) rfl rfl
  ⟨by decide, by decide, (h.2.2.2.2.2 (by decide)).1⟩

theorem create_save_first_call (env : Env) (s : TaskListView) (hb : buffers_valid s) :
    (s.current_view = View.add →
      (on_event env Event.enter s).1.w.calls.get? s.w.calls.length =
        some (Call.add_task (created_task env s))) ∧
    (s.current_view = View.add_subtask → has_selection s →
      (on_event env Event.enter s).1.w.calls.get? s.w.calls.length =
        some (Call.add_task (created_subtask env s))) := by
  constructor
  · intro hv
    have hs' : (on_event env Event.enter s).1 = save_task env false s :=
      (on_event_enter_dialog env s).1 hv
    have hadd := add_task_proj s.w.post_event.post_event (created_task env s) rfl
    obtain ⟨rest, hr1, _⟩ := finish_save_calls_rest
      { before_store s "Creating task...".toList with
        w := (s.w.post_event.post_event.add_task (created_task env s)).1 }
      { created_task env s with
        id := (s.w.post_event.post_event.add_task (created_task env s)).2 }
      (s.w.post_event.post_event.add_task (created_task env s)).2
      "Task added successfully!".toList "Failed to add task.".toList
    rw [← save_task_add_eq env s hb, ← hs'] at hr1
    have : (on_event env Event.enter s).1.w.calls =
        s.w.calls ++ Call.add_task (created_task env s) :: rest := by
      rw [hr1]
      show (s.w.post_event.post_event.add_task (created_task env s)).1.calls ++ _ = _
      rw [hadd.1]
      show (s.w.calls ++ [Call.add_task (created_task env s)]) ++ _ = _
      rw [List.append_assoc]; rfl
    rw [this]
    exact get_after _ _ _
  · intro hv hsel
    have hs' : (on_event env Event.enter s).1 = save_subtask env s :=
      (on_event_enter_dialog env s).2.2 hv
    have hadd := add_task_proj s.w.post_event.post_event (created_subtask env s) rfl
    obtain ⟨rest, hr1, _⟩ := finish_save_calls_rest
      { before_store s "Creating subtask...".toList with
        w := (s.w.post_event.post_event.add_task (created_subtask env s)).1 }
      { created_subtask env s with
        id := (s.w.post_event.post_event.add_task (created_subtask env s)).2 }
      (s.w.post_event.post_event.add_task (created_subtask env s)).2
      "Subtask added successfully!".toList "Failed to add subtask.".toList
    rw [← save_subtask_eq env s hsel hb, ← hs'] at hr1
    have : (on_event env Event.enter s).1.w.calls =
        s.w.calls ++ Call.add_task (created_subtask env s) :: rest := by
      rw [hr1]
      show (s.w.post_event.post_event.add_task (created_subtask env s)).1.calls ++ _ = _
      rw [hadd.1]
      show (s.w.calls ++ [Call.add_task (created_subtask env s)]) ++ _ = _
      rw [List.append_assoc]; rfl
    rw [this]
    exact get_after _ _ _

/-- C24: with a parent selected, Enter in the add-subtask view and Enter in the
add view, on the same buffers, reject together: each makes no store call and
stays in its dialog exactly when the description is empty or the due-date
buffer is not empty and not read by the parser; and when they accept, the task
each passes to the store's insert, as its first call, is built from the
buffers in the same way: the one of the subtask is the one of the create with
`parent_id` set to the id of the selected task. -/
theorem subtask_pipeline_matches_create (env : Env) (s : TaskListView)
    (hsel : has_selection s) :
    let a := (on_event env Event.enter { s with current_view := View.add }).1
    let b := (on_event env Event.enter { s with current_view := View.add_subtask }).1
    (a.w.calls = s.w.calls ↔ b.w.calls = s.w.calls) ∧
    (a.w.calls = s.w.calls ↔ ¬ buffers_valid s) ∧
    (¬ buffers_valid s →
      a.current_view = View.add ∧ b.current_view = View.add_subtask ∧
        a.w.db = s.w.db ∧ b.w.db = s.w.db) ∧
    (buffers_valid s →
      a.w.calls.get? s.w.calls.length = some (Call.add_task (created_task env s)) ∧
      b.w.calls.get? s.w.calls.length = some (Call.add_task (created_subtask env s)) ∧
      created_subtask env s =
        { created_task env s with parent_id := some (selected_task s).id } ∧
      (created_task env s).parent_id = none) := by
  intro a b
  have hva : is_dialog ({ s with current_view := View.add } : TaskListView).current_view :=
    Or.inl rfl
  have hvb : is_dialog
      ({ s with current_view := View.add_subtask } : TaskListView).current_view :=
    Or.inr (Or.inr rfl)
  have hinv_a := invalid_buffers_stay env { s with current_view := View.add } hva
  have hinv_b := invalid_buffers_stay env { s with current_view := View.add_subtask } hvb
  have hval_a := fun hb => (create_save_first_call env { s with current_view := View.add }
    hb).1 rfl
  have hval_b := fun hb => (create_save_first_call env
    { s with current_view := View.add_subtask } hb).2 rfl hsel
  have key_a : a.w.calls = s.w.calls ↔ ¬ buffers_valid s := by
    constructor
    · intro h hb
      have := hval_a hb
      change a.w.calls.get? s.w.calls.length = _ at this
      rw [h] at this
      simp at this
    · intro hb; exact (hinv_a hb).2.1
  have key_b : b.w.calls = s.w.calls ↔ ¬ buffers_valid s := by
    constructor
    · intro h hb
      have := hval_b hb
      change b.w.calls.get? s.w.calls.length = _ at this
      rw [h] at this
      simp at this
    · intro hb; exact (hinv_b hb).2.1
  refine ⟨key_a.trans key_b.symm, key_a, ?_, ?_⟩
  · intro hb
    exact ⟨(hinv_a hb).1, (hinv_b hb).1, (hinv_a hb).2.2, (hinv_b hb).2.2⟩
  · intro hb
    exact ⟨hval_a hb, hval_b hb, rfl, rfl⟩

/-- C24 at the sample store with task 2 selected and the buffers `x` and
`2025-01-05`: both dialogs insert, the same task up to `parent_id`. -/
theorem subtask_pipeline_matches_create_witness :
    buffers_valid (sample_dialog View.list 0 "x".toList 1 "2025-01-05".toList 0) ∧
    created_subtask sample_env (sample_dialog View.list 0 "x".toList 1 "2025-01-05".toList 0) =
      { created_task sample_env
          (sample_dialog View.list 0 "x".toList 1 "2025-01-05".toList 0) with
        parent_id := some 2 } :=
  have h := subtask_pipeline_matches_create sample_env
    (sample_dialog View.list 0 "x".toList 1 "2025-01-05".toList 0) (by decide)
  ⟨by decide, (h.2.2.2 (by decide)).2.2.1⟩

/-- C21 (as amended): in a dialog view with the progress field active and the
progress buffer p in [0,100], a digit d with 10p + d above 100 changes nothing:
no call is made, every buffer and the status message stay as they were. -/
theorem oversized_progress_digit_dropped (env : Env) (s : TaskListView) (c : Char)
    (hv : is_dialog s.current_view) (hf : s.current_input_field = 3)
    (h0 : 0 ≤ s.input_progress) (h1 : s.input_progress ≤ 100) (hd : isdigit c = true)
    (hbig : 100 < 10 * s.input_progress + digit_value c) :
    (on_event env (Event.character [c]) s).1 = s := by
  have hplus : c ≠ '+' := by rintro rfl; revert hd; decide
  have hminus : c ≠ '-' := by rintro rfl; revert hd; decide
  have e : (on_event env (Event.character [c]) s).1 =
      on_dialog_event env (Event.character [c]) s := by
    rcases hv with h | h | h <;> simp [on_event, h]
  have hst := stoi_progress_digit s.input_progress c h0 h1 hd
  rw [e, on_progress_char env s c hf hplus hminus, if_pos hd, hst.1]
  simp only [Option.elim]
  rw [if_neg (by omega)]

/-- C21 (as amended) at the progress buffer 50 and the digit 5. -/
theorem oversized_progress_digit_dropped_witness :
    (on_event sample_env (Event.character ['5'])
      (sample_dialog View.add 3 "x".toList 1 [] 50)).1 =
      sample_dialog View.add 3 "x".toList 1 [] 50 :=
  oversized_progress_digit_dropped sample_env (sample_dialog View.add 3 "x".toList 1 [] 50)
    '5' (Or.inl rfl) rfl (by decide) (by decide) (by decide) (by decide)

/-- C21 fails as stated: in the add dialog with the progress field active and
the progress buffer 50, the digit 5 would compose 505; the handler drops it and
the status message after the event is the one before it. -/
theorem oversized_progress_digit_sets_no_message :
    (sample_dialog View.add 3 "x".toList 1 [] 50).current_input_field = 3 ∧
    (sample_dialog View.add 3 "x".toList 1 [] 50).input_progress = 50 ∧
    (on_event sample_env (Event.character ['5'])
      (sample_dialog View.add 3 "x".toList 1 [] 50)).1.status_message =
      (sample_dialog View.add 3 "x".toList 1 [] 50).status_message ∧
    (on_event sample_env (Event.character ['5'])
      (sample_dialog View.add 3 "x".toList 1 [] 50)).1.input_progress = 50 := by
  decide

/-- C29: in the list view with an empty list in memory, each of the keys `e`,
`d`, `t`, space and `s` only sets the status message to "No task selected.":
the view stays the list, no call is made on the store, the cache or the AI
service, and every other member is unchanged. -/
theorem empty_list_commands_only_report (env : Env) (s : TaskListView) (c : Char)
    (hv : s.current_view = View.list) (ht : s.tasks = [])
    (hc : c = 'e' ∨ c = 'd' ∨ c = 't' ∨ c = ' ' ∨ c = 's') :
    on_event env (Event.character [c]) s =
      ({ s with status_message := "No task selected.".toList }, true) ∧
    (on_event env (Event.character [c]) s).1.current_view = View.list ∧
    (on_event env (Event.character [c]) s).1.w = s.w := by
  have hn : no_selection s = true := by simp [no_selection, ht]
  have h : on_event env (Event.character [c]) s =
      ({ s with status_message := "No task selected.".toList }, true) := by
    rcases hc with rfl | rfl | rfl | rfl | rfl <;>
      simp [on_event, hv, edit_task_dialog, delete_task_dialog, add_subtask_dialog,
        toggle_task_completion, show_ai_suggestions, hn]
  rw [h]
  exact ⟨rfl, hv, rfl⟩

/-- C29 at the list view over an empty store, for the space key. -/
theorem empty_list_commands_only_report_witness :
    (TaskListView.init { sample_world [] with db := { tasks := [], task_links := [], seq := 0 } }).tasks
      = [] ∧
    (on_event sample_env (Event.character [' '])
      (TaskListView.init
        { sample_world [] with db := { tasks := [], task_links := [], seq := 0 } })).1.w.calls =
      [Call.get_all_tasks true] :=
  have h := empty_list_commands_only_report sample_env
    (TaskListView.init { sample_world [] with db := { tasks := [], task_links := [], seq := 0 } })
    ' ' rfl (by decide) (Or.inr (Or.inr (Or.inr (Or.inl rfl))))
  ⟨by decide, by rw [h.2.2]; decide⟩


theorem toggle_field (s : TaskListView) :
    (toggle_task_completion s).current_input_field = s.current_input_field := by
  unfold toggle_task_completion
  dsimp only
  split_ifs <;> rfl

theorem confirm_delete_field (s : TaskListView) :
    (confirm_delete s).current_input_field = s.current_input_field := by
  unfold confirm_delete
  dsimp only
  split_ifs <;> rfl

theorem finish_save_field (s : TaskListView) (task : Task) (result : Int) (a b : Str) :
    (finish_save s task result a b).current_input_field = s.current_input_field := by
  unfold finish_save
  dsimp only
  split_ifs <;> rfl

theorem save_task_field (env : Env) (is_edit : Bool) (s : TaskListView) :
    (save_task env is_edit s).current_input_field = s.current_input_field := by
  unfold save_task
  dsimp only
  split_ifs
  all_goals first
    | rfl
    | exact finish_save_field _ _ _ _ _
    | (split
       · rfl
       · split_ifs
         all_goals exact finish_save_field _ _ _ _ _)
    | (split
       · rfl
       · exact finish_save_field _ _ _ _ _)

theorem save_subtask_field (env : Env) (s : TaskListView) :
    (save_subtask env s).current_input_field = s.current_input_field := by
  unfold save_subtask
  dsimp only
  split_ifs
  all_goals first
    | rfl
    | exact finish_save_field _ _ _ _ _
    | (split
       · rfl
       · exact finish_save_field _ _ _ _ _)

theorem tab_field_range (f : Int) (h0 : 0 ≤ f) (h3 : f ≤ 3) :
    (f + 1).tmod 4 = (f + 1) % 4 ∧ 0 ≤ (f + 1).tmod 4 ∧ (f + 1).tmod 4 ≤ 3 := by
  have : f = 0 ∨ f = 1 ∨ f = 2 ∨ f = 3 := by omega
  rcases this with rfl | rfl | rfl | rfl <;> decide

theorem on_dialog_event_field (env : Env) (ev : Event) (s : TaskListView)
    (h : field_in_range s) : field_in_range (on_dialog_event env ev s) := by
  unfold on_dialog_event
  dsimp only
  cases ev with
  | enter =>
    dsimp only
    unfold field_in_range
    split_ifs
    · rw [save_subtask_field]; exact h
    · rw [save_task_field]; exact h
  | tab =>
    have := tab_field_range s.current_input_field h.1 h.2
    exact ⟨this.2.1, this.2.2⟩
  | character c =>
    dsimp only [append_active]
    repeat' split
    all_goals exact h
  | backspace => dsimp only; split_ifs <;> exact h
  | _ => exact h

theorem dialogs_field (env : Env) (s : TaskListView) (h : field_in_range s) :
    field_in_range (add_task_dialog s) ∧ field_in_range (edit_task_dialog env s) ∧
      field_in_range (delete_task_dialog s) ∧ field_in_range (add_subtask_dialog s) ∧
      field_in_range (show_ai_suggestions env s) ∧
      field_in_range (show_schedule_summary env s) ∧
      field_in_range (show_settings s) ∧ field_in_range (sync_to_sheets s) ∧
      field_in_range (show_help s) := by
  have h00 : (0 : Int) ≤ 0 ∧ (0 : Int) ≤ 3 := by decide
  refine ⟨h00, ?_, ?_, ?_, ?_, ?_, h, h, h⟩
  · unfold edit_task_dialog; split
    · exact h
    · exact h00
  · unfold delete_task_dialog; split <;> exact h
  · unfold add_subtask_dialog; split
    · exact h
    · exact h00
  · unfold show_ai_suggestions; dsimp only; repeat' split
    all_goals exact h
  · unfold show_schedule_summary; split <;> exact h

theorem on_event_field (env : Env) (ev : Event) (s : TaskListView)
    (h : field_in_range s) : field_in_range (on_event env ev s).1 := by
  unfold on_event
  cases hv : s.current_view with
  | delete_confirm =>
    dsimp only
    unfold field_in_range
    split_ifs
    · rw [confirm_delete_field]; exact h
    · exact h
  | add => exact on_dialog_event_field env ev s h
  | edit => exact on_dialog_event_field env ev s h
  | add_subtask => exact on_dialog_event_field env ev s h
  | settings =>
    dsimp only
    split_ifs
    all_goals exact h
  | help => exact h
  | ai_suggestions => exact h
  | list =>
    dsimp only
    cases ev with
    | arrow_up => dsimp only; split_ifs <;> exact h
    | arrow_down => dsimp only; split_ifs <;> exact h
    | character c =>
      dsimp only
      by_cases hc : c = ['q']
      · rw [if_pos hc]; exact h
      rw [if_neg hc]; clear hc
      by_cases hc : c = ['a']
      · rw [if_pos hc]; exact (dialogs_field env s h).1
      rw [if_neg hc]; clear hc
      by_cases hc : c = ['e']
      · rw [if_pos hc]; exact (dialogs_field env s h).2.1
      rw [if_neg hc]; clear hc
      by_cases hc : c = ['d']
      · rw [if_pos hc]; exact (dialogs_field env s h).2.2.1
      rw [if_neg hc]; clear hc
      by_cases hc : c = ['t']
      · rw [if_pos hc]; exact (dialogs_field env s h).2.2.2.1
      rw [if_neg hc]; clear hc
      by_cases hc : c = [' ']
      · rw [if_pos hc]
        unfold field_in_range
        rw [toggle_field]; exact h
      rw [if_neg hc]; clear hc
      by_cases hc : c = ['s']
      · rw [if_pos hc]; exact (dialogs_field env s h).2.2.2.2.1
      rw [if_neg hc]; clear hc
      by_cases hc : c = ['S']
      · rw [if_pos hc]; exact (dialogs_field env s h).2.2.2.2.2.1
      rw [if_neg hc]; clear hc
      by_cases hc : c = ['g']
      · rw [if_pos hc]; exact (dialogs_field env s h).2.2.2.2.2.2.1
      rw [if_neg hc]; clear hc
      by_cases hc : c = ['G']
      · rw [if_pos hc]; exact (dialogs_field env s h).2.2.2.2.2.2.2.1
      rw [if_neg hc]; clear hc
      by_cases hc : c = ['c']
      · rw [if_pos hc]; exact h
      rw [if_neg hc]; clear hc
      by_cases hc : c = ['h']
      · rw [if_pos hc]; exact (dialogs_field env s h).2.2.2.2.2.2.2.2
      rw [if_neg hc]; clear hc
      exact h
    | _ => exact h

theorem run_events_field (events : List (Env × Event)) (s : TaskListView)
    (h : field_in_range s) : field_in_range (run_events events s) := by
  induction events generalizing s with
  | nil => exact h
  | cons e rest ih =>
    obtain ⟨env, ev⟩ := e
    exact ih _ (on_event_field env ev s h)

theorem on_event_tab (env : Env) (s : TaskListView) (hv : is_dialog s.current_view) :
    (on_event env Event.tab s).1 =
      { s with current_input_field := (s.current_input_field + 1).tmod 4 } := by
  rcases hv with h | h | h <;> simp [on_event, on_dialog_event, h]

/-- C23: in a dialog view Tab sets the index of the active field f to
(f + 1) % 4 (the `%` of C++) and changes nothing else; for f in {0,1,2,3} that
is (f + 1) mod 4, again in {0,1,2,3}, and four Tabs in a row give the state
back; each of the three dialogs opens with the index 0; and after the
constructor and every sequence of events, in every view, the index is in
{0,1,2,3}. -/
theorem tab_cycles_active_field (env : Env) (s : TaskListView)
    (hv : is_dialog s.current_view) :
    (on_event env Event.tab s).1 =
      { s with current_input_field := (s.current_input_field + 1).tmod 4 } ∧
    (field_in_range s →
      (on_event env Event.tab s).1.current_input_field = (s.current_input_field + 1) % 4 ∧
      field_in_range (on_event env Event.tab s).1 ∧
      run_events [(env, Event.tab), (env, Event.tab), (env, Event.tab), (env, Event.tab)] s =
        s) ∧
    (∀ x : TaskListView,
      (add_task_dialog x).current_input_field = 0 ∧
      (has_selection x → (edit_task_dialog env x).current_input_field = 0 ∧
        (add_subtask_dialog x).current_input_field = 0)) ∧
    (∀ (w : World) (events : List (Env × Event)),
      field_in_range (run_events events (TaskListView.init w))) := by
  have htab := on_event_tab env s hv
  refine ⟨htab, ?_, ?_, ?_⟩
  · intro hr
    have h1 := tab_field_range s.current_input_field hr.1 hr.2
    refine ⟨by rw [htab]; exact h1.1, by rw [htab]; exact ⟨h1.2.1, h1.2.2⟩, ?_⟩
    have : s.current_input_field = 0 ∨ s.current_input_field = 1 ∨
        s.current_input_field = 2 ∨ s.current_input_field = 3 := by
      have := hr.1; have := hr.2; omega
    clear htab h1 hr
    obtain ⟨w, tasks, idx, showc, status, view, sp, pv, pm, idesc, iprio, idue, ilink, iprog,
      field⟩ := s
    dsimp only at this hv
    rcases hv with rfl | rfl | rfl <;> rcases this with rfl | rfl | rfl | rfl <;> rfl
  · intro x
    refine ⟨rfl, fun hx => ?_⟩
    have hn := no_selection_eq_false x hx
    simp [edit_task_dialog, add_subtask_dialog, hn]
  · intro w events
    apply run_events_field
    have h0 : (TaskListView.init w).current_input_field = 0 := rfl
    unfold field_in_range
    rw [h0]
    decide

/-- C23 at the add dialog over the sample store with the link field active:
Tab moves to the progress field, and four Tabs come back to the link field. -/
theorem tab_cycles_active_field_witness :
    (on_event sample_env Event.tab
      (sample_dialog View.add 2 "x".toList 1 [] 0)).1.current_input_field = 3 ∧
    run_events [(sample_env, Event.tab), (sample_env, Event.tab), (sample_env, Event.tab),
      (sample_env, Event.tab)] (sample_dialog View.add 2 "x".toList 1 [] 0) =
      sample_dialog View.add 2 "x".toList 1 [] 0 :=
  have h := (tab_cycles_active_field sample_env (sample_dialog View.add 2 "x".toList 1 [] 0)
    (Or.inl rfl)).2.1 (by decide)
  ⟨by rw [h.1]; decide, h.2.2⟩

theorem well_formed_digit (c : Str) (d : Char) (rest : Str) (hc : c = d :: rest)
    (hwf : (Event.character c).well_formed) (hd : isdigit d = true) : rest = [] := by
  subst hc
  have hlt : d.toNat < 0x80 := by
    unfold isdigit at hd
    simp only [Bool.and_eq_true, decide_eq_true_eq] at hd
    have h2 : d.toNat ≤ '9'.toNat := hd.2
    have : '9'.toNat = 57 := rfl
    omega
  simp only [Event.well_formed, utf8_lead, hlt, if_true] at hwf
  exact List.length_eq_zero.mp hwf

theorem on_dialog_event_frame (env : Env) (ev : Event) (s : TaskListView)
    (hne : ev ≠ Event.enter) (hwf : ev.well_formed) (h0 : 0 ≤ s.input_progress)
    (h1 : s.input_progress ≤ 100) :
    (on_dialog_event env ev s).w = s.w ∧ (on_dialog_event env ev s).tasks = s.tasks ∧
      (on_dialog_event env ev s).selected_index = s.selected_index ∧
      (on_dialog_event env ev s).show_completed = s.show_completed ∧
      (ev ≠ Event.escape → (on_dialog_event env ev s).current_view = s.current_view) := by
  cases ev with
  | enter => exact absurd rfl hne
  | escape => exact ⟨rfl, rfl, rfl, rfl, fun h => absurd rfl h⟩
  | tab => exact ⟨rfl, rfl, rfl, rfl, fun _ => rfl⟩
  | arrow_up => exact ⟨rfl, rfl, rfl, rfl, fun _ => rfl⟩
  | arrow_down => exact ⟨rfl, rfl, rfl, rfl, fun _ => rfl⟩
  | other => exact ⟨rfl, rfl, rfl, rfl, fun _ => rfl⟩
  | backspace =>
    unfold on_dialog_event
    dsimp only
    split_ifs <;> exact ⟨rfl, rfl, rfl, rfl, fun _ => rfl⟩
  | character c =>
    by_cases hdig : s.current_input_field = 3 ∧ c ≠ ['+'] ∧ c ≠ ['-'] ∧
        ∃ d rest, c = d :: rest ∧ isdigit d = true
    · obtain ⟨hf, hp, hm, d, rest, hc, hd⟩ := hdig
      have hrest := well_formed_digit c d rest hc hwf hd
      subst hrest
      subst hc
      have hplus : d ≠ '+' := by rintro rfl; revert hd; decide
      have hminus : d ≠ '-' := by rintro rfl; revert hd; decide
      have hst := stoi_progress_digit s.input_progress d h0 h1 hd
      rw [on_progress_char env s d hf hplus hminus, if_pos hd, hst.1]
      simp only [Option.elim]
      split_ifs <;> exact ⟨rfl, rfl, rfl, rfl, fun _ => rfl⟩
    · unfold on_dialog_event
      dsimp only [append_active]
      by_cases hp : c = ['+']
      · rw [if_pos hp]
        split_ifs <;> exact ⟨rfl, rfl, rfl, rfl, fun _ => rfl⟩
      rw [if_neg hp]
      by_cases hm : c = ['-']
      · rw [if_pos hm]
        split_ifs <;> exact ⟨rfl, rfl, rfl, rfl, fun _ => rfl⟩
      rw [if_neg hm]
      by_cases hf : s.current_input_field = 3
      · rw [if_pos hf]
        cases c with
        | nil => exact ⟨rfl, rfl, rfl, rfl, fun _ => rfl⟩
        | cons d rest =>
          have hnd : ¬ ('0' ≤ d ∧ d ≤ '9') := by
            intro hd
            apply hdig
            exact ⟨hf, hp, hm, d, rest, rfl, by simpa [isdigit] using hd⟩
          dsimp only
          rw [if_neg hnd]
          exact ⟨rfl, rfl, rfl, rfl, fun _ => rfl⟩
      · rw [if_neg hf]
        split_ifs <;> exact ⟨rfl, rfl, rfl, rfl, fun _ => rfl⟩

theorem on_dialog_event_command_char (env : Env) (s : TaskListView) (c : Char)
    (hc : c = 'q' ∨ c = 'a' ∨ c = 'd' ∨ c = 'c' ∨ c = ' ') :
    on_dialog_event env (Event.character [c]) s = append_active s [c] := by
  unfold on_dialog_event
  dsimp only
  rcases hc with rfl | rfl | rfl | rfl | rfl <;>
    · rw [if_neg (by decide), if_neg (by decide)]
      by_cases hf : s.current_input_field = 3
      · rw [if_pos hf, if_neg (by decide)]
        simp [append_active, hf]
      · rw [if_neg hf]

/-- C28: in a dialog view, with the progress buffer in [0,100], an event other
than Enter (the text of a character event being one character) leaves the
collaborators as they are (no call on the store, the cache or the AI service,
and the loop is not left), and the task list, the selection and the filter;
Escape ends in the list view, every other such event stays in the dialog; and
the characters `q`, `a`, `d`, `c` and space are appended to the buffer of the
active field 0, 1 or 2 (the progress field takes no text). -/
theorem dialog_events_only_edit_buffers (env : Env) (ev : Event) (s : TaskListView)
    (hv : is_dialog s.current_view) (hne : ev ≠ Event.enter) (hwf : ev.well_formed)
    (h0 : 0 ≤ s.input_progress) (h1 : s.input_progress ≤ 100) :
    let s' := (on_event env ev s).1
    s'.w = s.w ∧ s'.tasks = s.tasks ∧ s'.selected_index = s.selected_index ∧
    s'.show_completed = s.show_completed ∧
    (ev = Event.escape → s'.current_view = View.list ∧ s'.w.exited = s.w.exited) ∧
    (ev ≠ Event.escape → s'.current_view = s.current_view) ∧
    (∀ c : Char, (c = 'q' ∨ c = 'a' ∨ c = 'd' ∨ c = 'c' ∨ c = ' ') →
      ev = Event.character [c] →
      s' = append_active s [c] ∧
      (s.current_input_field = 0 → s'.input_description = s.input_description ++ [c]) ∧
      (s.current_input_field = 1 → s'.input_due_date = s.input_due_date ++ [c]) ∧
      (s.current_input_field = 2 → s'.input_link = s.input_link ++ [c])) := by
  intro s'
  have e : s' = on_dialog_event env ev s := by
    rcases hv with h | h | h <;> simp [s', on_event, h]
  have hfr := on_dialog_event_frame env ev s hne hwf h0 h1
  rw [← e] at hfr
  refine ⟨hfr.1, hfr.2.1, hfr.2.2.1, hfr.2.2.2.1, ?_, hfr.2.2.2.2, ?_⟩
  · intro hesc
    subst hesc
    rw [e]
    exact ⟨rfl, rfl⟩
  · intro c hc hev
    subst hev
    have ha := on_dialog_event_command_char env s c hc
    rw [← e] at ha
    rw [ha]
    refine ⟨rfl, ?_, ?_, ?_⟩ <;> intro hf <;> simp [append_active, hf]

/-- C28 at the add dialog over the sample store: `q` is appended to the
description and the loop is not left. -/
theorem dialog_events_only_edit_buffers_witness :
    (on_event sample_env (Event.character ['q'])
      (sample_dialog View.add 0 "x".toList 1 [] 0)).1.input_description = "xq".toList ∧
    (on_event sample_env (Event.character ['q'])
      (sample_dialog View.add 0 "x".toList 1 [] 0)).1.w.exited = false :=
  have h := dialog_events_only_edit_buffers sample_env (Event.character ['q'])
    (sample_dialog View.add 0 "x".toList 1 [] 0) (Or.inl rfl) (by decide)
    (by simp [Event.well_formed, utf8_lead]) (by decide) (by decide)
  ⟨(h.2.2.2.2.2.2 'q' (Or.inl rfl) rfl).2.1 rfl, by rw [h.1]; rfl⟩

/-! ### The line of a task -/

theorem count_completed_foldl (l : List Task) (k : Int) :
    l.foldl (fun n st => if st.is_completed then n + 1 else n) k =
      k + ((l.filter (fun st => st.is_completed)).length : Int) := by
  induction l generalizing k with
  | nil => simp
  | cons a l ih =>
    rw [List.foldl_cons, ih]
    cases h : a.is_completed
    · simp [h]
    · simp [h]
      omega

theorem ite_append1 (c : Prop) [Decidable c] (x a : Str) :
    (if c then x ++ a else x) = x ++ (if c then a else []) := by
  split_ifs <;> simp

theorem ite_append3 (c : Prop) [Decidable c] (x a b d : Str) :
    (if c then x ++ a ++ b ++ d else x) = x ++ (if c then a ++ b ++ d else []) := by
  split_ifs <;> simp

theorem ite_append5 (c : Prop) [Decidable c] (x a b d e f : Str) :
    (if c then x ++ a ++ b ++ d ++ e ++ f else x) =
      x ++ (if c then a ++ b ++ d ++ e ++ f else []) := by
  split_ifs <;> simp

theorem ite_append_three_way (c1 c2 : Prop) [Decidable c1] [Decidable c2]
    (x a b d e : Str) :
    (if c1 then x ++ a ++ e else if c2 then x ++ b ++ e else x ++ d ++ e) =
      x ++ ((if c1 then a else if c2 then b else d) ++ e) := by
  split_ifs <;> simp

/-- C22: the line of a task is the concatenation of the completion marker, the
priority marker, the description, the due date part (with the overdue words
inside it exactly when the task is overdue), the link count, the subtask word,
the ratio of completed children (c of n, with c at most n, when n is positive)
and the progress part, the children being those the store returns for the id of
the task; computing it makes the one call `get_subtasks`, which is no write,
and leaves the store, the cache and every member of the controller as they
are. -/
theorem format_task_is_reference (env : Env) (s : TaskListView) (t : Task) (sel : Bool) :
    (format_task env s t sel).2 = format_reference env t (s.w.db.get_subtasks t.id) ∧
    ((s.w.db.get_subtasks t.id).filter (fun st => st.is_completed)).length ≤
      (s.w.db.get_subtasks t.id).length ∧
    (format_task env s t sel).1 = { s with w := s.w.log (Call.get_subtasks t.id) } ∧
    (format_task env s t sel).1.w.calls = s.w.calls ++ [Call.get_subtasks t.id] ∧
    (Call.get_subtasks t.id).is_store_write = false ∧
    (Call.get_subtasks t.id).is_cache_call = false ∧
    (format_task env s t sel).1.w.db = s.w.db ∧
    (format_task env s t sel).1.w.redis = s.w.redis ∧
    (format_task env s t sel).1.w.exited = s.w.exited := by
  refine ⟨?_, List.length_filter_le _ _, rfl, rfl, rfl, rfl, rfl, rfl, rfl⟩
  unfold format_task format_reference completion_marker priority_marker
  simp only [World.get_subtasks, count_completed_foldl, zero_add, Task.is_subtask]
  have hl : ∀ l : List Task, ((!l.isEmpty) = true) = (0 < l.length) := by
    intro l; cases l <;> simp
  have hl2 : ∀ l : List Str, ((!l.isEmpty) = true) = (l ≠ []) := by
    intro l; cases l <;> simp
  simp only [hl, hl2, gt_iff_lt]
  simp only [ite_append1, ite_append3, ite_append5, ite_append_three_way]
  simp only [List.append_assoc, List.append_nil]
  split_ifs <;> simp only [List.append_assoc, List.append_nil, List.nil_append]

/-! ### The database path of the configuration -/

theorem except_bind_ok {ε α β : Type} (x : Except ε α) (f : α → Except ε β) (b : β)
    (h : x >>= f = Except.ok b) : ∃ a, x = Except.ok a ∧ f a = Except.ok b := by
  cases x with
  | error e => cases h
  | ok a => exact ⟨a, rfl, h⟩

theorem load_member_path {α : Type} (j : JsonValue) (key : Str) (get : JsonValue → Option α)
    (put : ConfigManager → α → ConfigManager) (c c' : ConfigManager)
    (h : load_member j key get put c = Except.ok c')
    (hput : ∀ c v, (put c v).database_path = c.database_path) :
    c'.database_path = c.database_path := by
  unfold load_member at h
  split_ifs at h
  · cases hg : get (j.section_at key) with
    | none => rw [hg] at h; cases h
    | some v =>
      rw [hg] at h
      cases h
      exact hput c v
  · cases h
    rfl

theorem load_ai_path (j : JsonValue) (c c' : ConfigManager)
    (h : load_ai j c = Except.ok c') : c'.database_path = c.database_path := by
  unfold load_ai at h
  split_ifs at h
  · dsimp only at h
    obtain ⟨c4, h4, h5⟩ := except_bind_ok _ _ _ h
    obtain ⟨c3, h3, h4⟩ := except_bind_ok _ _ _ h4
    obtain ⟨c2, h2, h3⟩ := except_bind_ok _ _ _ h3
    obtain ⟨c1, h1, h2⟩ := except_bind_ok _ _ _ h2
    rw [load_member_path _ _ _ _ _ _ h5 (fun _ _ => rfl),
      load_member_path _ _ _ _ _ _ h4 (fun _ _ => rfl),
      load_member_path _ _ _ _ _ _ h3 (fun _ _ => rfl),
      load_member_path _ _ _ _ _ _ h2 (fun _ _ => rfl),
      load_member_path _ _ _ _ _ _ h1 (fun _ _ => rfl)]
  · cases h
    rfl

theorem load_redis_path (j : JsonValue) (c c' : ConfigManager)
    (h : load_redis j c = Except.ok c') : c'.database_path = c.database_path := by
  unfold load_redis at h
  split_ifs at h
  · dsimp only at h
    obtain ⟨c2, h2, h3⟩ := except_bind_ok _ _ _ h
    obtain ⟨c1, h1, h2⟩ := except_bind_ok _ _ _ h2
    rw [load_member_path _ _ _ _ _ _ h3 (fun _ _ => rfl),
      load_member_path _ _ _ _ _ _ h2 (fun _ _ => rfl),
      load_member_path _ _ _ _ _ _ h1 (fun _ _ => rfl)]
  · cases h
    rfl

theorem load_google_sheets_path (j : JsonValue) (c c' : ConfigManager)
    (h : load_google_sheets j c = Except.ok c') : c'.database_path = c.database_path := by
  unfold load_google_sheets at h
  split_ifs at h
  · dsimp only at h
    obtain ⟨c2, h2, h3⟩ := except_bind_ok _ _ _ h
    obtain ⟨c1, h1, h2⟩ := except_bind_ok _ _ _ h2
    rw [load_member_path _ _ _ _ _ _ h3 (fun _ _ => rfl),
      load_member_path _ _ _ _ _ _ h2 (fun _ _ => rfl),
      load_member_path _ _ _ _ _ _ h1 (fun _ _ => rfl)]
  · cases h
    rfl

/-- The database block: the path read when the object has a `database` member
with a `path`, the path as it was otherwise. -/
theorem load_database_path (j : JsonValue) (c c' : ConfigManager)
    (h : load_database j c = Except.ok c') :
    (j.contains "database".toList = true ∧
        (j.section_at "database".toList).contains "path".toList = true →
      ((j.section_at "database".toList).section_at "path".toList).get_string =
        some c'.database_path) ∧
    (¬ (j.contains "database".toList = true ∧
        (j.section_at "database".toList).contains "path".toList = true) →
      c'.database_path = c.database_path) := by
  unfold load_database at h
  by_cases hd : j.contains "database".toList = true
  · rw [if_pos hd] at h
    dsimp only at h
    unfold load_member at h
    by_cases hp : (j.section_at "database".toList).contains "path".toList = true
    · rw [if_pos hp] at h
      cases hg : ((j.section_at "database".toList).section_at "path".toList).get_string with
      | none => rw [hg] at h; cases h
      | some v =>
        rw [hg] at h
        cases h
        exact ⟨fun _ => rfl, fun hn => absurd ⟨hd, hp⟩ hn⟩
    · rw [if_neg hp] at h
      cases h
      exact ⟨fun hh => absurd hh.2 hp, fun _ => rfl⟩
  · rw [if_neg hd] at h
    cases h
    exact ⟨fun hh => absurd hh.1 hd, fun _ => rfl⟩

theorem load_prompts_path (j : JsonValue) (c c' : ConfigManager)
    (h : load_prompts j c = Except.ok c') :
    (j.contains "prompts".toList = true ∧ j.contains "database".toList = true ∧
        (j.section_at "database".toList).contains "path".toList = true →
      ((j.section_at "database".toList).section_at "path".toList).get_string =
        some c'.database_path) ∧
    (¬ (j.contains "prompts".toList = true ∧ j.contains "database".toList = true ∧
        (j.section_at "database".toList).contains "path".toList = true) →
      c'.database_path = c.database_path) := by
  unfold load_prompts at h
  by_cases hp : j.contains "prompts".toList = true
  · rw [if_pos hp] at h
    dsimp only at h
    obtain ⟨c2, h2, h3⟩ := except_bind_ok _ _ _ h
    obtain ⟨c1, h1, h2⟩ := except_bind_ok _ _ _ h2
    have e1 := load_member_path _ _ _ _ _ _ h1 (fun _ _ => rfl)
    have e2 := load_member_path _ _ _ _ _ _ h2 (fun _ _ => rfl)
    have hdb := load_database_path j c2 c' h3
    refine ⟨fun hh => hdb.1 hh.2, fun hn => ?_⟩
    rw [hdb.2 (fun hh => hn ⟨hp, hh⟩), e2, e1]
  · rw [if_neg hp] at h
    cases h
    exact ⟨fun hh => absurd hh.1 hp, fun _ => rfl⟩

/-- C30: when `load_config` returns `true` on a parsed configuration (no
conversion throws), the database path afterwards is the text at
`database.path` if the object has a top-level `prompts` key and a `database`
member with a `path` key, and is the path as it was before in every other case;
in particular without `prompts` a `database.path` that is present is not read.
The path of a fresh `ConfigManager` is `tasks.db`. -/
theorem database_path_needs_prompts (c : ConfigManager) (j : JsonValue)
    (hok : (c.load_config (some (some j))).2 = true) :
    (j.contains "prompts".toList = true ∧ j.contains "database".toList = true ∧
        (j.section_at "database".toList).contains "path".toList = true →
      ((j.section_at "database".toList).section_at "path".toList).get_string =
        some (c.load_config (some (some j))).1.get_database_path) ∧
    (¬ (j.contains "prompts".toList = true ∧ j.contains "database".toList = true ∧
        (j.section_at "database".toList).contains "path".toList = true) →
      (c.load_config (some (some j))).1.get_database_path = c.get_database_path) ∧
    (j.contains "prompts".toList = false →
      (c.load_config (some (some j))).1.get_database_path = c.get_database_path) ∧
    ({} : ConfigManager).get_database_path = "tasks.db".toList := by
  have key : ∀ c1, load_ai j c >>= load_prompts j >>= load_redis j >>=
      load_google_sheets j = Except.ok c1 →
      (j.contains "prompts".toList = true ∧ j.contains "database".toList = true ∧
          (j.section_at "database".toList).contains "path".toList = true →
        ((j.section_at "database".toList).section_at "path".toList).get_string =
          some c1.database_path) ∧
      (¬ (j.contains "prompts".toList = true ∧ j.contains "database".toList = true ∧
          (j.section_at "database".toList).contains "path".toList = true) →
        c1.database_path = c.database_path) := by
    intro c1 h
    obtain ⟨c4, h3, h4⟩ := except_bind_ok _ _ _ h
    obtain ⟨c3, h2, h3⟩ := except_bind_ok _ _ _ h3
    obtain ⟨c2, h1, h2⟩ := except_bind_ok _ _ _ h2
    have e1 := load_ai_path j c c2 h1
    have e3 := load_redis_path j c3 c4 h3
    have e4 := load_google_sheets_path j c4 c1 h4
    have hp := load_prompts_path j c2 c3 h2
    rw [e4, e3]
    refine ⟨hp.1, fun hn => ?_⟩
    rw [hp.2 hn, e1]
  unfold ConfigManager.load_config at hok ⊢
  dsimp only at hok ⊢
  cases hr : load_ai j c >>= load_prompts j >>= load_redis j >>= load_google_sheets j with
  | error e => rw [hr] at hok; cases hok
  | ok c1 =>
    have hk := key c1 hr
    refine ⟨hk.1, hk.2, fun hp => hk.2 (fun hh => ?_), rfl⟩
    rw [hp] at hh
    exact absurd hh.1 (by decide)

/-- C30 at a configuration that has `database.path` and no `prompts`: the load
succeeds and the path stays `tasks.db`; with `prompts` added the path read is
x.db. -/
theorem database_path_needs_prompts_witness :
    (({} : ConfigManager).load_config (some (some sample_config_database_only))).2 = true ∧
    (({} : ConfigManager).load_config
      (some (some sample_config_database_only))).1.get_database_path = "tasks.db".toList ∧
    (({} : ConfigManager).load_config (some (some sample_config_with_prompts))).2 = true ∧
    some "x.db".toList =
      some (({} : ConfigManager).load_config
        (some (some sample_config_with_prompts))).1.get_database_path :=
  ⟨by decide,
    (database_path_needs_prompts {} sample_config_database_only (by decide)).2.2.1
      (by decide),
    by decide,
    (database_path_needs_prompts {} sample_config_with_prompts (by decide)).1
      ⟨by decide, by decide, by decide⟩⟩

end Teminder
